import Mathlib

/-!
Verification development for the luna cubesphere LOD engine.

The C++ sources of `src/` are shallowly embedded: `glm::dvec3` becomes
`Luna.Vec3` over `ℝ`; `ChunkGenerator` becomes pure functions producing
vertex/index lists; `CubesphereBody::update`/`updateNode` become a
state-passing function over a quadtree type whose four child slots are
individually nullable (mirroring the four `std::unique_ptr` members), with
an explicit fuel argument standing for the call stack (the C++ recursion
terminates because splits are capped at `MAX_DEPTH`; the fuel is chosen so
that the zero-fuel branch is unreachable for depth-consistent trees).
Device interaction (`StagingBatch`, one-shot command submission followed by
`vkQueueWaitIdle`, deferred destruction) is modelled by an explicit event
log: `endOneShot` is submission plus confirmed device completion in one
atomic step, exactly as in `CommandPool::endOneShot`.
-/

namespace Luna

/-- Model of `glm::dvec3`: a triple of real numbers (doubles are abstracted
as reals throughout this development). -/
structure Vec3 where
  x : ℝ
  y : ℝ
  z : ℝ

namespace Vec3

def add (a b : Vec3) : Vec3 := ⟨a.x + b.x, a.y + b.y, a.z + b.z⟩

def sub (a b : Vec3) : Vec3 := ⟨a.x - b.x, a.y - b.y, a.z - b.z⟩

def smul (r : ℝ) (a : Vec3) : Vec3 := ⟨r * a.x, r * a.y, r * a.z⟩

def zero : Vec3 := ⟨0, 0, 0⟩

/-- Model of `glm::dot`. -/
def dot (a b : Vec3) : ℝ := a.x * b.x + a.y * b.y + a.z * b.z

/-- Model of `glm::cross`. -/
def cross (a b : Vec3) : Vec3 :=
  ⟨a.y * b.z - a.z * b.y, a.z * b.x - a.x * b.z, a.x * b.y - a.y * b.x⟩

/-- Squared euclidean length. -/
def lengthSq (a : Vec3) : ℝ := a.x * a.x + a.y * a.y + a.z * a.z

/-- Model of `glm::length`. -/
noncomputable def length (a : Vec3) : ℝ := Real.sqrt a.lengthSq

/-- Model of `glm::normalize` (`v / |v|`; the C++ value is NaN when
`|v| = 0`, here division by zero yields `Vec3.zero`, and every claim about
degenerate normalization is stated via the cross product being zero rather
than via NaN). -/
noncomputable def normalize (a : Vec3) : Vec3 := smul (length a)⁻¹ a

theorem lengthSq_nonneg (a : Vec3) : 0 ≤ a.lengthSq := by
  unfold lengthSq
  have hx := mul_self_nonneg a.x
  have hy := mul_self_nonneg a.y
  have hz := mul_self_nonneg a.z
  linarith

theorem length_nonneg (a : Vec3) : 0 ≤ a.length := Real.sqrt_nonneg _

theorem sq_length (a : Vec3) : a.length * a.length = a.lengthSq :=
  Real.mul_self_sqrt a.lengthSq_nonneg

theorem lengthSq_eq_zero_iff (a : Vec3) : a.lengthSq = 0 ↔ a = zero := by
  unfold lengthSq zero
  constructor
  · intro h
    have hx : a.x = 0 := by nlinarith [sq_nonneg a.x, sq_nonneg a.y, sq_nonneg a.z]
    have hy : a.y = 0 := by nlinarith [sq_nonneg a.x, sq_nonneg a.y, sq_nonneg a.z]
    have hz : a.z = 0 := by nlinarith [sq_nonneg a.x, sq_nonneg a.y, sq_nonneg a.z]
    cases a; simp_all
  · intro h; subst h; simp

theorem length_eq_zero_iff (a : Vec3) : a.length = 0 ↔ a = zero := by
  unfold length
  rw [Real.sqrt_eq_zero a.lengthSq_nonneg]
  exact a.lengthSq_eq_zero_iff

theorem length_pos_of_ne (a : Vec3) (h : a ≠ zero) : 0 < a.length :=
  lt_of_le_of_ne a.length_nonneg fun h0 => h (a.length_eq_zero_iff.mp h0.symm)

theorem lengthSq_smul (r : ℝ) (a : Vec3) :
    (smul r a).lengthSq = r ^ 2 * a.lengthSq := by
  unfold smul lengthSq; ring

theorem length_smul (r : ℝ) (a : Vec3) :
    (smul r a).length = |r| * a.length := by
  unfold length
  rw [lengthSq_smul, Real.sqrt_mul (sq_nonneg r), Real.sqrt_sq_eq_abs]

theorem length_smul_of_nonneg (r : ℝ) (a : Vec3) (h : 0 ≤ r) :
    (smul r a).length = r * a.length := by
  rw [length_smul, abs_of_nonneg h]

/-- A normalized nonzero vector has unit length. -/
theorem length_normalize (a : Vec3) (h : a ≠ zero) : a.normalize.length = 1 := by
  have hp := a.length_pos_of_ne h
  unfold normalize
  rw [length_smul_of_nonneg _ _ (by positivity)]
  field_simp

/-- Lagrange identity specialised to three dimensions. -/
theorem lagrange (a b : Vec3) :
    (cross a b).lengthSq = a.lengthSq * b.lengthSq - (dot a b) ^ 2 := by
  unfold cross lengthSq dot; ring

theorem dot_sq_le (a b : Vec3) : (dot a b) ^ 2 ≤ a.lengthSq * b.lengthSq := by
  have h := (cross a b).lengthSq_nonneg
  rw [lagrange] at h; linarith

/-- Cauchy–Schwarz for the `Vec3` model. -/
theorem abs_dot_le (a b : Vec3) : |dot a b| ≤ a.length * b.length := by
  have hnn : 0 ≤ a.length * b.length :=
    mul_nonneg a.length_nonneg b.length_nonneg
  have h2 : (a.length * b.length) ^ 2 = a.lengthSq * b.lengthSq := by
    have ha := a.sq_length; have hb := b.sq_length; nlinarith
  have hsq : (dot a b) ^ 2 ≤ (a.length * b.length) ^ 2 := by
    rw [h2]; exact a.dot_sq_le b
  exact abs_le.mpr ⟨by nlinarith, by nlinarith⟩

theorem dot_le (a b : Vec3) : dot a b ≤ a.length * b.length :=
  (le_abs_self _).trans (a.abs_dot_le b)

theorem neg_dot_le (a b : Vec3) : -(a.length * b.length) ≤ dot a b := by
  have := (a.abs_dot_le b)
  have := neg_abs_le (dot a b)
  linarith

theorem lengthSq_sub (a b : Vec3) :
    (sub a b).lengthSq = a.lengthSq - 2 * dot a b + b.lengthSq := by
  unfold sub lengthSq dot; ring

/-- Triangle-type bound for differences. -/
theorem length_sub_le (a b : Vec3) : (sub a b).length ≤ a.length + b.length := by
  have h1 : (sub a b).lengthSq ≤ (a.length + b.length) ^ 2 := by
    rw [lengthSq_sub]
    have hd := a.neg_dot_le b
    have ha := a.sq_length
    have hb := b.sq_length
    nlinarith
  calc (sub a b).length = Real.sqrt (sub a b).lengthSq := rfl
    _ ≤ Real.sqrt ((a.length + b.length) ^ 2) := Real.sqrt_le_sqrt h1
    _ = a.length + b.length := by
        rw [Real.sqrt_sq (add_nonneg a.length_nonneg b.length_nonneg)]

/-- Compare lengths through squared lengths. -/
theorem length_lt_length_iff (a b : Vec3) :
    a.length < b.length ↔ a.lengthSq < b.lengthSq := by
  constructor
  · intro h
    have ha := a.sq_length
    have hb := b.sq_length
    have h0 := a.length_nonneg
    nlinarith
  · intro h
    have := Real.sqrt_lt_sqrt a.lengthSq_nonneg h
    simpa [length] using this

theorem length_le_of_sq_le (a : Vec3) (c : ℝ) (hc : 0 ≤ c)
    (h : a.lengthSq ≤ c ^ 2) : a.length ≤ c := by
  calc a.length = Real.sqrt a.lengthSq := rfl
    _ ≤ Real.sqrt (c ^ 2) := Real.sqrt_le_sqrt h
    _ = c := Real.sqrt_sq hc

theorem le_length_of_sq_le (a : Vec3) (c : ℝ) (hc : 0 ≤ c)
    (h : c ^ 2 ≤ a.lengthSq) : c ≤ a.length := by
  calc c = Real.sqrt (c ^ 2) := (Real.sqrt_sq hc).symm
    _ ≤ Real.sqrt a.lengthSq := Real.sqrt_le_sqrt h

end Vec3

/-! ## ChunkGenerator (src/scene/ChunkGenerator.cpp)

The heightfield `luna::sim::sampleTerrainHeight` is an external collaborator
(spec section 6); it is a parameter `hf : ℝ → ℝ → ℝ` of every definition that
samples terrain. `std::atan2` is modelled explicitly; `uint32_t` subtraction
`gridSize - 1` is modelled with wrap-around semantics (`u32sub1`). -/

namespace ChunkGenerator

open Vec3

/-- The `switch (face)` block of `ChunkGenerator::facePointToSphere` before
normalization, default case included. -/
def facePointRaw (face : ℤ) (u v : ℝ) : Vec3 :=
  if face = 0 then ⟨1, u, v⟩
  else if face = 1 then ⟨-1, -u, v⟩
  else if face = 2 then ⟨u, 1, -v⟩
  else if face = 3 then ⟨u, -1, v⟩
  else if face = 4 then ⟨u, v, 1⟩
  else if face = 5 then ⟨-u, v, -1⟩
  else ⟨1, 0, 0⟩

/-- Model of `ChunkGenerator::facePointToSphere`. -/
noncomputable def facePointToSphere (face : ℤ) (u v : ℝ) : Vec3 :=
  (facePointRaw face u v).normalize

/-- Model of `std::atan2`. -/
noncomputable def atan2 (y x : ℝ) : ℝ :=
  if 0 < x then Real.arctan (y / x)
  else if x < 0 then
    (if 0 ≤ y then Real.arctan (y / x) + Real.pi else Real.arctan (y / x) - Real.pi)
  else if 0 < y then Real.pi / 2
  else if y < 0 then -(Real.pi / 2)
  else 0

/-- Latitude from `dirToLatLon` (`asin` of the clamped y component). -/
noncomputable def dirToLat (dir : Vec3) : ℝ :=
  Real.arcsin (min (max dir.y (-1)) 1)

/-- Longitude from `dirToLatLon` (`atan2(dir.z, dir.x)`). -/
noncomputable def dirToLon (dir : Vec3) : ℝ := atan2 dir.z dir.x

/-- Model of the anonymous-namespace helper `sampleWorldPos`. -/
noncomputable def sampleWorldPos (hf : ℝ → ℝ → ℝ) (face : ℤ) (u v radius : ℝ) : Vec3 :=
  let dir := facePointToSphere face u v
  smul (radius + hf (dirToLat dir) (dirToLon dir)) dir

/-- The cross product of the two central-difference tangents computed for a
grid vertex in `ChunkGenerator::generate` (lines 73-80). -/
noncomputable def tangentCross (hf : ℝ → ℝ → ℝ) (face : ℤ)
    (u v halfU halfV radius : ℝ) : Vec3 :=
  let pU0 := sampleWorldPos hf face (u - halfU) v radius
  let pU1 := sampleWorldPos hf face (u + halfU) v radius
  let pV0 := sampleWorldPos hf face u (v - halfV) radius
  let pV1 := sampleWorldPos hf face u (v + halfV) radius
  cross (sub pU1 pU0) (sub pV1 pV0)

/-- Model of `ChunkVertex` as written by `ChunkGenerator.cpp` (position,
normal, height). -/
structure ChunkVertex where
  position : Vec3
  normal : Vec3
  height : ℝ

instance : Inhabited ChunkVertex := ⟨⟨Vec3.zero, Vec3.zero, 0⟩⟩

/-- One grid vertex of `ChunkGenerator::generate` (loop body, lines 65-90). -/
noncomputable def gridVertex (hf : ℝ → ℝ → ℝ) (face : ℤ)
    (u0 uStep v0 vStep halfU halfV radius : ℝ) (worldCenter : Vec3)
    (i j : ℕ) : ChunkVertex :=
  let u := u0 + (i : ℝ) * uStep
  let v := v0 + (j : ℝ) * vStep
  let worldPos := sampleWorldPos hf face u v radius
  let normal := (tangentCross hf face u v halfU halfV radius).normalize
  let lat := dirToLat worldPos.normalize
  let lon := dirToLon worldPos.normalize
  { position := sub worldPos worldCenter, normal := normal, height := hf lat lon }

/-- Wrap-around model of the `uint32_t` expression `n - 1`. -/
def u32sub1 (n : ℕ) : ℕ := (n + (2 ^ 32 - 1)) % 2 ^ 32

structure ChunkMeshData where
  vertices : List ChunkVertex
  indices : List ℕ
  worldCenter : Vec3

/-- One skirt vertex produced by the `addSkirt` lambda (lines 124-145). -/
noncomputable def skirtVertex (verts : List ChunkVertex) (worldCenter : Vec3)
    (skirtDepth : ℝ) (edgeIdx : ℕ) (interiorOffset : ℤ) : ChunkVertex :=
  let sv := verts.getD edgeIdx default
  let worldPos := add sv.position worldCenter
  let dir := worldPos.normalize
  let worldPos1 := sub worldPos (smul skirtDepth dir)
  let interiorIdx := ((edgeIdx : ℤ) + interiorOffset).toNat
  let interiorPos := add (verts.getD interiorIdx default).position worldCenter
  let outward := sub worldPos1 interiorPos
  let outLen := outward.length
  let worldPos2 :=
    if 0 < outLen then add worldPos1 (smul (skirtDepth * 0.5) (smul outLen⁻¹ outward))
    else worldPos1
  { sv with position := sub worldPos2 worldCenter }

/-- Model of the `addSkirt` lambda: appends `count` skirt vertices and the
stitching triangles to the accumulated mesh data. -/
noncomputable def addSkirt (worldCenter : Vec3) (skirtDepth : ℝ)
    (startIdx stride count : ℕ) (flip : Bool) (interiorOffset : ℤ)
    (verts : List ChunkVertex) (inds : List ℕ) : List ChunkVertex × List ℕ :=
  let skirtBase := verts.length
  let newVerts := (List.range count).map fun k =>
    skirtVertex verts worldCenter skirtDepth (startIdx + k * stride) interiorOffset
  let newInds := (List.range (u32sub1 count)).flatMap fun k =>
    let e0 := startIdx + k * stride
    let e1 := startIdx + (k + 1) * stride
    let s0 := skirtBase + k
    let s1 := skirtBase + k + 1
    if flip then [e0, e1, s0, s0, e1, s1] else [e0, s0, e1, e1, s0, s1]
  (verts ++ newVerts, inds ++ newInds)

/-- Model of `ChunkGenerator::generate`.  The vertex and index lists are built
in the same row-major order as the C++ writes them (`idx = j*gridSize+i` with
`j` outer); the `uint32_t` index arithmetic does not overflow for the grid
sizes this development evaluates. -/
noncomputable def generate (hf : ℝ → ℝ → ℝ) (faceIndex : ℤ)
    (u0 u1 v0 v1 radius : ℝ) (gridSize : ℕ) : ChunkMeshData :=
  let g1 := u32sub1 gridSize
  let uStep := (u1 - u0) / (g1 : ℝ)
  let vStep := (v1 - v0) / (g1 : ℝ)
  let uMid := (u0 + u1) * 0.5
  let vMid := (v0 + v1) * 0.5
  let worldCenter := sampleWorldPos hf faceIndex uMid vMid radius
  let halfU := uStep * 0.5
  let halfV := vStep * 0.5
  let verts0 := (List.range gridSize).flatMap fun j =>
    (List.range gridSize).map fun i =>
      gridVertex hf faceIndex u0 uStep v0 vStep halfU halfV radius worldCenter i j
  let inds0 := (List.range g1).flatMap fun j =>
    (List.range g1).flatMap fun i =>
      let tl := j * gridSize + i
      let tr := tl + 1
      let bl := (j + 1) * gridSize + i
      let br := bl + 1
      [tl, bl, tr, tr, bl, br]
  let skirtDepth := 3.0 * (u1 - u0) * radius / (g1 : ℝ)
  let p1 := addSkirt worldCenter skirtDepth 0 1 gridSize false (gridSize : ℤ) verts0 inds0
  let p2 := addSkirt worldCenter skirtDepth (g1 * gridSize) 1 gridSize true
    (-(gridSize : ℤ)) p1.1 p1.2
  let p3 := addSkirt worldCenter skirtDepth 0 gridSize gridSize true 1 p2.1 p2.2
  let p4 := addSkirt worldCenter skirtDepth g1 gridSize gridSize false (-1) p3.1 p3.2
  { vertices := p4.1, indices := p4.2, worldCenter := worldCenter }

theorem facePointRaw_ne_zero (face : ℤ) (u v : ℝ) :
    facePointRaw face u v ≠ Vec3.zero := by
  unfold facePointRaw Vec3.zero
  split_ifs <;> intro h <;> simp_all

/-- Every cube-to-sphere direction is exactly unit length in the real model. -/
theorem facePointToSphere_length (face : ℤ) (u v : ℝ) :
    (facePointToSphere face u v).length = 1 :=
  Vec3.length_normalize _ (facePointRaw_ne_zero face u v)

end ChunkGenerator


theorem Vec3.length_eq_of_sq (a : Vec3) (c : ℝ) (hc : 0 ≤ c)
    (h : a.lengthSq = c ^ 2) : a.length = c := by
  unfold Vec3.length; rw [h]; exact Real.sqrt_sq hc

namespace ChunkGenerator

theorem smul_zero_vec (a : Vec3) : Vec3.smul 0 a = Vec3.zero := by
  unfold Vec3.smul Vec3.zero; simp

theorem smul_vec_zero (r : ℝ) : Vec3.smul r Vec3.zero = Vec3.zero := by
  unfold Vec3.smul Vec3.zero; simp

theorem sub_self_vec (a : Vec3) : Vec3.sub a a = Vec3.zero := by
  unfold Vec3.sub Vec3.zero; simp

theorem cross_zero_left (b : Vec3) : Vec3.cross Vec3.zero b = Vec3.zero := by
  unfold Vec3.cross Vec3.zero; simp

theorem normalize_zero : Vec3.normalize Vec3.zero = Vec3.zero := by
  unfold Vec3.normalize; exact smul_vec_zero _

theorem sampleWorldPos_const (c : ℝ) (face : ℤ) (u v radius : ℝ) :
    sampleWorldPos (fun _ _ => c) face u v radius
      = Vec3.smul (radius + c) (facePointToSphere face u v) := rfl

/-- With a heightfield that cancels the radius, every sampled world position
collapses to the origin, so both central-difference tangents vanish. -/
theorem tangentCross_degenerate (face : ℤ) (u v hU hV : ℝ) :
    tangentCross (fun _ _ => (-1 : ℝ)) face u v hU hV 1 = Vec3.zero := by
  unfold tangentCross
  rw [sampleWorldPos_const, sampleWorldPos_const, sampleWorldPos_const,
    sampleWorldPos_const]
  norm_num [smul_zero_vec, sub_self_vec, cross_zero_left]

/-- Helper evaluating the face-0 projection at rational points whose raw
vector has rational length. -/
theorem facePointToSphere_face0_eval (u v c : ℝ) (hc : 0 ≤ c)
    (h : 1 + u * u + v * v = c ^ 2) :
    facePointToSphere 0 u v = Vec3.smul c⁻¹ ⟨1, u, v⟩ := by
  unfold facePointToSphere facePointRaw Vec3.normalize
  norm_num
  rw [Vec3.length_eq_of_sq ⟨1, u, v⟩ c hc (by unfold Vec3.lengthSq; simpa using h)]

end ChunkGenerator

/-- C6 (claim as stated, refuted): the mesh builder's central-differencing
normal computation is claimed to guard the zero-length cross product so that
every input yields a well-defined normal.  `ChunkGenerator.cpp` lines 72-90
contain no guard: at an input where the tangent samples coincide (heightfield
constantly `-radius`), the cross product is zero and the produced normal is
`normalize 0` (a division by zero, NaN in the C++ doubles, the zero vector in
this real-valued model). -/
theorem C6_counterexample :
    ChunkGenerator.tangentCross (fun _ _ => (-1 : ℝ)) 0 0 0 (1/4) (1/4) 1
        = Vec3.zero ∧
      (ChunkGenerator.gridVertex (fun _ _ => (-1 : ℝ)) 0 (-1) (1/2) (-1) (1/2)
          (1/4) (1/4) 1 Vec3.zero 2 2).normal = Vec3.zero := by
  constructor
  · exact ChunkGenerator.tangentCross_degenerate 0 0 0 (1/4) (1/4)
  · show (ChunkGenerator.tangentCross _ 0 _ _ (1/4) (1/4) 1).normalize = Vec3.zero
    norm_num [ChunkGenerator.tangentCross_degenerate, ChunkGenerator.normalize_zero]

/-- C6 (amended): the computation is unguarded; whenever the cross product of
the two tangent differences is nonzero the produced normal is exactly unit
length, and the degenerate case (cross product zero, possible only when the
half-step tangent samples coincide) divides by zero. -/
theorem C6_normal_unit_of_cross_ne (hf : ℝ → ℝ → ℝ) (face : ℤ)
    (u v hU hV r : ℝ)
    (h : ChunkGenerator.tangentCross hf face u v hU hV r ≠ Vec3.zero) :
    (ChunkGenerator.tangentCross hf face u v hU hV r).normalize.length = 1 :=
  Vec3.length_normalize _ h

/-- Witness for `C6_normal_unit_of_cross_ne` at a concrete non-degenerate
input (flat heightfield, face 0, half steps 3/4). -/
theorem C6_witness :
    ChunkGenerator.tangentCross (fun _ _ => (0 : ℝ)) 0 0 0 (3/4) (3/4) 1
        ≠ Vec3.zero ∧
      (ChunkGenerator.tangentCross (fun _ _ => (0 : ℝ)) 0 0 0 (3/4) (3/4)
          1).normalize.length = 1 := by
  have hev : ChunkGenerator.tangentCross (fun _ _ => (0 : ℝ)) 0 0 0 (3/4) (3/4) 1
      = ⟨36/25, 0, 0⟩ := by
    unfold ChunkGenerator.tangentCross
    rw [ChunkGenerator.sampleWorldPos_const, ChunkGenerator.sampleWorldPos_const,
      ChunkGenerator.sampleWorldPos_const, ChunkGenerator.sampleWorldPos_const]
    norm_num
    rw [ChunkGenerator.facePointToSphere_face0_eval (3/4 : ℝ) 0 (5/4) (by norm_num)
        (by norm_num),
      ChunkGenerator.facePointToSphere_face0_eval (-(3/4) : ℝ) 0 (5/4) (by norm_num)
        (by norm_num),
      ChunkGenerator.facePointToSphere_face0_eval 0 (3/4 : ℝ) (5/4) (by norm_num)
        (by norm_num),
      ChunkGenerator.facePointToSphere_face0_eval 0 (-(3/4) : ℝ) (5/4) (by norm_num)
        (by norm_num)]
    unfold Vec3.smul Vec3.sub Vec3.cross
    norm_num
  have hne : ChunkGenerator.tangentCross (fun _ _ => (0 : ℝ)) 0 0 0 (3/4) (3/4) 1
      ≠ Vec3.zero := by
    rw [hev]; unfold Vec3.zero; intro h; injection h with h1; norm_num at h1
  exact ⟨hne, C6_normal_unit_of_cross_ne (fun _ _ => 0) 0 0 0 (3/4) (3/4) 1 hne⟩


theorem length_flatMap_const {α β : Type} (l : List α) (f : α → List β) (c : ℕ)
    (h : ∀ a ∈ l, (f a).length = c) : (l.flatMap f).length = l.length * c := by
  induction l with
  | nil => simp
  | cons a t ih =>
    simp only [List.flatMap_cons, List.length_append, List.length_cons]
    rw [ih fun b hb => h b (List.mem_cons_of_mem _ hb),
      h a (List.mem_cons_self _ _)]
    ring

namespace ChunkGenerator

theorem addSkirt_fst_length (wc : Vec3) (sd : ℝ) (si st c : ℕ) (f : Bool)
    (io : ℤ) (verts : List ChunkVertex) (inds : List ℕ) :
    ((addSkirt wc sd si st c f io verts inds).1).length = verts.length + c := by
  unfold addSkirt
  simp

/-- The generator performs no input validation: whatever the UV rectangle or
grid resolution, it returns `gridSize * gridSize` grid vertices plus four
skirt strips of `gridSize` vertices each. -/
theorem generate_vertices_length (hf : ℝ → ℝ → ℝ) (face : ℤ)
    (u0 u1 v0 v1 radius : ℝ) (g : ℕ) :
    (generate hf face u0 u1 v0 v1 radius g).vertices.length = g * g + 4 * g := by
  unfold generate
  simp only [addSkirt_fst_length]
  rw [length_flatMap_const _ _ g (by intro a _; simp)]
  simp [List.length_range]
  ring

end ChunkGenerator

/-- C7 (claim as stated, refuted): the mesh builder is claimed to reject a
degenerate UV rectangle (`u0 = u1`) or a resolution below 2 with a
descriptive failure and produce no mesh.  `ChunkGenerator::generate`
(lines 43-59) performs no validation: with `u0 = u1 = 0` and resolution 3 it
returns a full 21-vertex mesh (9 grid vertices with coincident columns plus
12 skirt vertices), and with resolution 1 it returns a 5-vertex mesh after a
division by zero in the step computation — neither input is rejected. -/
theorem C7_counterexample :
    ((ChunkGenerator.generate (fun _ _ => 0) 0 0 0 (-1) 1 1 3).vertices.length
        = 21 ∧ (21 : ℕ) ≠ 0) ∧
      ((ChunkGenerator.generate (fun _ _ => 0) 0 (-1) 1 (-1) 1 1 1).vertices.length
        = 5 ∧ (5 : ℕ) ≠ 0) := by
  refine ⟨⟨?_, by norm_num⟩, ⟨?_, by norm_num⟩⟩
  · rw [ChunkGenerator.generate_vertices_length]
  · rw [ChunkGenerator.generate_vertices_length]

/-- C7 (amended): `generate` rejects nothing.  For every input — degenerate
UV rectangles and resolutions below 2 included — it returns a (possibly
degenerate) mesh with exactly `gridSize² + 4·gridSize` vertices. -/
theorem C7_generate_never_rejects (hf : ℝ → ℝ → ℝ) (face : ℤ)
    (u0 u1 v0 v1 radius : ℝ) (g : ℕ) :
    (ChunkGenerator.generate hf face u0 u1 v0 v1 radius g).vertices.length
      = g * g + 4 * g :=
  ChunkGenerator.generate_vertices_length hf face u0 u1 v0 v1 radius g

/-- C9: for every face index 0 through 5 and every `(u, v)` in `[-1, 1]²`,
`facePointToSphere` returns a unit-length vector (exactly unit length in the
real-number model; the claim allows floating-point epsilon). -/
theorem C9_facePointToSphere_unit (face : ℤ) (u v : ℝ)
    (hface : 0 ≤ face ∧ face ≤ 5) (hu : |u| ≤ 1) (hv : |v| ≤ 1) :
    (ChunkGenerator.facePointToSphere face u v).length = 1 :=
  ChunkGenerator.facePointToSphere_length face u v

/-- Witness for `C9_facePointToSphere_unit` at face 0, `(u, v) = (0, 0)`. -/
theorem C9_witness :
    ((0 ≤ (0 : ℤ) ∧ (0 : ℤ) ≤ 5) ∧ |(0 : ℝ)| ≤ 1) ∧
      (ChunkGenerator.facePointToSphere 0 0 0).length = 1 :=
  ⟨⟨⟨le_refl 0, by norm_num⟩, by norm_num⟩,
    C9_facePointToSphere_unit 0 0 0 ⟨le_refl 0, by norm_num⟩ (by norm_num)
      (by norm_num)⟩


/-! ## StagingBatch (src/core/Buffer.h lines 64-75, Buffer.cpp lines 117-136)

Device handles and the mapped pointer are abstracted away; the observable
state is the mapped flag, the bump offset and the capacity, all byte counts
as naturals. -/

/-- Model of `luna::core::StagingBatch`. -/
structure StagingBatch where
  mapped : Bool
  offset : ℕ
  capacity : ℕ

namespace StagingBatch

/-- Model of `StagingBatch::begin` (allocates and maps the buffer, resets the
offset, records the capacity). -/
def begin (cap : ℕ) : StagingBatch := ⟨true, 0, cap⟩

/-- Model of `StagingBatch::write` (Buffer.cpp lines 131-136): returns the
current offset and bump-advances it by `size`.  The source performs the
`memcpy` and the bump unconditionally — there is no capacity comparison in
the function body. -/
def write (sb : StagingBatch) (size : ℕ) : ℕ × StagingBatch :=
  (sb.offset, { sb with offset := sb.offset + size })

/-- Model of `StagingBatch::end` (unmaps; `end` is a Lean keyword, hence the
name used by the spec's public contract). -/
def endBatch (sb : StagingBatch) : StagingBatch := { sb with mapped := false }

end StagingBatch

/-- C2 (claim as stated, refuted): `StagingBatch::write` is claimed to fail
loudly whenever the current offset plus the write size exceeds the capacity
declared by `begin`.  The implementation has no check at all: after
`begin(8)`, a 16-byte write exceeds capacity yet returns the normal offset 0
and silently advances the offset to 16, past the declared capacity. -/
theorem C2_counterexample :
    let sb := StagingBatch.begin 8
    let r := sb.write 16
    sb.offset + 16 > sb.capacity ∧ r.1 = 0 ∧ r.2.offset = 16 ∧
      r.2.offset > r.2.capacity := by
  constructor
  · decide
  · exact ⟨rfl, rfl, by decide⟩

/-- C2 (amended): `write` never checks capacity.  For every staging batch and
every size it performs the write unconditionally — it returns the old offset
and advances by `size`, leaving the capacity untouched, even when the result
exceeds the capacity. -/
theorem C2_write_unchecked (sb : StagingBatch) (size : ℕ) :
    (sb.write size).1 = sb.offset ∧
      (sb.write size).2.offset = sb.offset + size ∧
      (sb.write size).2.capacity = sb.capacity ∧
      (sb.write size).2.mapped = sb.mapped :=
  ⟨rfl, rfl, rfl, rfl⟩


/-! ## CubesphereBody (src/scene/CubesphereBody.h, CubesphereBody.cpp)

The quadtree is embedded with four individually nullable child slots per
node, mirroring the four `std::unique_ptr<QuadtreeNode>` members (so states
with 1-3 children are representable, as in the C++).  Meshes are identified
by allocation number; the device interaction of a frame is recorded as an
event log in which `submitComplete` stands for `CommandPool::endOneShot`
(`vkQueueSubmit` immediately followed by `vkQueueWaitIdle`, i.e. submission
plus confirmed completion on the device) and `destroy` stands for
`deferredDestroy_.clear()`.  The recursion of `updateNode` is driven by an
explicit fuel argument; `update` supplies `MAX_DEPTH + 1`, which never runs
out on depth-consistent trees because a node at depth `d` is processed with
fuel at least `MAX_DEPTH + 1 - d` and splits require `depth < MAX_DEPTH`. -/

namespace CubesphereBody

/-- Constants from CubesphereBody.h lines 52-59. -/
def MAX_DEPTH : ℕ := 15

def PATCH_GRID : ℕ := 17

def SPLIT_THRESHOLD : ℝ := 4

def MERGE_THRESHOLD : ℝ := 2

def MAX_SPLITS_PER_FRAME : ℕ := 64

def MESHES_PER_BATCH : ℕ := 512

/-- Bytes-per-mesh staging estimate from CubesphereBody.h lines 62-65
(sizeof(float) = 4, sizeof(uint32_t) = 4, 7 floats per vertex). -/
def BYTES_PER_MESH : ℕ :=
  PATCH_GRID * PATCH_GRID * 4 * 7 + (PATCH_GRID - 1) * (PATCH_GRID - 1) * 6 * 4
    + PATCH_GRID * 4 * (4 * 7 + 6 * 4)

/-- MAX_TERRAIN_DISPLACEMENT from CubesphereBody.cpp line 84. -/
def MAX_TERRAIN_DISPLACEMENT : ℝ := 12000

/-- The scalar fields of `QuadtreeNode` (CubesphereBody.h lines 19-32). -/
structure NodeData where
  faceIndex : ℤ
  u0 : ℝ
  u1 : ℝ
  v0 : ℝ
  v1 : ℝ
  depth : ℕ
  worldCenter : Vec3
  boundingRadius : ℝ
  mesh : Option ℕ

mutual
/-- A `QuadtreeNode`: scalar data plus four individually nullable children. -/
inductive QNode where
  | mk (data : NodeData) (c0 c1 c2 c3 : NodePtr) : QNode
/-- A `std::unique_ptr<QuadtreeNode>`. -/
inductive NodePtr where
  | null : NodePtr
  | node (t : QNode) : NodePtr
end

def QNode.data : QNode → NodeData
  | .mk d _ _ _ _ => d

def QNode.child : QNode → Fin 4 → NodePtr
  | .mk _ a b c d, i =>
    match i with
    | 0 => a
    | 1 => b
    | 2 => c
    | 3 => d

def NodePtr.isNull : NodePtr → Bool
  | .null => true
  | .node _ => false

/-- Model of `QuadtreeNode::isLeaf` (`!children[0]`). -/
def QNode.isLeaf (t : QNode) : Bool := (t.child 0).isNull

/-- Model of `QuadtreeNode::hasMesh`. -/
def QNode.hasMesh (t : QNode) : Bool := t.data.mesh.isSome

/-- Replace the four child slots. -/
def QNode.withChildren (t : QNode) (ch : Fin 4 → NodePtr) : QNode :=
  .mk t.data (ch 0) (ch 1) (ch 2) (ch 3)

/-- Replace the scalar data. -/
def QNode.withData (t : QNode) (d : NodeData) : QNode :=
  .mk d (t.child 0) (t.child 1) (t.child 2) (t.child 3)

/-- Model of `CubesphereBody::initNode` (CubesphereBody.cpp lines 54-86):
fills a fresh node (no mesh, no children). -/
noncomputable def initNode (radius : ℝ) (face : ℤ) (u0 u1 v0 v1 : ℝ)
    (depth : ℕ) : QNode :=
  let uMid := (u0 + u1) * 0.5
  let vMid := (v0 + v1) * 0.5
  let worldCenter :=
    Vec3.smul radius (ChunkGenerator.facePointToSphere face uMid vMid)
  let testPoints : List (ℝ × ℝ) :=
    [(u0, v0), (u1, v0), (u0, v1), (u1, v1),
     (uMid, v0), (uMid, v1), (u0, vMid), (u1, vMid)]
  let br0 := testPoints.foldl
    (fun acc uv =>
      max acc (Vec3.sub
        (Vec3.smul radius (ChunkGenerator.facePointToSphere face uv.1 uv.2))
        worldCenter).length)
    0
  .mk
    { faceIndex := face, u0 := u0, u1 := u1, v0 := v0, v1 := v1,
      depth := depth, worldCenter := worldCenter,
      boundingRadius := br0 + MAX_TERRAIN_DISPLACEMENT, mesh := none }
    .null .null .null .null

/-- Device-side events of one `CubesphereBody` call.  `submitComplete`
models `CommandPool::endOneShot`: the command buffer carrying the listed
mesh uploads is submitted and the call returns only after `vkQueueWaitIdle`
confirms the whole queue (this transfer and everything submitted before it)
has completed on the device.  `destroy` models `deferredDestroy_.clear()`,
the point where the listed meshes are actually freed. -/
inductive DevEvent where
  | submitComplete (uploads : List ℕ)
  | destroy (meshes : List ℕ)

/-- The mutable state of `CubesphereBody` threaded through a frame:
`activeNodes_`, `batchCount_`, a fresh-mesh counter standing for `new Mesh`,
`deferredDestroy_` (mesh ids), the uploads recorded into the current one-shot
command buffer but not yet submitted, the staging batch, and the event log. -/
structure UState where
  activeNodes : ℕ
  batchCount : ℕ
  nextMesh : ℕ
  deferred : List ℕ
  pending : List ℕ
  staging : StagingBatch
  events : List DevEvent

/-- Model of `CubesphereBody::generateMeshBatched` (lines 100-124): runs the
chunk generator, adopts its world center, creates a mesh (two staging writes
and two recorded copies: vertex bytes, index bytes), and flushes the batch
through `endOneShot` when `MESHES_PER_BATCH` is reached. -/
noncomputable def generateMeshBatched (radius : ℝ) (hf : ℝ → ℝ → ℝ)
    (t : QNode) (st : UState) : QNode × UState :=
  let md := ChunkGenerator.generate hf t.data.faceIndex t.data.u0 t.data.u1
    t.data.v0 t.data.v1 radius PATCH_GRID
  let meshId := st.nextMesh
  let w1 := st.staging.write (md.vertices.length * 28)
  let w2 := w1.2.write (md.indices.length * 4)
  let t2 := t.withData
    { t.data with worldCenter := md.worldCenter, mesh := some meshId }
  let st2 := { st with
    nextMesh := meshId + 1, batchCount := st.batchCount + 1,
    pending := st.pending ++ [meshId], staging := w2.2 }
  if st2.batchCount ≥ MESHES_PER_BATCH then
    (t2, { st2 with
      events := st2.events ++ [.submitComplete st2.pending],
      pending := [], batchCount := 0,
      staging := StagingBatch.begin (MESHES_PER_BATCH * BYTES_PER_MESH) })
  else
    (t2, st2)

/-- Model of the screen-space error computed in `updateNode`
(CubesphereBody.cpp lines 174-184), as a function of the bounding radius,
the raw camera distance, the vertical field of view and the screen height. -/
noncomputable def screenErrorOf (boundingRadius dist fovY screenHeight : ℝ) : ℝ :=
  let distance := max dist (boundingRadius * 0.1)
  let patchArc := boundingRadius * 2
  let geometricError := patchArc / ((PATCH_GRID : ℝ) - 1)
  geometricError / distance * (screenHeight / (2 * Real.tan (fovY * 0.5)))

/-- A frustum plane (`glm::vec4`). -/
structure Plane where
  a : ℝ
  b : ℝ
  c : ℝ
  d : ℝ

/-- A `glm::mat4`, accessed as `vp i j = vp[i][j]` (column `i`, row `j`). -/
def Mat4 : Type := Fin 4 → Fin 4 → ℝ

/-- Model of `CubesphereBody::extractFrustumPlanes` (lines 273-288). -/
noncomputable def extractFrustumPlanes (vp : Mat4) : Fin 6 → Plane := fun p =>
  let raw : Fin 4 → ℝ := fun i =>
    match p with
    | 0 => vp i 3 + vp i 0
    | 1 => vp i 3 - vp i 0
    | 2 => vp i 3 + vp i 1
    | 3 => vp i 3 - vp i 1
    | 4 => vp i 3 + vp i 2
    | 5 => vp i 3 - vp i 2
  let len := (Vec3.mk (raw 0) (raw 1) (raw 2)).length
  if len > 0 then ⟨raw 0 / len, raw 1 / len, raw 2 / len, raw 3 / len⟩
  else ⟨raw 0, raw 1, raw 2, raw 3⟩

/-- Model of `CubesphereBody::sphereInFrustum` (lines 290-297): the loop
returns false as soon as one plane puts the sphere fully outside. -/
def sphereInFrustumP (planes : Fin 6 → Plane) (center : Vec3) (radius : ℝ) :
    Prop :=
  ∀ i : Fin 6,
    ¬ (Vec3.dot ⟨(planes i).a, (planes i).b, (planes i).c⟩ center
        + (planes i).d < -radius)

/-- Insertion step of the sort model: place `x` before the first element `b`
with `¬ lt b x` (one conforming implementation of `std::sort`, which leaves
the order of tied elements unspecified; this one is stable). -/
noncomputable def insLT {α : Type} (lt : α → α → Prop) (x : α) :
    List α → List α
  | [] => [x]
  | b :: l =>
    have : Decidable (lt b x) := Classical.propDecidable _
    if lt b x then b :: insLT lt x l else x :: b :: l

/-- Sort model for the three `std::sort` call sites. -/
noncomputable def sortLT {α : Type} (lt : α → α → Prop) : List α → List α
  | [] => []
  | x :: l => insLT lt x (sortLT lt l)

/-- The merge-eligibility loop of `updateNode` (lines 229-243): scans the
children in slot order, accumulating the maximal child screen error, and
breaks with `allChildrenLeaves = false` at the first null or interior
child. -/
noncomputable def mergeScan (cam : Vec3) (fovY screenHeight : ℝ) :
    ℝ → List NodePtr → Bool × ℝ
  | acc, [] => (true, acc)
  | acc, p :: rest =>
    match p with
    | .null => (false, acc)
    | .node c =>
      if c.isLeaf then
        mergeScan cam fovY screenHeight
          (max acc (screenErrorOf c.data.boundingRadius
            (Vec3.sub c.data.worldCenter cam).length fovY screenHeight))
          rest
      else (false, acc)

/-- The comparator of the child sort in the recursion branch (lines 259-264),
with its null guards. -/
noncomputable def childCmp (cam : Vec3) (ch : Fin 4 → NodePtr)
    (a b : Fin 4) : Prop :=
  match ch a with
  | .null => False
  | .node x =>
    match ch b with
    | .null => True
    | .node y =>
      (Vec3.sub x.data.worldCenter cam).length
        < (Vec3.sub y.data.worldCenter cam).length

/-- One iteration of the `for (int ci : childOrder)` recursion loop in the
split branch: run the visitor on slot `i`, write the result back into slot
`i`, thread budget and state. -/
noncomputable def stepNodes {ι : Type} [DecidableEq ι]
    (f : QNode → ℕ → UState → QNode × ℕ × UState)
    (acc : (ι → QNode) × ℕ × UState) (i : ι) :
    (ι → QNode) × ℕ × UState :=
  let x := f (acc.1 i) acc.2.1 acc.2.2
  ((fun j => if j = i then x.1 else acc.1 j), x.2.1, x.2.2)

/-- One iteration of the recursion loop in the non-merging interior branch
(`if (node.children[ci]) updateNode(...)`): null slots are skipped. -/
noncomputable def stepPtrs (f : QNode → ℕ → UState → QNode × ℕ × UState)
    (acc : (Fin 4 → NodePtr) × ℕ × UState) (i : Fin 4) :
    (Fin 4 → NodePtr) × ℕ × UState :=
  match acc.1 i with
  | .null => acc
  | .node c =>
    let r := f c acc.2.1 acc.2.2
    ((fun j => if j = i then .node r.1 else acc.1 j), r.2.1, r.2.2)

/-- The four fresh children of a split (lines 196-208): `initNode` on the
four bisected quadrants followed by `generateMeshBatched` on each, in slot
order. -/
noncomputable def splitKids (radius : ℝ) (hf : ℝ → ℝ → ℝ) (t : QNode)
    (st : UState) : (Fin 4 → QNode) × UState :=
  let uMid := (t.data.u0 + t.data.u1) * 0.5
  let vMid := (t.data.v0 + t.data.v1) * 0.5
  let k0 := initNode radius t.data.faceIndex t.data.u0 uMid t.data.v0 vMid
    (t.data.depth + 1)
  let k1 := initNode radius t.data.faceIndex uMid t.data.u1 t.data.v0 vMid
    (t.data.depth + 1)
  let k2 := initNode radius t.data.faceIndex t.data.u0 uMid vMid t.data.v1
    (t.data.depth + 1)
  let k3 := initNode radius t.data.faceIndex uMid t.data.u1 vMid t.data.v1
    (t.data.depth + 1)
  let g0 := generateMeshBatched radius hf k0 st
  let g1 := generateMeshBatched radius hf k1 g0.2
  let g2 := generateMeshBatched radius hf k2 g1.2
  let g3 := generateMeshBatched radius hf k3 g2.2
  (fun i =>
    match i with
    | 0 => g0.1
    | 1 => g1.1
    | 2 => g2.1
    | 3 => g3.1,
   g3.2)

/-- Line 212-213: defer the parent mesh (if present) for destruction. -/
def pushParentMesh (t : QNode) (st : UState) : UState :=
  match t.data.mesh with
  | some m => { st with deferred := st.deferred ++ [m] }
  | none => st

/-- Lines 216-220: sort the four child slots by distance to the camera. -/
noncomputable def splitOrder (cam : Vec3) (kids : Fin 4 → QNode) :
    List (Fin 4) :=
  sortLT
    (fun a b => (Vec3.sub (kids a).data.worldCenter cam).length
      < (Vec3.sub (kids b).data.worldCenter cam).length)
    [0, 1, 2, 3]

/-- The split branch of `updateNode` (lines 192-223), with the recursive
visitor `f` applied to the fresh children in sorted order. -/
noncomputable def splitNode (radius : ℝ) (hf : ℝ → ℝ → ℝ) (cam : Vec3)
    (f : QNode → ℕ → UState → QNode × ℕ × UState)
    (t : QNode) (budget : ℕ) (st : UState) : QNode × ℕ × UState :=
  let ks := splitKids radius hf t st
  let budget1 := budget - 4
  let st1 := pushParentMesh t ks.2
  let order := splitOrder cam ks.1
  let fin := order.foldl (stepNodes f) (ks.1, budget1, st1)
  (QNode.mk { t.data with mesh := none }
    (.node (fin.1 0)) (.node (fin.1 1)) (.node (fin.1 2)) (.node (fin.1 3)),
   fin.2.1, fin.2.2)

/-- Lines 250-254: collect the children's meshes (slot order) for deferred
destruction. -/
def mergeChildMeshes (t : QNode) : List ℕ :=
  [t.child 0, t.child 1, t.child 2, t.child 3].foldl
    (fun acc p =>
      match p with
      | .node c =>
        match c.data.mesh with
        | some m => acc ++ [m]
        | none => acc
      | .null => acc)
    []

/-- The merge branch of `updateNode` (lines 245-255). -/
noncomputable def mergeNode (radius : ℝ) (hf : ℝ → ℝ → ℝ) (t : QNode)
    (budget : ℕ) (st : UState) : QNode × ℕ × UState :=
  let gm := if t.hasMesh then (t, st) else generateMeshBatched radius hf t st
  ((gm.1.withChildren fun _ => .null), budget,
    { gm.2 with
      deferred := gm.2.deferred ++ mergeChildMeshes gm.1,
      activeNodes := gm.2.activeNodes + 1 })

/-- The non-merging interior branch of `updateNode` (lines 256-269). -/
noncomputable def recurseNode (cam : Vec3)
    (f : QNode → ℕ → UState → QNode × ℕ × UState)
    (t : QNode) (budget : ℕ) (st : UState) : QNode × ℕ × UState :=
  let order := sortLT (childCmp cam t.child) [0, 1, 2, 3]
  let fin := order.foldl (stepPtrs f) (t.child, budget, st)
  (t.withChildren fin.1, fin.2.1, fin.2.2)

/-- Model of `CubesphereBody::updateNode` (lines 168-271). -/
noncomputable def updateNode (radius : ℝ) (hf : ℝ → ℝ → ℝ) (cam : Vec3)
    (fovY screenHeight : ℝ) (planes : Fin 6 → Plane) :
    ℕ → QNode → ℕ → UState → QNode × ℕ × UState
  | 0, t, budget, st => (t, budget, st)
  | fuel + 1, t, budget, st =>
    have : ∀ p : Prop, Decidable p := fun _ => Classical.propDecidable _
    let dist := (Vec3.sub t.data.worldCenter cam).length
    let screenError := screenErrorOf t.data.boundingRadius dist fovY screenHeight
    let offset := Vec3.sub t.data.worldCenter cam
    let visible := sphereInFrustumP planes offset t.data.boundingRadius
    if t.isLeaf then
      if visible ∧ screenError > SPLIT_THRESHOLD ∧ t.data.depth < MAX_DEPTH
          ∧ budget ≥ 4 then
        splitNode radius hf cam
          (fun a b s => updateNode radius hf cam fovY screenHeight planes fuel a b s)
          t budget st
      else
        (t, budget, { st with activeNodes := st.activeNodes + 1 })
    else
      let scan := mergeScan cam fovY screenHeight 0
        [t.child 0, t.child 1, t.child 2, t.child 3]
      if scan.1 = true ∧ scan.2 < MERGE_THRESHOLD then
        mergeNode radius hf t budget st
      else
        recurseNode cam
          (fun a b s => updateNode radius hf cam fovY screenHeight planes fuel a b s)
          t budget st

/-- The tail of `CubesphereBody::update` (lines 154-165): flush the pending
batch through `endOneShot` when `batchCount_ > 0` (otherwise end the staging
map and discard the empty command buffer without submitting), then clear
`deferredDestroy_`, destroying the listed meshes. -/
def finishFrame (st : UState) : UState :=
  let stF :=
    if st.batchCount > 0 then
      { st with
        events := st.events ++ [.submitComplete st.pending],
        pending := [], staging := st.staging.endBatch }
    else
      { st with staging := st.staging.endBatch }
  { stF with events := stF.events ++ [.destroy stF.deferred], deferred := [] }

/-- Model of `CubesphereBody::update` (lines 126-166). -/
noncomputable def update (radius : ℝ) (hf : ℝ → ℝ → ℝ)
    (roots : Fin 6 → QNode) (st0 : UState) (cam : Vec3)
    (fovY screenHeight : ℝ) (vp : Mat4) : (Fin 6 → QNode) × UState :=
  let st1 := { st0 with
    activeNodes := 0, batchCount := 0, pending := [],
    staging := StagingBatch.begin (MESHES_PER_BATCH * BYTES_PER_MESH) }
  let planes := extractFrustumPlanes vp
  let order := sortLT
    (fun a b : Fin 6 => (Vec3.sub (roots a).data.worldCenter cam).length
      < (Vec3.sub (roots b).data.worldCenter cam).length)
    [0, 1, 2, 3, 4, 5]
  let fin := order.foldl
    (stepNodes fun a b s =>
      updateNode radius hf cam fovY screenHeight planes (MAX_DEPTH + 1) a b s)
    (roots, MAX_SPLITS_PER_FRAME, st1)
  (fin.1, finishFrame fin.2.2)

/-- Model of the `CubesphereBody` constructor (lines 26-52): six root nodes
over the full UV square of each face, batched mesh generation, and the final
flush (`batchCount_` is 6 after the loop, so `endOneShot` runs). -/
noncomputable def initialBody (radius : ℝ) (hf : ℝ → ℝ → ℝ) :
    (Fin 6 → QNode) × UState :=
  let st0 : UState := { activeNodes := 0, batchCount := 0, nextMesh := 0,
                        deferred := [], pending := [],
                        staging := StagingBatch.begin (6 * BYTES_PER_MESH),
                        events := [] }
  let g0 := generateMeshBatched radius hf (initNode radius 0 (-1) 1 (-1) 1 0) st0
  let g1 := generateMeshBatched radius hf (initNode radius 1 (-1) 1 (-1) 1 0) g0.2
  let g2 := generateMeshBatched radius hf (initNode radius 2 (-1) 1 (-1) 1 0) g1.2
  let g3 := generateMeshBatched radius hf (initNode radius 3 (-1) 1 (-1) 1 0) g2.2
  let g4 := generateMeshBatched radius hf (initNode radius 4 (-1) 1 (-1) 1 0) g3.2
  let g5 := generateMeshBatched radius hf (initNode radius 5 (-1) 1 (-1) 1 0) g4.2
  let roots : Fin 6 → QNode := fun i =>
    match i with
    | 0 => g0.1
    | 1 => g1.1
    | 2 => g2.1
    | 3 => g3.1
    | 4 => g4.1
    | 5 => g5.1
  let stf := g5.2
  let stF :=
    if stf.batchCount > 0 then
      { stf with
        events := stf.events ++ [.submitComplete stf.pending],
        pending := [], staging := stf.staging.endBatch }
    else
      stf
  (roots, stF)

end CubesphereBody


namespace CubesphereBody

theorem screenErrorOf_eq (br dist fovY H : ℝ) :
    screenErrorOf br dist fovY H
      = br * 2 / 16 / max dist (br * 0.1) * (H / (2 * Real.tan (fovY * 0.5))) := by
  unfold screenErrorOf PATCH_GRID
  norm_num

theorem tanHalf_pos (fovY : ℝ) (h0 : 0 < fovY) (h1 : fovY < Real.pi) :
    0 < Real.tan (fovY * 0.5) :=
  Real.tan_pos_of_pos_of_lt_pi_div_two (by linarith) (by norm_num; linarith)

end CubesphereBody

/-- C8: for a fixed patch (fixed bounding radius, grid resolution, vertical
field of view in `(0, π)` and nonnegative screen height), the screen error of
`updateNode` is antitone in the raw camera distance, and the
`boundingRadius * 0.1` floor makes it constant once the camera distance drops
below that floor. -/
theorem C8_screenError_antitone (br d1 d2 fovY H : ℝ) (hbr : 0 < br)
    (hH : 0 ≤ H) (hfov0 : 0 < fovY) (hfov1 : fovY < Real.pi) (h12 : d1 ≤ d2) :
    CubesphereBody.screenErrorOf br d2 fovY H
        ≤ CubesphereBody.screenErrorOf br d1 fovY H ∧
      (d1 ≤ br * 0.1 →
        CubesphereBody.screenErrorOf br d1 fovY H
          = CubesphereBody.screenErrorOf br (br * 0.1) fovY H) := by
  have htan := CubesphereBody.tanHalf_pos fovY hfov0 hfov1
  have hK : 0 ≤ H / (2 * Real.tan (fovY * 0.5)) := by positivity
  have hfl : (0 : ℝ) < br * 0.1 := by linarith
  constructor
  · rw [CubesphereBody.screenErrorOf_eq, CubesphereBody.screenErrorOf_eq]
    have hmax1 : (0 : ℝ) < max d1 (br * 0.1) := lt_max_of_lt_right hfl
    have hmax12 : max d1 (br * 0.1) ≤ max d2 (br * 0.1) :=
      max_le_max h12 le_rfl
    have hgd : 0 < br * 2 / 16 := by linarith
    have hdiv : br * 2 / 16 / max d2 (br * 0.1) ≤ br * 2 / 16 / max d1 (br * 0.1) :=
      div_le_div_of_nonneg_left (le_of_lt hgd) hmax1 hmax12
    exact mul_le_mul_of_nonneg_right hdiv hK
  · intro hd1
    rw [CubesphereBody.screenErrorOf_eq, CubesphereBody.screenErrorOf_eq]
    rw [max_eq_right hd1, max_eq_right le_rfl]

/-- Witness for `C8_screenError_antitone` at bounding radius 1, distances 1
and 2, a right-angle field of view and screen height 2. -/
theorem C8_witness :
    ((0 : ℝ) < 1 ∧ (0 : ℝ) ≤ 2 ∧ 0 < Real.pi / 2 ∧ Real.pi / 2 < Real.pi ∧
        (1 : ℝ) ≤ 2) ∧
      CubesphereBody.screenErrorOf 1 2 (Real.pi / 2) 2
        ≤ CubesphereBody.screenErrorOf 1 1 (Real.pi / 2) 2 := by
  have hpi := Real.pi_pos
  refine ⟨⟨by norm_num, by norm_num, by linarith, by linarith, by norm_num⟩, ?_⟩
  exact (C8_screenError_antitone 1 1 2 (Real.pi / 2) 2 (by norm_num) (by norm_num)
    (by linarith) (by linarith) (by norm_num)).1


namespace CubesphereBody

@[simp] theorem data_mk (d : NodeData) (a b c e : NodePtr) :
    (QNode.mk d a b c e).data = d := rfl

@[simp] theorem child_mk_zero (d : NodeData) (a b c e : NodePtr) :
    (QNode.mk d a b c e).child 0 = a := rfl

@[simp] theorem child_mk_one (d : NodeData) (a b c e : NodePtr) :
    (QNode.mk d a b c e).child 1 = b := rfl

@[simp] theorem child_mk_two (d : NodeData) (a b c e : NodePtr) :
    (QNode.mk d a b c e).child 2 = c := rfl

@[simp] theorem child_mk_three (d : NodeData) (a b c e : NodePtr) :
    (QNode.mk d a b c e).child 3 = e := rfl

@[simp] theorem data_withChildren (t : QNode) (ch : Fin 4 → NodePtr) :
    (t.withChildren ch).data = t.data := by
  cases t; rfl

@[simp] theorem child_withChildren (t : QNode) (ch : Fin 4 → NodePtr) (i : Fin 4) :
    (t.withChildren ch).child i = ch i := by
  cases t
  match i with
  | 0 => rfl
  | 1 => rfl
  | 2 => rfl
  | 3 => rfl

@[simp] theorem data_withData (t : QNode) (d : NodeData) :
    (t.withData d).data = d := by
  cases t; rfl

@[simp] theorem child_withData (t : QNode) (d : NodeData) (i : Fin 4) :
    (t.withData d).child i = t.child i := by
  cases t
  match i with
  | 0 => rfl
  | 1 => rfl
  | 2 => rfl
  | 3 => rfl

theorem isLeaf_withData (t : QNode) (d : NodeData) :
    (t.withData d).isLeaf = t.isLeaf := by
  unfold QNode.isLeaf
  rw [child_withData]

mutual
/-- Number of leaf nodes of a subtree (what `activeNodes_` claims to count). -/
def leafCount : QNode → ℕ
  | .mk _ a b c e =>
    if a.isNull then 1
    else leafCountP a + leafCountP b + leafCountP c + leafCountP e
def leafCountP : NodePtr → ℕ
  | .null => 0
  | .node t => leafCount t
end

mutual
/-- Every node of the subtree has exactly 0 or exactly 4 live children. -/
def ZeroOrFour : QNode → Prop
  | .mk _ a b c e =>
    ((a = .null ∧ b = .null ∧ c = .null ∧ e = .null) ∨
      (a ≠ .null ∧ b ≠ .null ∧ c ≠ .null ∧ e ≠ .null)) ∧
    ZeroOrFourP a ∧ ZeroOrFourP b ∧ ZeroOrFourP c ∧ ZeroOrFourP e
def ZeroOrFourP : NodePtr → Prop
  | .null => True
  | .node t => ZeroOrFour t
end

mutual
/-- Depth bookkeeping is consistent: every node's depth is at most
`MAX_DEPTH` and every live child records its parent's depth plus one.  All
reachable trees satisfy this because `initNode` writes `depth + 1` into
children and splits require `depth < MAX_DEPTH`. -/
def Consistent : QNode → Prop
  | .mk d a b c e =>
    d.depth ≤ MAX_DEPTH ∧
    ConsistentP d.depth a ∧ ConsistentP d.depth b ∧
    ConsistentP d.depth c ∧ ConsistentP d.depth e
def ConsistentP : ℕ → NodePtr → Prop
  | _, .null => True
  | dep, .node t => t.data.depth = dep + 1 ∧ Consistent t
end

theorem leafCount_eq (d : NodeData) (a b c e : NodePtr) :
    leafCount (.mk d a b c e)
      = if a.isNull then 1
        else leafCountP a + leafCountP b + leafCountP c + leafCountP e := by
  rw [leafCount]

theorem ZeroOrFour_eq (d : NodeData) (a b c e : NodePtr) :
    ZeroOrFour (.mk d a b c e) ↔
      (((a = .null ∧ b = .null ∧ c = .null ∧ e = .null) ∨
        (a ≠ .null ∧ b ≠ .null ∧ c ≠ .null ∧ e ≠ .null)) ∧
      ZeroOrFourP a ∧ ZeroOrFourP b ∧ ZeroOrFourP c ∧ ZeroOrFourP e) := by
  rw [ZeroOrFour]

theorem Consistent_eq (d : NodeData) (a b c e : NodePtr) :
    Consistent (.mk d a b c e) ↔
      (d.depth ≤ MAX_DEPTH ∧
      ConsistentP d.depth a ∧ ConsistentP d.depth b ∧
      ConsistentP d.depth c ∧ ConsistentP d.depth e) := by
  rw [Consistent]

theorem generateMeshBatched_child (radius : ℝ) (hf : ℝ → ℝ → ℝ) (t : QNode)
    (st : UState) (i : Fin 4) :
    (generateMeshBatched radius hf t st).1.child i = t.child i := by
  unfold generateMeshBatched
  dsimp only
  split <;> simp

theorem generateMeshBatched_depth (radius : ℝ) (hf : ℝ → ℝ → ℝ) (t : QNode)
    (st : UState) :
    (generateMeshBatched radius hf t st).1.data.depth = t.data.depth := by
  unfold generateMeshBatched
  dsimp only
  split <;> simp

theorem generateMeshBatched_activeNodes (radius : ℝ) (hf : ℝ → ℝ → ℝ)
    (t : QNode) (st : UState) :
    (generateMeshBatched radius hf t st).2.activeNodes = st.activeNodes := by
  unfold generateMeshBatched
  dsimp only
  split <;> simp

theorem generateMeshBatched_isLeaf (radius : ℝ) (hf : ℝ → ℝ → ℝ) (t : QNode)
    (st : UState) :
    (generateMeshBatched radius hf t st).1.isLeaf = t.isLeaf := by
  unfold QNode.isLeaf
  rw [generateMeshBatched_child]

theorem consistent_of_eq_children_depth (t s : QNode)
    (hd : s.data.depth = t.data.depth) (hc : ∀ i, s.child i = t.child i)
    (h : Consistent t) : Consistent s := by
  cases t with
  | mk td ta tb tc te =>
    cases s with
    | mk sd sa sb sc se =>
      simp only [data_mk] at hd
      have h0 := hc 0
      have h1 := hc 1
      have h2 := hc 2
      have h3 := hc 3
      simp only [child_mk_zero, child_mk_one, child_mk_two, child_mk_three] at h0 h1 h2 h3
      subst h0; subst h1; subst h2; subst h3
      rw [Consistent_eq] at h ⊢
      rw [hd]
      exact h

theorem zeroOrFour_of_eq_children (t s : QNode)
    (hc : ∀ i, s.child i = t.child i) (h : ZeroOrFour t) : ZeroOrFour s := by
  cases t with
  | mk td ta tb tc te =>
    cases s with
    | mk sd sa sb sc se =>
      have h0 := hc 0
      have h1 := hc 1
      have h2 := hc 2
      have h3 := hc 3
      simp only [child_mk_zero, child_mk_one, child_mk_two, child_mk_three] at h0 h1 h2 h3
      subst h0; subst h1; subst h2; subst h3
      rw [ZeroOrFour_eq] at h ⊢
      exact h

theorem initNode_consistent (radius : ℝ) (face : ℤ) (u0 u1 v0 v1 : ℝ)
    (depth : ℕ) (h : depth ≤ MAX_DEPTH) :
    Consistent (initNode radius face u0 u1 v0 v1 depth) := by
  unfold initNode
  rw [Consistent_eq]
  exact ⟨h, trivial, trivial, trivial, trivial⟩

theorem initNode_zeroOrFour (radius : ℝ) (face : ℤ) (u0 u1 v0 v1 : ℝ)
    (depth : ℕ) : ZeroOrFour (initNode radius face u0 u1 v0 v1 depth) := by
  unfold initNode
  rw [ZeroOrFour_eq]
  exact ⟨Or.inl ⟨rfl, rfl, rfl, rfl⟩, trivial, trivial, trivial, trivial⟩

theorem initNode_depth (radius : ℝ) (face : ℤ) (u0 u1 v0 v1 : ℝ) (depth : ℕ) :
    (initNode radius face u0 u1 v0 v1 depth).data.depth = depth := rfl

theorem initNode_isLeaf (radius : ℝ) (face : ℤ) (u0 u1 v0 v1 : ℝ) (depth : ℕ) :
    (initNode radius face u0 u1 v0 v1 depth).isLeaf = true := rfl

theorem insLT_perm {α : Type} (lt : α → α → Prop) (x : α) (l : List α) :
    (insLT lt x l).Perm (x :: l) := by
  induction l with
  | nil => rfl
  | cons b t ih =>
    rw [insLT]
    split
    · exact ((ih.cons b).trans (List.Perm.swap x b t))
    · rfl

theorem sortLT_perm {α : Type} (lt : α → α → Prop) (l : List α) :
    (sortLT lt l).Perm l := by
  induction l with
  | nil => rfl
  | cons x t ih =>
    rw [sortLT]
    exact (insLT_perm lt x (sortLT lt t)).trans (ih.cons x)

end CubesphereBody


namespace CubesphereBody

/-- Accounting lemma for the child-recursion fold of the split branch: the
fold visits each listed slot once, rewrites it with the step result, and the
step's `activeNodes` contributions add up. -/
theorem foldNodes_spec {ι : Type} [DecidableEq ι]
    (f : QNode → ℕ → UState → QNode × ℕ × UState)
    (P : QNode → Prop) (R : QNode → QNode → Prop)
    (hstep : ∀ t b s, P t →
      R t (f t b s).1 ∧
        (f t b s).2.2.activeNodes = s.activeNodes + leafCount (f t b s).1) :
    ∀ (l : List ι) (acc : (ι → QNode) × ℕ × UState),
      l.Nodup → (∀ i ∈ l, P (acc.1 i)) →
      (∀ i ∈ l, R (acc.1 i) ((l.foldl (stepNodes f) acc).1 i)) ∧
      (∀ i, i ∉ l → (l.foldl (stepNodes f) acc).1 i = acc.1 i) ∧
      (l.foldl (stepNodes f) acc).2.2.activeNodes
        = acc.2.2.activeNodes
          + (l.map fun i => leafCount ((l.foldl (stepNodes f) acc).1 i)).sum
  | [], acc, _, _ => by
    refine ⟨by simp, fun i _ => rfl, by simp⟩
  | i :: rest, acc, hnd, hP => by
    have hnotin : i ∉ rest := (List.nodup_cons.mp hnd).1
    have hndr : rest.Nodup := (List.nodup_cons.mp hnd).2
    have hPi : P (acc.1 i) := hP i (List.mem_cons_self _ _)
    obtain ⟨hRstep, hAstep⟩ := hstep (acc.1 i) acc.2.1 acc.2.2 hPi
    have hacc1 : (i :: rest).foldl (stepNodes f) acc
        = rest.foldl (stepNodes f) (stepNodes f acc i) := rfl
    have hstep1 : (stepNodes f acc i).1
        = fun j => if j = i then (f (acc.1 i) acc.2.1 acc.2.2).1 else acc.1 j := rfl
    have hstep2 : (stepNodes f acc i).2.2 = (f (acc.1 i) acc.2.1 acc.2.2).2.2 := rfl
    have hPr : ∀ j ∈ rest, P ((stepNodes f acc i).1 j) := by
      intro j hj
      have hji : j ≠ i := fun h => hnotin (h ▸ hj)
      rw [hstep1]
      simp only [if_neg hji]
      exact hP j (List.mem_cons_of_mem _ hj)
    obtain ⟨ihR, ihKeep, ihA⟩ :=
      foldNodes_spec f P R hstep rest (stepNodes f acc i) hndr hPr
    have hslotI : ((i :: rest).foldl (stepNodes f) acc).1 i
        = (f (acc.1 i) acc.2.1 acc.2.2).1 := by
      rw [hacc1, ihKeep i hnotin, hstep1]
      simp
    refine ⟨?_, ?_, ?_⟩
    · intro j hj
      rcases List.mem_cons.mp hj with hji | hjr
      · subst hji
        rw [hslotI]
        exact hRstep
      · have hji : j ≠ i := fun h => hnotin (h ▸ hjr)
        have := ihR j hjr
        rw [hstep1] at this
        simp only [if_neg hji] at this
        rw [hacc1]
        exact this
    · intro j hj
      have hji : j ≠ i := fun h => hj (h ▸ List.mem_cons_self _ _)
      have hjr : j ∉ rest := fun h => hj (List.mem_cons_of_mem _ h)
      rw [hacc1, ihKeep j hjr, hstep1]
      simp [if_neg hji]
    · rw [hacc1, ihA, hstep2, hAstep]
      simp only [List.map_cons, List.sum_cons]
      have hslotIr : (rest.foldl (stepNodes f) (stepNodes f acc i)).1 i
          = (f (acc.1 i) acc.2.1 acc.2.2).1 := by
        rw [ihKeep i hnotin, hstep1]
        simp
      rw [hslotIr]
      omega

/-- Accounting lemma for the child-recursion fold of the non-merging
interior branch (nullable slots; null slots are skipped unchanged). -/
theorem foldPtrs_spec (f : QNode → ℕ → UState → QNode × ℕ × UState)
    (P : QNode → Prop) (R : QNode → QNode → Prop)
    (hstep : ∀ t b s, P t →
      R t (f t b s).1 ∧
        (f t b s).2.2.activeNodes = s.activeNodes + leafCount (f t b s).1) :
    ∀ (l : List (Fin 4)) (acc : (Fin 4 → NodePtr) × ℕ × UState),
      l.Nodup → (∀ i ∈ l, ∀ c, acc.1 i = .node c → P c) →
      (∀ i ∈ l,
        (acc.1 i = .null → (l.foldl (stepPtrs f) acc).1 i = .null) ∧
        (∀ c, acc.1 i = .node c →
          ∃ c', R c c' ∧ (l.foldl (stepPtrs f) acc).1 i = .node c')) ∧
      (∀ i, i ∉ l → (l.foldl (stepPtrs f) acc).1 i = acc.1 i) ∧
      (l.foldl (stepPtrs f) acc).2.2.activeNodes
        = acc.2.2.activeNodes
          + (l.map fun i => leafCountP ((l.foldl (stepPtrs f) acc).1 i)).sum
  | [], acc, _, _ => by
    refine ⟨by simp, fun i _ => rfl, by simp⟩
  | i :: rest, acc, hnd, hP => by
    have hnotin : i ∉ rest := (List.nodup_cons.mp hnd).1
    have hndr : rest.Nodup := (List.nodup_cons.mp hnd).2
    have hacc1 : (i :: rest).foldl (stepPtrs f) acc
        = rest.foldl (stepPtrs f) (stepPtrs f acc i) := rfl
    cases hslot : acc.1 i with
    | null =>
      have hstepacc : stepPtrs f acc i = acc := by
        unfold stepPtrs
        rw [hslot]
      rw [hacc1, hstepacc]
      have hPr : ∀ j ∈ rest, ∀ c, acc.1 j = .node c → P c := fun j hj =>
        hP j (List.mem_cons_of_mem _ hj)
      obtain ⟨ihR, ihKeep, ihA⟩ := foldPtrs_spec f P R hstep rest acc hndr hPr
      refine ⟨?_, ?_, ?_⟩
      · intro j hj
        rcases List.mem_cons.mp hj with hji | hjr
        · refine ⟨fun _ => ?_, fun c hc => ?_⟩
          · rw [hji, ihKeep i hnotin, hslot]
          · rw [hji, hslot] at hc
            cases hc
        · exact ihR j hjr
      · intro j hj
        exact ihKeep j fun h => hj (List.mem_cons_of_mem _ h)
      · rw [ihA]
        simp only [List.map_cons, List.sum_cons]
        rw [ihKeep i hnotin, hslot]
        simp [leafCountP]
    | node c =>
      have hPc : P c := hP i (List.mem_cons_self _ _) c hslot
      obtain ⟨hRstep, hAstep⟩ := hstep c acc.2.1 acc.2.2 hPc
      have hstepacc : stepPtrs f acc i =
          ((fun j => if j = i then .node (f c acc.2.1 acc.2.2).1 else acc.1 j),
            (f c acc.2.1 acc.2.2).2.1, (f c acc.2.1 acc.2.2).2.2) := by
        unfold stepPtrs
        rw [hslot]
      have hstep1 : (stepPtrs f acc i).1
          = fun j => if j = i then .node (f c acc.2.1 acc.2.2).1 else acc.1 j := by
        rw [hstepacc]
      have hstep2 : (stepPtrs f acc i).2.2 = (f c acc.2.1 acc.2.2).2.2 := by
        rw [hstepacc]
      have hPr : ∀ j ∈ rest, ∀ cc, (stepPtrs f acc i).1 j = .node cc → P cc := by
        intro j hj cc hcc
        have hji : j ≠ i := fun h => hnotin (h ▸ hj)
        rw [hstep1] at hcc
        simp only [if_neg hji] at hcc
        exact hP j (List.mem_cons_of_mem _ hj) cc hcc
      obtain ⟨ihR, ihKeep, ihA⟩ :=
        foldPtrs_spec f P R hstep rest (stepPtrs f acc i) hndr hPr
      have hslotI : ((i :: rest).foldl (stepPtrs f) acc).1 i
          = .node (f c acc.2.1 acc.2.2).1 := by
        rw [hacc1, ihKeep i hnotin, hstep1]
        simp
      refine ⟨?_, ?_, ?_⟩
      · intro j hj
        rcases List.mem_cons.mp hj with hji | hjr
        · subst hji
          refine ⟨fun h => ?_, fun cc hcc => ?_⟩
          · rw [hslot] at h
            cases h
          · rw [hslot] at hcc
            cases hcc
            exact ⟨(f c acc.2.1 acc.2.2).1, hRstep, hslotI⟩
        · have hji : j ≠ i := fun h => hnotin (h ▸ hjr)
          have := ihR j hjr
          rw [hstep1] at this
          simp only [if_neg hji] at this
          rw [hacc1]
          exact this
      · intro j hj
        have hji : j ≠ i := fun h => hj (h ▸ List.mem_cons_self _ _)
        have hjr : j ∉ rest := fun h => hj (List.mem_cons_of_mem _ h)
        rw [hacc1, ihKeep j hjr, hstep1]
        simp [if_neg hji]
      · rw [hacc1, ihA, hstep2, hAstep]
        simp only [List.map_cons, List.sum_cons]
        have hslotIr : (rest.foldl (stepPtrs f) (stepPtrs f acc i)).1 i
            = .node (f c acc.2.1 acc.2.2).1 := by
          rw [ihKeep i hnotin, hstep1]
          simp
        rw [hslotIr]
        simp only [leafCountP]
        omega

end CubesphereBody


namespace CubesphereBody

theorem Consistent.depth_le {t : QNode} (h : Consistent t) :
    t.data.depth ≤ MAX_DEPTH := by
  cases t with
  | mk d a b c e =>
    rw [Consistent_eq] at h
    simpa using h.1

theorem consistentP_child (t : QNode) (h : Consistent t) :
    ∀ i : Fin 4, ConsistentP t.data.depth (t.child i) := by
  cases t with
  | mk d a b c e =>
    rw [Consistent_eq] at h
    intro i
    match i with
    | 0 => exact h.2.1
    | 1 => exact h.2.2.1
    | 2 => exact h.2.2.2.1
    | 3 => exact h.2.2.2.2

theorem zeroOrFourP_child (t : QNode) (h : ZeroOrFour t) :
    ∀ i : Fin 4, ZeroOrFourP (t.child i) := by
  cases t with
  | mk d a b c e =>
    rw [ZeroOrFour_eq] at h
    intro i
    match i with
    | 0 => exact h.2.1
    | 1 => exact h.2.2.1
    | 2 => exact h.2.2.2.1
    | 3 => exact h.2.2.2.2

theorem zeroOrFour_pattern (t : QNode) (h : ZeroOrFour t) :
    (∀ i : Fin 4, t.child i = .null) ∨ (∀ i : Fin 4, t.child i ≠ .null) := by
  cases t with
  | mk d a b c e =>
    rw [ZeroOrFour_eq] at h
    rcases h.1 with ⟨h0, h1, h2, h3⟩ | ⟨h0, h1, h2, h3⟩
    · left
      intro i
      match i with
      | 0 => exact h0
      | 1 => exact h1
      | 2 => exact h2
      | 3 => exact h3
    · right
      intro i
      match i with
      | 0 => exact h0
      | 1 => exact h1
      | 2 => exact h2
      | 3 => exact h3

theorem leafCount_of_leaf (t : QNode) (h : t.isLeaf = true) : leafCount t = 1 := by
  cases t with
  | mk d a b c e =>
    rw [leafCount_eq]
    unfold QNode.isLeaf at h
    rw [child_mk_zero] at h
    rw [h]
    simp

theorem leafCount_mk_nodes (d : NodeData) (x0 x1 x2 x3 : QNode) :
    leafCount (.mk d (.node x0) (.node x1) (.node x2) (.node x3))
      = leafCount x0 + leafCount x1 + leafCount x2 + leafCount x3 := by
  rw [leafCount_eq]
  simp [NodePtr.isNull, leafCountP]

theorem mem_order4 (l : List (Fin 4)) (hperm : l.Perm [0, 1, 2, 3]) (i : Fin 4) :
    i ∈ l := by
  rw [hperm.mem_iff]
  fin_cases i <;> simp

end CubesphereBody


namespace CubesphereBody

theorem ConsistentP_node (dep : ℕ) (x : QNode) :
    ConsistentP dep (.node x) ↔ (x.data.depth = dep + 1 ∧ Consistent x) := by
  rw [ConsistentP]

theorem ZeroOrFourP_node (x : QNode) : ZeroOrFourP (.node x) ↔ ZeroOrFour x := by
  rw [ZeroOrFourP]

theorem leafCountP_node (x : QNode) : leafCountP (.node x) = leafCount x := by
  rw [leafCountP]

theorem leafCountP_null : leafCountP .null = 0 := by
  rw [leafCountP]

theorem node_ne_null (x : QNode) : NodePtr.node x ≠ .null := by
  intro h
  cases h

theorem generateMeshBatched_CZ (radius : ℝ) (hf : ℝ → ℝ → ℝ) (k : QNode)
    (st : UState) (hC : Consistent k) (h04 : ZeroOrFour k) :
    Consistent (generateMeshBatched radius hf k st).1 ∧
      ZeroOrFour (generateMeshBatched radius hf k st).1 :=
  ⟨consistent_of_eq_children_depth k _ (generateMeshBatched_depth radius hf k st)
      (generateMeshBatched_child radius hf k st) hC,
    zeroOrFour_of_eq_children k _ (generateMeshBatched_child radius hf k st) h04⟩

theorem splitKids_spec (radius : ℝ) (hf : ℝ → ℝ → ℝ) (t : QNode) (st : UState)
    (hd : t.data.depth + 1 ≤ MAX_DEPTH) (i : Fin 4) :
    Consistent ((splitKids radius hf t st).1 i) ∧
      ZeroOrFour ((splitKids radius hf t st).1 i) ∧
      ((splitKids radius hf t st).1 i).data.depth = t.data.depth + 1 := by
  unfold splitKids
  dsimp only
  have hgen : ∀ (k : QNode) (s : UState), Consistent k → ZeroOrFour k →
      k.data.depth = t.data.depth + 1 →
      Consistent (generateMeshBatched radius hf k s).1 ∧
        ZeroOrFour (generateMeshBatched radius hf k s).1 ∧
        (generateMeshBatched radius hf k s).1.data.depth = t.data.depth + 1 := by
    intro k s hC h04 hkd
    obtain ⟨c1, c2⟩ := generateMeshBatched_CZ radius hf k s hC h04
    exact ⟨c1, c2, by rw [generateMeshBatched_depth, hkd]⟩
  match i with
  | 0 =>
    exact hgen _ _ (initNode_consistent _ _ _ _ _ _ _ hd)
      (initNode_zeroOrFour _ _ _ _ _ _ _) (initNode_depth _ _ _ _ _ _ _)
  | 1 =>
    exact hgen _ _ (initNode_consistent _ _ _ _ _ _ _ hd)
      (initNode_zeroOrFour _ _ _ _ _ _ _) (initNode_depth _ _ _ _ _ _ _)
  | 2 =>
    exact hgen _ _ (initNode_consistent _ _ _ _ _ _ _ hd)
      (initNode_zeroOrFour _ _ _ _ _ _ _) (initNode_depth _ _ _ _ _ _ _)
  | 3 =>
    exact hgen _ _ (initNode_consistent _ _ _ _ _ _ _ hd)
      (initNode_zeroOrFour _ _ _ _ _ _ _) (initNode_depth _ _ _ _ _ _ _)

theorem splitKids_activeNodes (radius : ℝ) (hf : ℝ → ℝ → ℝ) (t : QNode)
    (st : UState) :
    (splitKids radius hf t st).2.activeNodes = st.activeNodes := by
  unfold splitKids
  dsimp only
  rw [generateMeshBatched_activeNodes, generateMeshBatched_activeNodes,
    generateMeshBatched_activeNodes, generateMeshBatched_activeNodes]

theorem pushParentMesh_activeNodes (t : QNode) (st : UState) :
    (pushParentMesh t st).activeNodes = st.activeNodes := by
  unfold pushParentMesh
  cases t.data.mesh <;> rfl

theorem splitNode_spec (radius : ℝ) (hf : ℝ → ℝ → ℝ) (cam : Vec3)
    (f : QNode → ℕ → UState → QNode × ℕ × UState)
    (t : QNode) (budget : ℕ) (st : UState)
    (hdlt : t.data.depth < MAX_DEPTH)
    (hstep : ∀ k b s, Consistent k → ZeroOrFour k →
      k.data.depth = t.data.depth + 1 →
      (Consistent (f k b s).1 ∧ ZeroOrFour (f k b s).1 ∧
        (f k b s).1.data.depth = k.data.depth) ∧
      (f k b s).2.2.activeNodes = s.activeNodes + leafCount (f k b s).1) :
    Consistent (splitNode radius hf cam f t budget st).1 ∧
      ZeroOrFour (splitNode radius hf cam f t budget st).1 ∧
      (splitNode radius hf cam f t budget st).1.data.depth = t.data.depth ∧
      (splitNode radius hf cam f t budget st).2.2.activeNodes
        = st.activeNodes + leafCount (splitNode radius hf cam f t budget st).1 := by
  unfold splitNode
  dsimp only
  set ks := splitKids radius hf t st with hks
  set st1 := pushParentMesh t ks.2 with hst1
  set order := splitOrder cam ks.1 with horder
  have hperm : order.Perm [0, 1, 2, 3] := sortLT_perm _ _
  have hnodup : order.Nodup := hperm.nodup_iff.mpr (by decide)
  have hkid : ∀ i : Fin 4, Consistent (ks.1 i) ∧ ZeroOrFour (ks.1 i) ∧
      (ks.1 i).data.depth = t.data.depth + 1 :=
    fun i => splitKids_spec radius hf t st (by omega) i
  obtain ⟨hR, hKeep, hA⟩ := foldNodes_spec f
    (fun k => Consistent k ∧ ZeroOrFour k ∧ k.data.depth = t.data.depth + 1)
    (fun k k' => Consistent k' ∧ ZeroOrFour k' ∧ k'.data.depth = k.data.depth)
    (fun k b s hk => ⟨(hstep k b s hk.1 hk.2.1 hk.2.2).1,
      (hstep k b s hk.1 hk.2.1 hk.2.2).2⟩)
    order (ks.1, budget - 4, st1) hnodup (fun i _ => hkid i)
  set fin := order.foldl (stepNodes f) (ks.1, budget - 4, st1) with hfin
  have hall : ∀ i : Fin 4, Consistent (fin.1 i) ∧ ZeroOrFour (fin.1 i) ∧
      (fin.1 i).data.depth = (ks.1 i).data.depth :=
    fun i => hR i (mem_order4 order hperm i)
  refine ⟨?_, ?_, ?_, ?_⟩
  · rw [Consistent_eq]
    refine ⟨by simpa using le_of_lt hdlt, ?_, ?_, ?_, ?_⟩ <;>
      rw [ConsistentP_node] <;>
      simp only [data_mk] <;>
      exact ⟨by rw [(hall _).2.2, (hkid _).2.2], (hall _).1⟩
  · rw [ZeroOrFour_eq]
    refine ⟨Or.inr ⟨node_ne_null _, node_ne_null _, node_ne_null _, node_ne_null _⟩,
      ?_, ?_, ?_, ?_⟩ <;>
      rw [ZeroOrFourP_node] <;>
      exact (hall _).2.1
  · simp
  · dsimp only
    rw [hA]
    rw [leafCount_mk_nodes]
    have hsum : (order.map fun i => leafCount (fin.1 i)).sum
        = ([0, 1, 2, 3].map fun i : Fin 4 => leafCount (fin.1 i)).sum :=
      (hperm.map fun i => leafCount (fin.1 i)).sum_eq
    rw [hsum]
    have hact : st1.activeNodes = st.activeNodes := by
      rw [hst1, pushParentMesh_activeNodes, hks, splitKids_activeNodes]
    rw [hact]
    simp [List.sum_cons]
    ring

theorem mergeChild_isLeaf (gm : QNode) :
    ((gm.withChildren fun _ => .null)).isLeaf = true := by
  unfold QNode.isLeaf
  rw [child_withChildren]
  rfl

theorem mergeNode_spec (radius : ℝ) (hf : ℝ → ℝ → ℝ) (t : QNode)
    (budget : ℕ) (st : UState) (hC : Consistent t) :
    Consistent (mergeNode radius hf t budget st).1 ∧
      ZeroOrFour (mergeNode radius hf t budget st).1 ∧
      (mergeNode radius hf t budget st).1.data.depth = t.data.depth ∧
      (mergeNode radius hf t budget st).2.2.activeNodes
        = st.activeNodes + leafCount (mergeNode radius hf t budget st).1 := by
  unfold mergeNode
  dsimp only
  set gm := if t.hasMesh = true then (t, st) else generateMeshBatched radius hf t st
    with hgm
  have hgd : gm.1.data.depth = t.data.depth := by
    rw [hgm]
    split
    · rfl
    · exact generateMeshBatched_depth radius hf t st
  have hga : gm.2.activeNodes = st.activeNodes := by
    rw [hgm]
    split
    · rfl
    · exact generateMeshBatched_activeNodes radius hf t st
  have hleaf : ((gm.1.withChildren fun _ => .null)).isLeaf = true :=
    mergeChild_isLeaf gm.1
  refine ⟨?_, ?_, ?_, ?_⟩
  · cases hmk : gm.1.withChildren fun _ => .null with
    | mk d a b c e =>
      rw [Consistent_eq]
      have hda : d = gm.1.data := by
        have := congrArg QNode.data hmk
        rw [data_withChildren] at this
        simpa using this.symm
      have hnull : ∀ i : Fin 4, (QNode.mk d a b c e).child i = .null := by
        intro i
        rw [← hmk, child_withChildren]
      refine ⟨?_, ?_, ?_, ?_, ?_⟩
      · rw [hda, hgd]
        exact hC.depth_le
      · have := hnull 0
        rw [child_mk_zero] at this
        rw [this]
        trivial
      · have := hnull 1
        rw [child_mk_one] at this
        rw [this]
        trivial
      · have := hnull 2
        rw [child_mk_two] at this
        rw [this]
        trivial
      · have := hnull 3
        rw [child_mk_three] at this
        rw [this]
        trivial
  · cases hmk : gm.1.withChildren fun _ => .null with
    | mk d a b c e =>
      rw [ZeroOrFour_eq]
      have hnull : ∀ i : Fin 4, (QNode.mk d a b c e).child i = .null := by
        intro i
        rw [← hmk, child_withChildren]
      have h0 := hnull 0
      have h1 := hnull 1
      have h2 := hnull 2
      have h3 := hnull 3
      rw [child_mk_zero] at h0
      rw [child_mk_one] at h1
      rw [child_mk_two] at h2
      rw [child_mk_three] at h3
      subst h0 h1 h2 h3
      exact ⟨Or.inl ⟨rfl, rfl, rfl, rfl⟩, trivial, trivial, trivial, trivial⟩
  · rw [data_withChildren, hgd]
  · dsimp only
    rw [leafCount_of_leaf _ hleaf, hga]

theorem recurseNode_spec (cam : Vec3)
    (f : QNode → ℕ → UState → QNode × ℕ × UState)
    (t : QNode) (budget : ℕ) (st : UState)
    (hC : Consistent t) (h04 : ZeroOrFour t) (hleaf : t.isLeaf = false)
    (hstep : ∀ k b s, Consistent k → ZeroOrFour k →
      k.data.depth = t.data.depth + 1 →
      (Consistent (f k b s).1 ∧ ZeroOrFour (f k b s).1 ∧
        (f k b s).1.data.depth = k.data.depth) ∧
      (f k b s).2.2.activeNodes = s.activeNodes + leafCount (f k b s).1) :
    Consistent (recurseNode cam f t budget st).1 ∧
      ZeroOrFour (recurseNode cam f t budget st).1 ∧
      (recurseNode cam f t budget st).1.data.depth = t.data.depth ∧
      (recurseNode cam f t budget st).2.2.activeNodes
        = st.activeNodes + leafCount (recurseNode cam f t budget st).1 := by
  unfold recurseNode
  dsimp only
  set order := sortLT (childCmp cam t.child) [0, 1, 2, 3] with horder
  have hperm : order.Perm [0, 1, 2, 3] := sortLT_perm _ _
  have hnodup : order.Nodup := hperm.nodup_iff.mpr (by decide)
  have hPin : ∀ i ∈ order, ∀ c, t.child i = .node c →
      Consistent c ∧ ZeroOrFour c ∧ c.data.depth = t.data.depth + 1 := by
    intro i _ c hc
    have h1 := consistentP_child t hC i
    have h2 := zeroOrFourP_child t h04 i
    rw [hc, ConsistentP_node] at h1
    rw [hc, ZeroOrFourP_node] at h2
    exact ⟨h1.2, h2, h1.1⟩
  obtain ⟨hR, hKeep, hA⟩ := foldPtrs_spec f
    (fun k => Consistent k ∧ ZeroOrFour k ∧ k.data.depth = t.data.depth + 1)
    (fun k k' => Consistent k' ∧ ZeroOrFour k' ∧ k'.data.depth = k.data.depth)
    (fun k b s hk => ⟨(hstep k b s hk.1 hk.2.1 hk.2.2).1,
      (hstep k b s hk.1 hk.2.1 hk.2.2).2⟩)
    order (t.child, budget, st) hnodup hPin
  set fin := order.foldl (stepPtrs f) (t.child, budget, st) with hfin
  have hall : ∀ i : Fin 4,
      (t.child i = .null → fin.1 i = .null) ∧
      (∀ c, t.child i = .node c → ∃ c',
        (Consistent c' ∧ ZeroOrFour c' ∧ c'.data.depth = c.data.depth) ∧
        fin.1 i = .node c') :=
    fun i => hR i (mem_order4 order hperm i)
  have hslotC : ∀ i : Fin 4, ConsistentP t.data.depth (fin.1 i) := by
    intro i
    cases hc : t.child i with
    | null =>
      rw [(hall i).1 hc]
      trivial
    | node c =>
      obtain ⟨c', ⟨hc1, _, hc3⟩, hfi⟩ := (hall i).2 c hc
      rw [hfi, ConsistentP_node]
      have := consistentP_child t hC i
      rw [hc, ConsistentP_node] at this
      exact ⟨by rw [hc3, this.1], hc1⟩
  have hslotZ : ∀ i : Fin 4, ZeroOrFourP (fin.1 i) := by
    intro i
    cases hc : t.child i with
    | null =>
      rw [(hall i).1 hc]
      trivial
    | node c =>
      obtain ⟨c', ⟨_, hc2, _⟩, hfi⟩ := (hall i).2 c hc
      rw [hfi, ZeroOrFourP_node]
      exact hc2
  have hnullIff : ∀ i : Fin 4, fin.1 i = .null ↔ t.child i = .null := by
    intro i
    cases hc : t.child i with
    | null => exact ⟨fun _ => rfl, fun _ => (hall i).1 hc⟩
    | node c =>
      obtain ⟨c', _, hfi⟩ := (hall i).2 c hc
      rw [hfi]
      exact ⟨fun h => absurd h (node_ne_null _), fun h => absurd h (node_ne_null _)⟩
  have hchild0 : t.child 0 ≠ .null := by
    unfold QNode.isLeaf at hleaf
    intro h
    rw [h] at hleaf
    cases hleaf
  refine ⟨?_, ?_, ?_, ?_⟩
  · cases hmk : t.withChildren fin.1 with
    | mk d a b c e =>
      have hda : d = t.data := by
        have := congrArg QNode.data hmk
        rw [data_withChildren] at this
        simpa using this.symm
      have hch : ∀ i : Fin 4, (QNode.mk d a b c e).child i = fin.1 i := by
        intro i
        rw [← hmk, child_withChildren]
      rw [Consistent_eq]
      have hc0 := hch 0
      have hc1 := hch 1
      have hc2 := hch 2
      have hc3 := hch 3
      rw [child_mk_zero] at hc0
      rw [child_mk_one] at hc1
      rw [child_mk_two] at hc2
      rw [child_mk_three] at hc3
      subst hc0 hc1 hc2 hc3
      subst hda
      exact ⟨hC.depth_le, hslotC 0, hslotC 1, hslotC 2, hslotC 3⟩
  · cases hmk : t.withChildren fin.1 with
    | mk d a b c e =>
      have hch : ∀ i : Fin 4, (QNode.mk d a b c e).child i = fin.1 i := by
        intro i
        rw [← hmk, child_withChildren]
      rw [ZeroOrFour_eq]
      have hc0 := hch 0
      have hc1 := hch 1
      have hc2 := hch 2
      have hc3 := hch 3
      rw [child_mk_zero] at hc0
      rw [child_mk_one] at hc1
      rw [child_mk_two] at hc2
      rw [child_mk_three] at hc3
      subst hc0 hc1 hc2 hc3
      refine ⟨?_, hslotZ 0, hslotZ 1, hslotZ 2, hslotZ 3⟩
      rcases zeroOrFour_pattern t h04 with hall0 | hall4
      · exact Or.inl ⟨(hnullIff 0).mpr (hall0 0), (hnullIff 1).mpr (hall0 1),
          (hnullIff 2).mpr (hall0 2), (hnullIff 3).mpr (hall0 3)⟩
      · refine Or.inr ⟨?_, ?_, ?_, ?_⟩ <;>
          exact fun h => hall4 _ ((hnullIff _).mp h)
  · rw [data_withChildren]
  · dsimp only
    rw [hA]
    have hlc : leafCount (t.withChildren fin.1)
        = ([0, 1, 2, 3].map fun i : Fin 4 => leafCountP (fin.1 i)).sum := by
      cases hmk : t.withChildren fin.1 with
      | mk d a b c e =>
        have hch : ∀ i : Fin 4, (QNode.mk d a b c e).child i = fin.1 i := by
          intro i
          rw [← hmk, child_withChildren]
        have hc0 := hch 0
        have hc1 := hch 1
        have hc2 := hch 2
        have hc3 := hch 3
        rw [child_mk_zero] at hc0
        rw [child_mk_one] at hc1
        rw [child_mk_two] at hc2
        rw [child_mk_three] at hc3
        subst hc0 hc1 hc2 hc3
        rw [leafCount_eq]
        have : (fin.1 0).isNull = false := by
          cases hfn : fin.1 0 with
          | null => exact absurd ((hnullIff 0).mp hfn) hchild0
          | node x => rfl
        rw [this]
        simp [List.sum_cons]
        ring
    rw [hlc]
    have hsum : (order.map fun i => leafCountP (fin.1 i)).sum
        = ([0, 1, 2, 3].map fun i : Fin 4 => leafCountP (fin.1 i)).sum :=
      (hperm.map fun i => leafCountP (fin.1 i)).sum_eq
    rw [hsum]

end CubesphereBody


namespace CubesphereBody

/-- Main induction over `updateNode`: on depth-consistent 0-or-4 trees with
sufficient fuel, the result tree is again depth-consistent and 0-or-4, the
node's depth is unchanged, and `activeNodes_` grows by exactly the number of
leaves of the resulting subtree. -/
theorem updateNode_main (radius : ℝ) (hf : ℝ → ℝ → ℝ) (cam : Vec3)
    (fovY screenHeight : ℝ) (planes : Fin 6 → Plane) :
    ∀ (fuel : ℕ) (t : QNode) (budget : ℕ) (st : UState),
      Consistent t → ZeroOrFour t → MAX_DEPTH + 1 ≤ fuel + t.data.depth →
      Consistent (updateNode radius hf cam fovY screenHeight planes fuel t budget st).1 ∧
      ZeroOrFour (updateNode radius hf cam fovY screenHeight planes fuel t budget st).1 ∧
      (updateNode radius hf cam fovY screenHeight planes fuel t budget st).1.data.depth
        = t.data.depth ∧
      (updateNode radius hf cam fovY screenHeight planes fuel t budget st).2.2.activeNodes
        = st.activeNodes
          + leafCount (updateNode radius hf cam fovY screenHeight planes fuel t budget st).1
  | 0, t, budget, st => by
    intro hC _ hfuel
    have := hC.depth_le
    rw [show MAX_DEPTH = 15 from rfl] at *
    omega
  | fuel + 1, t, budget, st => by
    intro hC h04 hfuel
    have hdep := hC.depth_le
    have hstep : ∀ k b s, Consistent k → ZeroOrFour k →
        k.data.depth = t.data.depth + 1 →
        (Consistent (updateNode radius hf cam fovY screenHeight planes fuel k b s).1 ∧
          ZeroOrFour (updateNode radius hf cam fovY screenHeight planes fuel k b s).1 ∧
          (updateNode radius hf cam fovY screenHeight planes fuel k b s).1.data.depth
            = k.data.depth) ∧
        (updateNode radius hf cam fovY screenHeight planes fuel k b s).2.2.activeNodes
          = s.activeNodes
            + leafCount (updateNode radius hf cam fovY screenHeight planes fuel k b s).1 := by
      intro k b s hkC hk04 hkd
      have hkfuel : MAX_DEPTH + 1 ≤ fuel + k.data.depth := by
        rw [hkd]
        omega
      obtain ⟨a1, a2, a3, a4⟩ := updateNode_main radius hf cam fovY screenHeight
        planes fuel k b s hkC hk04 hkfuel
      exact ⟨⟨a1, a2, a3⟩, a4⟩
    rw [updateNode]
    by_cases hL : t.isLeaf = true
    · rw [if_pos hL]
      dsimp only
      split
      next hG =>
        exact splitNode_spec radius hf cam _ t budget st hG.2.2.1 hstep
      next hG =>
        dsimp only
        refine ⟨hC, h04, rfl, ?_⟩
        rw [leafCount_of_leaf t hL]
    · rw [if_neg hL]
      dsimp only
      split
      next hM =>
        exact mergeNode_spec radius hf t budget st hC
      next hM =>
        exact recurseNode_spec cam _ t budget st hC h04
          (Bool.not_eq_true _ ▸ hL : t.isLeaf = false) hstep

end CubesphereBody


namespace CubesphereBody

theorem mem_order6 (l : List (Fin 6)) (hperm : l.Perm [0, 1, 2, 3, 4, 5])
    (i : Fin 6) : i ∈ l := by
  rw [hperm.mem_iff]
  fin_cases i <;> simp

/-- Well-formedness of the six-root forest: every root subtree is
depth-consistent and satisfies the 0-or-4 children discipline. -/
def ForestWF (roots : Fin 6 → QNode) : Prop :=
  ∀ i : Fin 6, Consistent (roots i) ∧ ZeroOrFour (roots i)

/-- Total number of leaves of the forest. -/
def forestLeafCount (roots : Fin 6 → QNode) : ℕ :=
  leafCount (roots 0) + leafCount (roots 1) + leafCount (roots 2)
    + leafCount (roots 3) + leafCount (roots 4) + leafCount (roots 5)

theorem finishFrame_activeNodes (st : UState) :
    (finishFrame st).activeNodes = st.activeNodes := by
  unfold finishFrame
  dsimp only
  split <;> rfl

/-- One frame of `update` on a well-formed forest: the forest stays
well-formed and the final `activeNodes_` equals the total leaf count of the
resulting forest. -/
theorem update_main (radius : ℝ) (hf : ℝ → ℝ → ℝ) (roots : Fin 6 → QNode)
    (st0 : UState) (cam : Vec3) (fovY screenHeight : ℝ) (vp : Mat4)
    (hWF : ForestWF roots) :
    ForestWF (update radius hf roots st0 cam fovY screenHeight vp).1 ∧
      (update radius hf roots st0 cam fovY screenHeight vp).2.activeNodes
        = forestLeafCount (update radius hf roots st0 cam fovY screenHeight vp).1 := by
  unfold update
  dsimp only
  set planes := extractFrustumPlanes vp with hplanes
  set order := sortLT
    (fun a b : Fin 6 => (Vec3.sub (roots a).data.worldCenter cam).length
      < (Vec3.sub (roots b).data.worldCenter cam).length)
    [0, 1, 2, 3, 4, 5] with horder
  have hperm : order.Perm [0, 1, 2, 3, 4, 5] := sortLT_perm _ _
  have hnodup : order.Nodup := hperm.nodup_iff.mpr (by decide)
  have hstep : ∀ k b s, (Consistent k ∧ ZeroOrFour k) →
      ((Consistent (updateNode radius hf cam fovY screenHeight planes
          (MAX_DEPTH + 1) k b s).1 ∧
        ZeroOrFour (updateNode radius hf cam fovY screenHeight planes
          (MAX_DEPTH + 1) k b s).1) ∧
      (updateNode radius hf cam fovY screenHeight planes
          (MAX_DEPTH + 1) k b s).2.2.activeNodes
        = s.activeNodes + leafCount (updateNode radius hf cam fovY screenHeight
            planes (MAX_DEPTH + 1) k b s).1) := by
    intro k b s hk
    obtain ⟨a1, a2, _, a4⟩ := updateNode_main radius hf cam fovY screenHeight
      planes (MAX_DEPTH + 1) k b s hk.1 hk.2 (by omega)
    exact ⟨⟨a1, a2⟩, a4⟩
  obtain ⟨hR, hKeep, hA⟩ := foldNodes_spec
    (fun a b s => updateNode radius hf cam fovY screenHeight planes
      (MAX_DEPTH + 1) a b s)
    (fun k => Consistent k ∧ ZeroOrFour k)
    (fun _ k' => Consistent k' ∧ ZeroOrFour k')
    (fun k b s hk => hstep k b s hk)
    order (roots, MAX_SPLITS_PER_FRAME,
      { st0 with
        activeNodes := 0, batchCount := 0, pending := [],
        staging := StagingBatch.begin (MESHES_PER_BATCH * BYTES_PER_MESH) })
    hnodup (fun i _ => hWF i)
  set fin := order.foldl
    (stepNodes fun a b s => updateNode radius hf cam fovY screenHeight planes
      (MAX_DEPTH + 1) a b s)
    (roots, MAX_SPLITS_PER_FRAME,
      { st0 with
        activeNodes := 0, batchCount := 0, pending := [],
        staging := StagingBatch.begin (MESHES_PER_BATCH * BYTES_PER_MESH) })
    with hfin
  have hall : ∀ i : Fin 6, Consistent (fin.1 i) ∧ ZeroOrFour (fin.1 i) :=
    fun i => hR i (mem_order6 order hperm i)
  constructor
  · intro i
    exact hall i
  · have hsum : (order.map fun i => leafCount (fin.1 i)).sum
        = ([0, 1, 2, 3, 4, 5].map fun i : Fin 6 => leafCount (fin.1 i)).sum :=
      (hperm.map fun i => leafCount (fin.1 i)).sum_eq
    have hact : forestLeafCount fin.1
        = ([0, 1, 2, 3, 4, 5].map fun i : Fin 6 => leafCount (fin.1 i)).sum := by
      unfold forestLeafCount
      simp [List.sum_cons]
      ring
    show (finishFrame fin.2.2).activeNodes = forestLeafCount fin.1
    rw [finishFrame_activeNodes, hA, hsum, hact]
    simp

theorem initNode_CZ (radius : ℝ) (face : ℤ) :
    Consistent (initNode radius face (-1) 1 (-1) 1 0) ∧
      ZeroOrFour (initNode radius face (-1) 1 (-1) 1 0) :=
  ⟨initNode_consistent radius face (-1) 1 (-1) 1 0 (by norm_num [MAX_DEPTH]),
    initNode_zeroOrFour radius face (-1) 1 (-1) 1 0⟩

/-- The constructor produces a well-formed forest. -/
theorem initialBody_WF (radius : ℝ) (hf : ℝ → ℝ → ℝ) :
    ForestWF (initialBody radius hf).1 := by
  intro i
  fin_cases i <;>
    exact generateMeshBatched_CZ _ _ _ _ (initNode_CZ _ _).1 (initNode_CZ _ _).2

/-- The states of `CubesphereBody`: the constructor state and everything a
sequence of `update` calls (with arbitrary camera parameters per frame)
produces from it. -/
inductive Reachable (radius : ℝ) (hf : ℝ → ℝ → ℝ) :
    (Fin 6 → QNode) × UState → Prop where
  | init : Reachable radius hf (initialBody radius hf)
  | step (b : (Fin 6 → QNode) × UState) (cam : Vec3) (fovY screenHeight : ℝ)
      (vp : Mat4) : Reachable radius hf b →
      Reachable radius hf (update radius hf b.1 b.2 cam fovY screenHeight vp)

theorem reachable_WF (radius : ℝ) (hf : ℝ → ℝ → ℝ)
    (b : (Fin 6 → QNode) × UState) (hb : Reachable radius hf b) :
    ForestWF b.1 := by
  induction hb with
  | init => exact initialBody_WF radius hf
  | step b cam fovY screenHeight vp _ ih =>
    exact (update_main radius hf b.1 b.2 cam fovY screenHeight vp ih).1

end CubesphereBody

/-- C5: in every reachable state of the quadtree forest (after construction
and after any sequence of `update` calls with arbitrary per-frame camera
parameters), every node of every tree has exactly 0 or exactly 4 live
children — never 1, 2 or 3: the split branch fills all four slots before
returning and the merge branch clears all four. -/
theorem C5_zeroOrFour_invariant (radius : ℝ) (hf : ℝ → ℝ → ℝ)
    (b : (Fin 6 → CubesphereBody.QNode) × CubesphereBody.UState)
    (hb : CubesphereBody.Reachable radius hf b) :
    ∀ i : Fin 6, CubesphereBody.ZeroOrFour (b.1 i) :=
  fun i => (CubesphereBody.reachable_WF radius hf b hb i).2

/-- Witness for `C5_zeroOrFour_invariant` at the constructor state with unit
radius and a flat heightfield. -/
theorem C5_witness :
    CubesphereBody.Reachable 1 (fun _ _ => 0)
        (CubesphereBody.initialBody 1 fun _ _ => 0) ∧
      ∀ i : Fin 6, CubesphereBody.ZeroOrFour
        ((CubesphereBody.initialBody 1 fun _ _ => 0).1 i) :=
  ⟨CubesphereBody.Reachable.init,
    C5_zeroOrFour_invariant 1 (fun _ _ => 0) _ CubesphereBody.Reachable.init⟩

/-- C10: after every `update` call on a reachable state, `activeNodeCount()`
equals the number of leaf nodes in the resulting forest — every final leaf
(an unsplit leaf, a fresh child that did not split further, or a merged
parent) is counted exactly once, and interior nodes are not counted. -/
theorem C10_activeNodes_eq_leafCount (radius : ℝ) (hf : ℝ → ℝ → ℝ)
    (b : (Fin 6 → CubesphereBody.QNode) × CubesphereBody.UState)
    (cam : Vec3) (fovY screenHeight : ℝ) (vp : CubesphereBody.Mat4)
    (hb : CubesphereBody.Reachable radius hf b) :
    (CubesphereBody.update radius hf b.1 b.2 cam fovY screenHeight vp).2.activeNodes
      = CubesphereBody.forestLeafCount
          (CubesphereBody.update radius hf b.1 b.2 cam fovY screenHeight vp).1 :=
  (CubesphereBody.update_main radius hf b.1 b.2 cam fovY screenHeight vp
    (CubesphereBody.reachable_WF radius hf b hb)).2

/-- Witness for `C10_activeNodes_eq_leafCount`: one update of the
constructor state with the camera at the origin. -/
theorem C10_witness :
    CubesphereBody.Reachable 1 (fun _ _ => 0)
        (CubesphereBody.initialBody 1 fun _ _ => 0) ∧
      (CubesphereBody.update 1 (fun _ _ => 0)
          (CubesphereBody.initialBody 1 fun _ _ => 0).1
          (CubesphereBody.initialBody 1 fun _ _ => 0).2
          Vec3.zero (Real.pi / 2) 0 (fun _ _ => 0)).2.activeNodes
        = CubesphereBody.forestLeafCount
            (CubesphereBody.update 1 (fun _ _ => 0)
              (CubesphereBody.initialBody 1 fun _ _ => 0).1
              (CubesphereBody.initialBody 1 fun _ _ => 0).2
              Vec3.zero (Real.pi / 2) 0 (fun _ _ => 0)).1 :=
  ⟨CubesphereBody.Reachable.init,
    C10_activeNodes_eq_leafCount 1 (fun _ _ => 0) _ Vec3.zero (Real.pi / 2) 0
      (fun _ _ => 0) CubesphereBody.Reachable.init⟩


namespace CubesphereBody

/-- Mesh uploads confirmed complete on the device: each `submitComplete`
event is an `endOneShot`, i.e. a submission followed by `vkQueueWaitIdle`,
so its uploads are confirmed finished when the event is recorded. -/
def confirmedUploads : List DevEvent → List ℕ
  | [] => []
  | .submitComplete l :: rest => l ++ confirmedUploads rest
  | .destroy _ :: rest => confirmedUploads rest

/-- Number of device-completion confirmations (`endOneShot` calls) in an
event log. -/
def numSubmits : List DevEvent → ℕ
  | [] => 0
  | .submitComplete _ :: rest => numSubmits rest + 1
  | .destroy _ :: rest => numSubmits rest

theorem confirmedUploads_append (l1 l2 : List DevEvent) :
    confirmedUploads (l1 ++ l2) = confirmedUploads l1 ++ confirmedUploads l2 := by
  induction l1 with
  | nil => simp [confirmedUploads]
  | cons e rest ih =>
    cases e with
    | submitComplete l => simp [confirmedUploads, ih]
    | destroy l => simp [confirmedUploads, ih]

theorem numSubmits_append (l1 l2 : List DevEvent) :
    numSubmits (l1 ++ l2) = numSubmits l1 + numSubmits l2 := by
  induction l1 with
  | nil => simp [numSubmits]
  | cons e rest ih =>
    cases e with
    | submitComplete l => simp [numSubmits, ih]; omega
    | destroy l => simp [numSubmits, ih]

mutual
/-- All mesh ids owned by a subtree. -/
def treeMeshes : QNode → List ℕ
  | .mk d a b c e =>
    (match d.mesh with
      | some m => [m]
      | none => []) ++ treeMeshesP a ++ treeMeshesP b ++ treeMeshesP c
      ++ treeMeshesP e
def treeMeshesP : NodePtr → List ℕ
  | .null => []
  | .node t => treeMeshes t
end

mutual
/-- Interior nodes own no mesh (a split moves the parent mesh into the
deferred-destroy list; only leaves carry meshes). -/
def IntMeshFree : QNode → Prop
  | .mk d a b c e =>
    (a ≠ .null → d.mesh = none) ∧ IntMeshFreeP a ∧ IntMeshFreeP b
      ∧ IntMeshFreeP c ∧ IntMeshFreeP e
def IntMeshFreeP : NodePtr → Prop
  | .null => True
  | .node t => IntMeshFree t
end

theorem treeMeshes_eq (d : NodeData) (a b c e : NodePtr) :
    treeMeshes (.mk d a b c e)
      = (match d.mesh with
          | some m => [m]
          | none => []) ++ treeMeshesP a ++ treeMeshesP b ++ treeMeshesP c
          ++ treeMeshesP e := by
  rw [treeMeshes]

theorem treeMeshesP_node (t : QNode) : treeMeshesP (.node t) = treeMeshes t := by
  rw [treeMeshesP]

theorem treeMeshesP_null : treeMeshesP .null = [] := by
  rw [treeMeshesP]

theorem IntMeshFree_eq (d : NodeData) (a b c e : NodePtr) :
    IntMeshFree (.mk d a b c e) ↔
      ((a ≠ .null → d.mesh = none) ∧ IntMeshFreeP a ∧ IntMeshFreeP b
        ∧ IntMeshFreeP c ∧ IntMeshFreeP e) := by
  rw [IntMeshFree]

theorem IntMeshFreeP_node (t : QNode) : IntMeshFreeP (.node t) ↔ IntMeshFree t := by
  rw [IntMeshFreeP]

theorem intMeshFreeP_child (t : QNode) (h : IntMeshFree t) (i : Fin 4) :
    IntMeshFreeP (t.child i) := by
  cases t with
  | mk d a b c e =>
    rw [IntMeshFree_eq] at h
    match i with
    | 0 => exact h.2.1
    | 1 => exact h.2.2.1
    | 2 => exact h.2.2.2.1
    | 3 => exact h.2.2.2.2

theorem mem_treeMeshes_child (t : QNode) (i : Fin 4) (m : ℕ)
    (hm : m ∈ treeMeshesP (t.child i)) : m ∈ treeMeshes t := by
  cases t with
  | mk d a b c e =>
    rw [treeMeshes_eq]
    simp only [List.mem_append]
    match i with
    | 0 => exact Or.inl (Or.inl (Or.inl (Or.inr hm)))
    | 1 => exact Or.inl (Or.inl (Or.inr hm))
    | 2 => exact Or.inl (Or.inr hm)
    | 3 => exact Or.inr hm

theorem mesh_mem_treeMeshes (t : QNode) (m : ℕ) (hm : t.data.mesh = some m) :
    m ∈ treeMeshes t := by
  cases t with
  | mk d a b c e =>
    rw [treeMeshes_eq]
    simp only [data_mk] at hm
    rw [hm]
    simp

/-- A mesh id known safe: either its upload has been confirmed complete on
the device, or it is recorded in the current (not yet submitted) one-shot
command buffer. -/
def Known (st : UState) (m : ℕ) : Prop :=
  m ∈ confirmedUploads st.events ∨ m ∈ st.pending

def TreeKnown (st : UState) (t : QNode) : Prop := ∀ m ∈ treeMeshes t, Known st m

def DeferredKnown (st : UState) : Prop := ∀ m ∈ st.deferred, Known st m

def PendZero (st : UState) : Prop := st.batchCount = 0 → st.pending = []

/-- How the device-facing state may evolve inside one frame: knowledge is
monotone, events and the deferred list only grow, and the
"a confirmation beyond `n` already happened or uploads are still pending in
a batch that will be flushed" property is stable. -/
def Evolves (st st1 : UState) : Prop :=
  (∀ m, Known st m → Known st1 m) ∧
  (∃ l, st1.events = st.events ++ l) ∧
  (∃ l, st1.deferred = st.deferred ++ l) ∧
  (∀ n, n ≤ numSubmits st.events →
    (0 < st.batchCount ∨ n < numSubmits st.events) →
    (0 < st1.batchCount ∨ n < numSubmits st1.events))

theorem Evolves.refl (st : UState) : Evolves st st :=
  ⟨fun _ h => h, ⟨[], by simp⟩, ⟨[], by simp⟩, fun _ _ h => h⟩

theorem Evolves.numSubmits_le {st st1 : UState} (h : Evolves st st1) :
    numSubmits st.events ≤ numSubmits st1.events := by
  obtain ⟨l, hl⟩ := h.2.1
  rw [hl, numSubmits_append]
  omega

theorem Evolves.trans {st st1 st2 : UState} (h1 : Evolves st st1)
    (h2 : Evolves st1 st2) : Evolves st st2 := by
  refine ⟨fun m hm => h2.1 m (h1.1 m hm), ?_, ?_, ?_⟩
  · obtain ⟨l1, hl1⟩ := h1.2.1
    obtain ⟨l2, hl2⟩ := h2.2.1
    exact ⟨l1 ++ l2, by rw [hl2, hl1, List.append_assoc]⟩
  · obtain ⟨l1, hl1⟩ := h1.2.2.1
    obtain ⟨l2, hl2⟩ := h2.2.2.1
    exact ⟨l1 ++ l2, by rw [hl2, hl1, List.append_assoc]⟩
  · intro n hn hp
    exact h2.2.2.2 n (le_trans hn h1.numSubmits_le) (h1.2.2.2 n hn hp)

theorem Evolves.deferred_prefix_len {st st1 : UState} (h : Evolves st st1) :
    st.deferred.length ≤ st1.deferred.length := by
  obtain ⟨l, hl⟩ := h.2.2.1
  rw [hl, List.length_append]
  omega

end CubesphereBody


namespace CubesphereBody

theorem treeMeshes_mk_some (d : NodeData) (a b c e : NodePtr) (m : ℕ)
    (hm : d.mesh = some m) :
    treeMeshes (.mk d a b c e)
      = [m] ++ treeMeshesP a ++ treeMeshesP b ++ treeMeshesP c
        ++ treeMeshesP e := by
  rw [treeMeshes_eq, hm]

theorem treeMeshes_mk_none (d : NodeData) (a b c e : NodePtr)
    (hm : d.mesh = none) :
    treeMeshes (.mk d a b c e)
      = treeMeshesP a ++ treeMeshesP b ++ treeMeshesP c ++ treeMeshesP e := by
  rw [treeMeshes_eq, hm]
  exact rfl

theorem IntMeshFreeP_null : IntMeshFreeP .null := by
  rw [IntMeshFreeP]
  trivial

theorem intMeshFree_of_children_null (t : QNode)
    (h : ∀ i : Fin 4, t.child i = .null) : IntMeshFree t := by
  cases t with
  | mk d a b c e =>
    have h0 := h 0
    have h1 := h 1
    have h2 := h 2
    have h3 := h 3
    simp only [child_mk_zero, child_mk_one, child_mk_two, child_mk_three]
      at h0 h1 h2 h3
    subst h0 h1 h2 h3
    rw [IntMeshFree_eq]
    exact ⟨fun hh => absurd rfl hh, IntMeshFreeP_null, IntMeshFreeP_null,
      IntMeshFreeP_null, IntMeshFreeP_null⟩

theorem intMeshFree_mk (d : NodeData) (p0 p1 p2 p3 : NodePtr)
    (hmesh : d.mesh = none) (h0 : IntMeshFreeP p0) (h1 : IntMeshFreeP p1)
    (h2 : IntMeshFreeP p2) (h3 : IntMeshFreeP p3) :
    IntMeshFree (.mk d p0 p1 p2 p3) := by
  rw [IntMeshFree_eq]
  exact ⟨fun _ => hmesh, h0, h1, h2, h3⟩

theorem intMeshFree_withChildren (t : QNode) (ch : Fin 4 → NodePtr)
    (hmesh : t.data.mesh = none) (h : ∀ i : Fin 4, IntMeshFreeP (ch i)) :
    IntMeshFree (t.withChildren ch) := by
  cases t with
  | mk d a b c e =>
    exact intMeshFree_mk d (ch 0) (ch 1) (ch 2) (ch 3) hmesh (h 0) (h 1)
      (h 2) (h 3)

theorem intMeshFree_mesh_none (t : QNode) (h : IntMeshFree t)
    (hl : t.isLeaf = false) : t.data.mesh = none := by
  cases t with
  | mk d a b c e =>
    rw [IntMeshFree_eq] at h
    refine h.1 ?_
    intro ha
    unfold QNode.isLeaf at hl
    rw [child_mk_zero] at hl
    rw [ha] at hl
    cases hl

theorem treeKnown_mono {st st1 : UState} (h : Evolves st st1) (t : QNode)
    (ht : TreeKnown st t) : TreeKnown st1 t :=
  fun m hm => h.1 m (ht m hm)

/-- `TreeKnown` for a nullable child slot. -/
def TreeKnownP (st : UState) (p : NodePtr) : Prop :=
  ∀ m ∈ treeMeshesP p, Known st m

theorem treeKnownP_null (st : UState) : TreeKnownP st .null := by
  intro m hm
  rw [treeMeshesP_null] at hm
  exact absurd hm (List.not_mem_nil m)

theorem treeKnownP_node (st : UState) (x : QNode) (h : TreeKnown st x) :
    TreeKnownP st (.node x) := by
  intro m hm
  rw [treeMeshesP_node] at hm
  exact h m hm

theorem treeKnownP_node_elim (st : UState) (x : QNode)
    (h : TreeKnownP st (.node x)) : TreeKnown st x := by
  intro m hm
  refine h m ?_
  rw [treeMeshesP_node]
  exact hm

theorem treeKnownP_mono {st st1 : UState} (h : Evolves st st1) (p : NodePtr)
    (hp : TreeKnownP st p) : TreeKnownP st1 p :=
  fun m hm => h.1 m (hp m hm)

theorem treeKnown_mk (st : UState) (d : NodeData) (p0 p1 p2 p3 : NodePtr)
    (hmesh : ∀ m, d.mesh = some m → Known st m)
    (h0 : TreeKnownP st p0) (h1 : TreeKnownP st p1) (h2 : TreeKnownP st p2)
    (h3 : TreeKnownP st p3) : TreeKnown st (.mk d p0 p1 p2 p3) := by
  intro m hm
  cases hdm : d.mesh with
  | some mm =>
    rw [treeMeshes_mk_some d _ _ _ _ mm hdm] at hm
    simp only [List.mem_append, List.mem_singleton] at hm
    rcases hm with ((((hm | hm) | hm) | hm) | hm)
    · exact hmesh m (by rw [hdm, hm])
    · exact h0 m hm
    · exact h1 m hm
    · exact h2 m hm
    · exact h3 m hm
  | none =>
    rw [treeMeshes_mk_none d _ _ _ _ hdm] at hm
    simp only [List.mem_append] at hm
    rcases hm with (((hm | hm) | hm) | hm)
    · exact h0 m hm
    · exact h1 m hm
    · exact h2 m hm
    · exact h3 m hm

theorem treeKnown_withChildren (st : UState) (t : QNode) (ch : Fin 4 → NodePtr)
    (hmesh : ∀ m, t.data.mesh = some m → Known st m)
    (h : ∀ i : Fin 4, TreeKnownP st (ch i)) :
    TreeKnown st (t.withChildren ch) := by
  cases t with
  | mk d a b c e =>
    exact treeKnown_mk st d (ch 0) (ch 1) (ch 2) (ch 3) hmesh (h 0) (h 1)
      (h 2) (h 3)

theorem deferredKnown_evolve_of_eq {st st1 : UState} (h : Evolves st st1)
    (hd : st1.deferred = st.deferred) (hk : DeferredKnown st) :
    DeferredKnown st1 := by
  intro m hm
  rw [hd] at hm
  exact h.1 m (hk m hm)

end CubesphereBody


namespace CubesphereBody

/-- Branch characterization of `generateMeshBatched`: the state either
flushes (records an `endOneShot` submit-and-wait event with all pending
uploads) or keeps accumulating. -/
theorem generateMeshBatched_cases (radius : ℝ) (hf : ℝ → ℝ → ℝ)
    (t : QNode) (st : UState) :
    (generateMeshBatched radius hf t st).2.deferred = st.deferred ∧
    (generateMeshBatched radius hf t st).2.nextMesh = st.nextMesh + 1 ∧
    (((generateMeshBatched radius hf t st).2.events
        = st.events ++ [.submitComplete (st.pending ++ [st.nextMesh])] ∧
      (generateMeshBatched radius hf t st).2.pending = [] ∧
      (generateMeshBatched radius hf t st).2.batchCount = 0 ∧
      MESHES_PER_BATCH ≤ st.batchCount + 1)
    ∨ ((generateMeshBatched radius hf t st).2.events = st.events ∧
      (generateMeshBatched radius hf t st).2.pending
        = st.pending ++ [st.nextMesh] ∧
      (generateMeshBatched radius hf t st).2.batchCount = st.batchCount + 1 ∧
      st.batchCount + 1 < MESHES_PER_BATCH)) := by
  unfold generateMeshBatched
  dsimp only
  split
  next h => exact ⟨rfl, rfl, Or.inl ⟨rfl, rfl, rfl, h⟩⟩
  next h => exact ⟨rfl, rfl, Or.inr ⟨rfl, rfl, rfl, Nat.lt_of_not_le h⟩⟩

theorem generateMeshBatched_evolves (radius : ℝ) (hf : ℝ → ℝ → ℝ)
    (t : QNode) (st : UState) :
    Evolves st (generateMeshBatched radius hf t st).2 := by
  obtain ⟨hd, _, hc⟩ := generateMeshBatched_cases radius hf t st
  rcases hc with ⟨he, hp, hb, _⟩ | ⟨he, hp, hb, _⟩
  · refine ⟨?_, ⟨_, he⟩, ⟨[], by rw [hd, List.append_nil]⟩, ?_⟩
    · intro m hm
      unfold Known at hm ⊢
      rw [he, hp, confirmedUploads_append]
      rcases hm with hm | hm
      · exact Or.inl (List.mem_append_left _ hm)
      · refine Or.inl (List.mem_append_right _ ?_)
        simp only [confirmedUploads, List.append_nil]
        exact List.mem_append_left _ hm
    · intro n hn _
      right
      rw [he, numSubmits_append]
      simp only [numSubmits]
      omega
  · refine ⟨?_, ⟨[], by rw [he, List.append_nil]⟩,
      ⟨[], by rw [hd, List.append_nil]⟩, ?_⟩
    · intro m hm
      unfold Known at hm ⊢
      rw [he, hp]
      rcases hm with hm | hm
      · exact Or.inl hm
      · exact Or.inr (List.mem_append_left _ hm)
    · intro n _ _
      left
      rw [hb]
      omega

theorem generateMeshBatched_known_next (radius : ℝ) (hf : ℝ → ℝ → ℝ)
    (t : QNode) (st : UState) :
    Known (generateMeshBatched radius hf t st).2 st.nextMesh := by
  obtain ⟨_, _, hc⟩ := generateMeshBatched_cases radius hf t st
  unfold Known
  rcases hc with ⟨he, _, _, _⟩ | ⟨_, hp, _, _⟩
  · left
    rw [he, confirmedUploads_append]
    refine List.mem_append_right _ ?_
    simp only [confirmedUploads, List.append_nil]
    exact List.mem_append_right _ (List.mem_singleton.mpr rfl)
  · right
    rw [hp]
    exact List.mem_append_right _ (List.mem_singleton.mpr rfl)

theorem generateMeshBatched_pendZero (radius : ℝ) (hf : ℝ → ℝ → ℝ)
    (t : QNode) (st : UState) :
    PendZero (generateMeshBatched radius hf t st).2 := by
  obtain ⟨_, _, hc⟩ := generateMeshBatched_cases radius hf t st
  unfold PendZero
  rcases hc with ⟨_, hp, _, _⟩ | ⟨_, _, hb, _⟩
  · intro _
    rw [hp]
  · intro h
    rw [hb] at h
    exact absurd h (Nat.succ_ne_zero _)

theorem generateMeshBatched_phi (radius : ℝ) (hf : ℝ → ℝ → ℝ)
    (t : QNode) (st : UState) :
    0 < (generateMeshBatched radius hf t st).2.batchCount
      ∨ numSubmits st.events
        < numSubmits (generateMeshBatched radius hf t st).2.events := by
  obtain ⟨_, _, hc⟩ := generateMeshBatched_cases radius hf t st
  rcases hc with ⟨he, _, _, _⟩ | ⟨_, _, hb, _⟩
  · right
    rw [he, numSubmits_append]
    simp only [numSubmits]
    omega
  · left
    rw [hb]
    omega

theorem generateMeshBatched_fst (radius : ℝ) (hf : ℝ → ℝ → ℝ) (t : QNode)
    (st : UState) :
    ∃ d, (generateMeshBatched radius hf t st).1 = t.withData d
      ∧ d.mesh = some st.nextMesh := by
  unfold generateMeshBatched
  dsimp only
  split
  · exact ⟨_, rfl, rfl⟩
  · exact ⟨_, rfl, rfl⟩

theorem treeMeshes_withData (t : QNode) (d : NodeData) (m : ℕ)
    (hm : m ∈ treeMeshes (t.withData d)) :
    d.mesh = some m ∨ m ∈ treeMeshes t := by
  cases t with
  | mk td a b c e =>
    rw [show QNode.withData (QNode.mk td a b c e) d = QNode.mk d a b c e
      from rfl] at hm
    cases hdm : d.mesh with
    | some mm =>
      rw [treeMeshes_mk_some d a b c e mm hdm] at hm
      simp only [List.mem_append, List.mem_singleton] at hm
      rcases hm with ((((hm | hm) | hm) | hm) | hm)
      · exact Or.inl (by rw [hm])
      · exact Or.inr (mem_treeMeshes_child _ 0 m (by rw [child_mk_zero]; exact hm))
      · exact Or.inr (mem_treeMeshes_child _ 1 m (by rw [child_mk_one]; exact hm))
      · exact Or.inr (mem_treeMeshes_child _ 2 m (by rw [child_mk_two]; exact hm))
      · exact Or.inr (mem_treeMeshes_child _ 3 m (by rw [child_mk_three]; exact hm))
    | none =>
      rw [treeMeshes_mk_none d a b c e hdm] at hm
      simp only [List.mem_append] at hm
      rcases hm with (((hm | hm) | hm) | hm)
      · exact Or.inr (mem_treeMeshes_child _ 0 m (by rw [child_mk_zero]; exact hm))
      · exact Or.inr (mem_treeMeshes_child _ 1 m (by rw [child_mk_one]; exact hm))
      · exact Or.inr (mem_treeMeshes_child _ 2 m (by rw [child_mk_two]; exact hm))
      · exact Or.inr (mem_treeMeshes_child _ 3 m (by rw [child_mk_three]; exact hm))

theorem generateMeshBatched_treeKnown (radius : ℝ) (hf : ℝ → ℝ → ℝ)
    (t : QNode) (st : UState) (h : TreeKnown st t) :
    TreeKnown (generateMeshBatched radius hf t st).2
      (generateMeshBatched radius hf t st).1 := by
  obtain ⟨d, hfst, hdm⟩ := generateMeshBatched_fst radius hf t st
  intro m hm
  rw [hfst] at hm
  rcases treeMeshes_withData t d m hm with hm | hm
  · rw [hdm] at hm
    injection hm with hm
    rw [← hm]
    exact generateMeshBatched_known_next radius hf t st
  · exact (generateMeshBatched_evolves radius hf t st).1 m (h m hm)

theorem generateMeshBatched_intMeshFree (radius : ℝ) (hf : ℝ → ℝ → ℝ)
    (t : QNode) (st : UState) (h : ∀ i : Fin 4, t.child i = .null) :
    IntMeshFree (generateMeshBatched radius hf t st).1 :=
  intMeshFree_of_children_null _ fun i => by
    rw [generateMeshBatched_child]
    exact h i

end CubesphereBody


namespace CubesphereBody

theorem initNode_child_null (radius : ℝ) (face : ℤ) (u0 u1 v0 v1 : ℝ)
    (depth : ℕ) :
    ∀ i : Fin 4, (initNode radius face u0 u1 v0 v1 depth).child i = .null := by
  intro i
  fin_cases i <;> rfl

theorem initNode_treeMeshes (radius : ℝ) (face : ℤ) (u0 u1 v0 v1 : ℝ)
    (depth : ℕ) : treeMeshes (initNode radius face u0 u1 v0 v1 depth) = [] := by
  unfold initNode
  dsimp only
  rw [treeMeshes_mk_none _ _ _ _ _ rfl]
  simp [treeMeshesP_null]

theorem pushParentMesh_evolves (t : QNode) (st : UState) :
    Evolves st (pushParentMesh t st) := by
  unfold pushParentMesh
  cases t.data.mesh with
  | none => exact Evolves.refl st
  | some m =>
    exact ⟨fun x hx => hx, ⟨[], by simp⟩, ⟨[m], rfl⟩, fun n _ hp => hp⟩

theorem pushParentMesh_misc (t : QNode) (st : UState) :
    (pushParentMesh t st).batchCount = st.batchCount
      ∧ (pushParentMesh t st).pending = st.pending
      ∧ (pushParentMesh t st).events = st.events := by
  unfold pushParentMesh
  cases t.data.mesh <;> exact ⟨rfl, rfl, rfl⟩

theorem pushParentMesh_deferredKnown (t : QNode) (st : UState)
    (hd : DeferredKnown st) (ht : TreeKnown st t) :
    DeferredKnown (pushParentMesh t st) := by
  unfold pushParentMesh
  cases hm : t.data.mesh with
  | none => exact hd
  | some m =>
    intro x hx
    dsimp only at hx
    rcases List.mem_append.mp hx with hx | hx
    · exact hd x hx
    · rw [List.mem_singleton] at hx
      subst hx
      exact ht x (mesh_mem_treeMeshes t x hm)

theorem pushParentMesh_pendZero (t : QNode) (st : UState) (h : PendZero st) :
    PendZero (pushParentMesh t st) := by
  unfold PendZero at h ⊢
  rw [(pushParentMesh_misc t st).1, (pushParentMesh_misc t st).2.1]
  exact h

/-- The accumulation step of `mergeChildMeshes`, named. -/
def mergeStep (acc : List ℕ) (p : NodePtr) : List ℕ :=
  match p with
  | .node c =>
    match c.data.mesh with
    | some m => acc ++ [m]
    | none => acc
  | .null => acc

theorem mergeChildMeshes_foldl (t : QNode) :
    mergeChildMeshes t
      = [t.child 0, t.child 1, t.child 2, t.child 3].foldl mergeStep [] := rfl

theorem mergeStep_spec (acc : List ℕ) (p : NodePtr) :
    ∀ m ∈ mergeStep acc p, m ∈ acc ∨ m ∈ treeMeshesP p := by
  intro m hm
  cases p with
  | null => exact Or.inl hm
  | node c =>
    cases hmm : c.data.mesh with
    | none =>
      simp only [mergeStep, hmm] at hm
      exact Or.inl hm
    | some mm =>
      simp only [mergeStep, hmm] at hm
      rcases List.mem_append.mp hm with h | h
      · exact Or.inl h
      · rw [List.mem_singleton] at h
        subst h
        refine Or.inr ?_
        rw [treeMeshesP_node]
        exact mesh_mem_treeMeshes c m hmm

theorem mergeChildMeshes_sub (t : QNode) :
    ∀ m ∈ mergeChildMeshes t, m ∈ treeMeshes t := by
  intro m hm
  rw [mergeChildMeshes_foldl] at hm
  simp only [List.foldl_cons, List.foldl_nil] at hm
  rcases mergeStep_spec _ (t.child 3) m hm with h | h
  · rcases mergeStep_spec _ (t.child 2) m h with h | h
    · rcases mergeStep_spec _ (t.child 1) m h with h | h
      · rcases mergeStep_spec _ (t.child 0) m h with h | h
        · exact absurd h (List.not_mem_nil m)
        · exact mem_treeMeshes_child t 0 m h
      · exact mem_treeMeshes_child t 1 m h
    · exact mem_treeMeshes_child t 2 m h
  · exact mem_treeMeshes_child t 3 m h

end CubesphereBody


namespace CubesphereBody

/-- The per-visit contract of the C3 induction: one visitor call evolves the
device state monotonically, keeps every tree mesh known (confirmed or
recorded in the open one-shot buffer), keeps the deferred list known, keeps
`pending` empty whenever `batchCount` is zero, keeps interior nodes
mesh-free, and any growth of the deferred list is matched by an open batch
or a completed submit. -/
def C3Step (f : QNode → ℕ → UState → QNode × ℕ × UState) : Prop :=
  ∀ t b s, TreeKnown s t → DeferredKnown s → PendZero s → IntMeshFree t →
    Evolves s (f t b s).2.2 ∧
    TreeKnown (f t b s).2.2 (f t b s).1 ∧
    DeferredKnown (f t b s).2.2 ∧
    PendZero (f t b s).2.2 ∧
    IntMeshFree (f t b s).1 ∧
    (s.deferred.length < (f t b s).2.2.deferred.length →
      0 < (f t b s).2.2.batchCount
        ∨ numSubmits s.events < numSubmits (f t b s).2.2.events)

/-- C3 analogue of the fold accounting lemma: the child-recursion fold of
the split branch preserves the safety state across all slots. -/
theorem foldNodes_evolve {ι : Type} [DecidableEq ι]
    (f : QNode → ℕ → UState → QNode × ℕ × UState) (hstep : C3Step f) :
    ∀ (l : List ι) (acc : (ι → QNode) × ℕ × UState),
      (∀ i, TreeKnown acc.2.2 (acc.1 i) ∧ IntMeshFree (acc.1 i)) →
      DeferredKnown acc.2.2 → PendZero acc.2.2 →
      Evolves acc.2.2 (l.foldl (stepNodes f) acc).2.2 ∧
      (∀ i, TreeKnown (l.foldl (stepNodes f) acc).2.2
          ((l.foldl (stepNodes f) acc).1 i)
        ∧ IntMeshFree ((l.foldl (stepNodes f) acc).1 i)) ∧
      DeferredKnown (l.foldl (stepNodes f) acc).2.2 ∧
      PendZero (l.foldl (stepNodes f) acc).2.2 ∧
      (acc.2.2.deferred.length
          < (l.foldl (stepNodes f) acc).2.2.deferred.length →
        0 < (l.foldl (stepNodes f) acc).2.2.batchCount
          ∨ numSubmits acc.2.2.events
            < numSubmits (l.foldl (stepNodes f) acc).2.2.events)
  | [], acc, hT, hD, hP =>
    ⟨Evolves.refl _, hT, hD, hP, fun h => absurd h (lt_irrefl _)⟩
  | i :: l, acc, hT, hD, hP => by
    have hacc1 : ((i :: l).foldl (stepNodes f) acc)
        = l.foldl (stepNodes f) (stepNodes f acc i) := rfl
    obtain ⟨hTi, hFi⟩ := hT i
    obtain ⟨hEv, hTK, hDK, hPZ, hIM, hPhi⟩ :=
      hstep (acc.1 i) acc.2.1 acc.2.2 hTi hD hP hFi
    have hstep1 : (stepNodes f acc i).1
        = fun j => if j = i then (f (acc.1 i) acc.2.1 acc.2.2).1
            else acc.1 j := rfl
    have hstep2 : (stepNodes f acc i).2.2
        = (f (acc.1 i) acc.2.1 acc.2.2).2.2 := rfl
    have hT2 : ∀ j, TreeKnown (stepNodes f acc i).2.2 ((stepNodes f acc i).1 j)
        ∧ IntMeshFree ((stepNodes f acc i).1 j) := by
      intro j
      rw [hstep1, hstep2]
      by_cases hji : j = i
      · simp only [if_pos hji]
        exact ⟨hTK, hIM⟩
      · simp only [if_neg hji]
        exact ⟨treeKnown_mono hEv _ (hT j).1, (hT j).2⟩
    obtain ⟨ihEv, ihTK, ihDK, ihPZ, ihPhi⟩ :=
      foldNodes_evolve f hstep l (stepNodes f acc i) hT2
        (by rw [hstep2]; exact hDK) (by rw [hstep2]; exact hPZ)
    rw [hacc1]
    have hEv0 : Evolves acc.2.2 (stepNodes f acc i).2.2 := by
      rw [hstep2]
      exact hEv
    refine ⟨hEv0.trans ihEv, ihTK, ihDK, ihPZ, ?_⟩
    intro hlen
    by_cases hg : acc.2.2.deferred.length
        < (stepNodes f acc i).2.2.deferred.length
    · have hphi1 : 0 < (stepNodes f acc i).2.2.batchCount
          ∨ numSubmits acc.2.2.events
            < numSubmits (stepNodes f acc i).2.2.events := by
        rw [hstep2] at hg ⊢
        exact hPhi hg
      exact ihEv.2.2.2 _ hEv0.numSubmits_le hphi1
    · have h1 : acc.2.2.deferred.length
          ≤ (stepNodes f acc i).2.2.deferred.length := hEv0.deferred_prefix_len
      have h2 : (stepNodes f acc i).2.2.deferred.length
          < (l.foldl (stepNodes f) (stepNodes f acc i)).2.2.deferred.length := by
        omega
      rcases ihPhi h2 with h | h
      · exact Or.inl h
      · right
        have h3 := hEv0.numSubmits_le
        omega

/-- C3 analogue of the nullable-slot fold lemma for the non-merging interior
branch. -/
theorem foldPtrs_evolve (f : QNode → ℕ → UState → QNode × ℕ × UState)
    (hstep : C3Step f) :
    ∀ (l : List (Fin 4)) (acc : (Fin 4 → NodePtr) × ℕ × UState),
      (∀ i, TreeKnownP acc.2.2 (acc.1 i) ∧ IntMeshFreeP (acc.1 i)) →
      DeferredKnown acc.2.2 → PendZero acc.2.2 →
      Evolves acc.2.2 (l.foldl (stepPtrs f) acc).2.2 ∧
      (∀ i, TreeKnownP (l.foldl (stepPtrs f) acc).2.2
          ((l.foldl (stepPtrs f) acc).1 i)
        ∧ IntMeshFreeP ((l.foldl (stepPtrs f) acc).1 i)) ∧
      DeferredKnown (l.foldl (stepPtrs f) acc).2.2 ∧
      PendZero (l.foldl (stepPtrs f) acc).2.2 ∧
      (acc.2.2.deferred.length
          < (l.foldl (stepPtrs f) acc).2.2.deferred.length →
        0 < (l.foldl (stepPtrs f) acc).2.2.batchCount
          ∨ numSubmits acc.2.2.events
            < numSubmits (l.foldl (stepPtrs f) acc).2.2.events)
  | [], acc, hT, hD, hP =>
    ⟨Evolves.refl _, hT, hD, hP, fun h => absurd h (lt_irrefl _)⟩
  | i :: l, acc, hT, hD, hP => by
    have hacc1 : ((i :: l).foldl (stepPtrs f) acc)
        = l.foldl (stepPtrs f) (stepPtrs f acc i) := rfl
    rw [hacc1]
    cases hslot : acc.1 i with
    | null =>
      have hstepacc : stepPtrs f acc i = acc := by
        unfold stepPtrs
        rw [hslot]
      rw [hstepacc]
      exact foldPtrs_evolve f hstep l acc hT hD hP
    | node c =>
      have hTc : TreeKnown acc.2.2 c := by
        refine treeKnownP_node_elim acc.2.2 c ?_
        have := (hT i).1
        rw [hslot] at this
        exact this
      have hFc : IntMeshFree c := by
        have := (hT i).2
        rw [hslot, IntMeshFreeP_node] at this
        exact this
      obtain ⟨hEv, hTK, hDK, hPZ, hIM, hPhi⟩ :=
        hstep c acc.2.1 acc.2.2 hTc hD hP hFc
      have hstepacc : stepPtrs f acc i =
          ((fun j => if j = i then .node (f c acc.2.1 acc.2.2).1 else acc.1 j),
            (f c acc.2.1 acc.2.2).2.1, (f c acc.2.1 acc.2.2).2.2) := by
        unfold stepPtrs
        rw [hslot]
      have hstep1 : (stepPtrs f acc i).1
          = fun j => if j = i then .node (f c acc.2.1 acc.2.2).1
              else acc.1 j := by
        rw [hstepacc]
      have hstep2 : (stepPtrs f acc i).2.2 = (f c acc.2.1 acc.2.2).2.2 := by
        rw [hstepacc]
      have hT2 : ∀ j, TreeKnownP (stepPtrs f acc i).2.2 ((stepPtrs f acc i).1 j)
          ∧ IntMeshFreeP ((stepPtrs f acc i).1 j) := by
        intro j
        rw [hstep1, hstep2]
        by_cases hji : j = i
        · simp only [if_pos hji]
          exact ⟨treeKnownP_node _ _ hTK, (IntMeshFreeP_node _).mpr hIM⟩
        · simp only [if_neg hji]
          exact ⟨treeKnownP_mono hEv _ (hT j).1, (hT j).2⟩
      obtain ⟨ihEv, ihTK, ihDK, ihPZ, ihPhi⟩ :=
        foldPtrs_evolve f hstep l (stepPtrs f acc i) hT2
          (by rw [hstep2]; exact hDK) (by rw [hstep2]; exact hPZ)
      have hEv0 : Evolves acc.2.2 (stepPtrs f acc i).2.2 := by
        rw [hstep2]
        exact hEv
      refine ⟨hEv0.trans ihEv, ihTK, ihDK, ihPZ, ?_⟩
      intro hlen
      by_cases hg : acc.2.2.deferred.length
          < (stepPtrs f acc i).2.2.deferred.length
      · have hphi1 : 0 < (stepPtrs f acc i).2.2.batchCount
            ∨ numSubmits acc.2.2.events
              < numSubmits (stepPtrs f acc i).2.2.events := by
          rw [hstep2] at hg ⊢
          exact hPhi hg
        exact ihEv.2.2.2 _ hEv0.numSubmits_le hphi1
      · have h1 : acc.2.2.deferred.length
            ≤ (stepPtrs f acc i).2.2.deferred.length := hEv0.deferred_prefix_len
        have h2 : (stepPtrs f acc i).2.2.deferred.length
            < (l.foldl (stepPtrs f) (stepPtrs f acc i)).2.2.deferred.length := by
          omega
        rcases ihPhi h2 with h | h
        · exact Or.inl h
        · right
          have h3 := hEv0.numSubmits_le
          omega

end CubesphereBody


namespace CubesphereBody

theorem genFresh_C3 (radius : ℝ) (hf : ℝ → ℝ → ℝ) (k : QNode) (st : UState)
    (hch : ∀ i : Fin 4, k.child i = .null) (htm : treeMeshes k = []) :
    Evolves st (generateMeshBatched radius hf k st).2 ∧
    (generateMeshBatched radius hf k st).2.deferred = st.deferred ∧
    PendZero (generateMeshBatched radius hf k st).2 ∧
    (0 < (generateMeshBatched radius hf k st).2.batchCount
      ∨ numSubmits st.events
        < numSubmits (generateMeshBatched radius hf k st).2.events) ∧
    TreeKnown (generateMeshBatched radius hf k st).2
      (generateMeshBatched radius hf k st).1 ∧
    IntMeshFree (generateMeshBatched radius hf k st).1 := by
  refine ⟨generateMeshBatched_evolves radius hf k st,
    (generateMeshBatched_cases radius hf k st).1,
    generateMeshBatched_pendZero radius hf k st,
    generateMeshBatched_phi radius hf k st,
    generateMeshBatched_treeKnown radius hf k st ?_,
    generateMeshBatched_intMeshFree radius hf k st hch⟩
  intro m hm
  rw [htm] at hm
  exact absurd hm (List.not_mem_nil m)

theorem splitKids_C3 (radius : ℝ) (hf : ℝ → ℝ → ℝ) (t : QNode) (st : UState) :
    Evolves st (splitKids radius hf t st).2 ∧
    (splitKids radius hf t st).2.deferred = st.deferred ∧
    PendZero (splitKids radius hf t st).2 ∧
    (0 < (splitKids radius hf t st).2.batchCount
      ∨ numSubmits st.events < numSubmits (splitKids radius hf t st).2.events) ∧
    ∀ i : Fin 4,
      TreeKnown (splitKids radius hf t st).2 ((splitKids radius hf t st).1 i) ∧
      IntMeshFree ((splitKids radius hf t st).1 i) := by
  unfold splitKids
  dsimp only
  set k0 := initNode radius t.data.faceIndex t.data.u0
    ((t.data.u0 + t.data.u1) * 0.5) t.data.v0
    ((t.data.v0 + t.data.v1) * 0.5) (t.data.depth + 1) with hk0
  set k1 := initNode radius t.data.faceIndex ((t.data.u0 + t.data.u1) * 0.5)
    t.data.u1 t.data.v0 ((t.data.v0 + t.data.v1) * 0.5) (t.data.depth + 1)
    with hk1
  set k2 := initNode radius t.data.faceIndex t.data.u0
    ((t.data.u0 + t.data.u1) * 0.5) ((t.data.v0 + t.data.v1) * 0.5)
    t.data.v1 (t.data.depth + 1) with hk2
  set k3 := initNode radius t.data.faceIndex ((t.data.u0 + t.data.u1) * 0.5)
    t.data.u1 ((t.data.v0 + t.data.v1) * 0.5) t.data.v1 (t.data.depth + 1)
    with hk3
  obtain ⟨e0, d0, p0, f0, t0, i0⟩ := genFresh_C3 radius hf k0 st
    (by rw [hk0]; exact initNode_child_null _ _ _ _ _ _ _)
    (by rw [hk0]; exact initNode_treeMeshes _ _ _ _ _ _ _)
  set g0 := generateMeshBatched radius hf k0 st with hg0
  obtain ⟨e1, d1, p1, f1, t1, i1⟩ := genFresh_C3 radius hf k1 g0.2
    (by rw [hk1]; exact initNode_child_null _ _ _ _ _ _ _)
    (by rw [hk1]; exact initNode_treeMeshes _ _ _ _ _ _ _)
  set g1 := generateMeshBatched radius hf k1 g0.2 with hg1
  obtain ⟨e2, d2, p2, f2, t2, i2⟩ := genFresh_C3 radius hf k2 g1.2
    (by rw [hk2]; exact initNode_child_null _ _ _ _ _ _ _)
    (by rw [hk2]; exact initNode_treeMeshes _ _ _ _ _ _ _)
  set g2 := generateMeshBatched radius hf k2 g1.2 with hg2
  obtain ⟨e3, d3, p3, f3, t3, i3⟩ := genFresh_C3 radius hf k3 g2.2
    (by rw [hk3]; exact initNode_child_null _ _ _ _ _ _ _)
    (by rw [hk3]; exact initNode_treeMeshes _ _ _ _ _ _ _)
  set g3 := generateMeshBatched radius hf k3 g2.2 with hg3
  refine ⟨e0.trans (e1.trans (e2.trans e3)), ?_, p3, ?_, ?_⟩
  · rw [d3, d2, d1, d0]
  · rcases f3 with h | h
    · exact Or.inl h
    · right
      have h2 := (e0.trans (e1.trans e2)).numSubmits_le
      omega
  · intro i
    match i with
    | 0 => exact ⟨treeKnown_mono (e1.trans (e2.trans e3)) g0.1 t0, i0⟩
    | 1 => exact ⟨treeKnown_mono (e2.trans e3) g1.1 t1, i1⟩
    | 2 => exact ⟨treeKnown_mono e3 g2.1 t2, i2⟩
    | 3 => exact ⟨t3, i3⟩

theorem splitNode_C3 (radius : ℝ) (hf : ℝ → ℝ → ℝ) (cam : Vec3)
    (f : QNode → ℕ → UState → QNode × ℕ × UState) (hstep : C3Step f)
    (t : QNode) (budget : ℕ) (st : UState)
    (hTK : TreeKnown st t) (hDK : DeferredKnown st) (hPZ : PendZero st) :
    Evolves st (splitNode radius hf cam f t budget st).2.2 ∧
    TreeKnown (splitNode radius hf cam f t budget st).2.2
      (splitNode radius hf cam f t budget st).1 ∧
    DeferredKnown (splitNode radius hf cam f t budget st).2.2 ∧
    PendZero (splitNode radius hf cam f t budget st).2.2 ∧
    IntMeshFree (splitNode radius hf cam f t budget st).1 ∧
    (0 < (splitNode radius hf cam f t budget st).2.2.batchCount
      ∨ numSubmits st.events
        < numSubmits (splitNode radius hf cam f t budget st).2.2.events) := by
  unfold splitNode
  dsimp only
  set ks := splitKids radius hf t st with hks
  obtain ⟨eks, dks, pks, fks, tks⟩ := splitKids_C3 radius hf t st
  rw [← hks] at eks dks pks fks tks
  set st1 := pushParentMesh t ks.2 with hst1
  set order := splitOrder cam ks.1 with horder
  have ep : Evolves ks.2 st1 := pushParentMesh_evolves t ks.2
  have hDK1 : DeferredKnown st1 :=
    pushParentMesh_deferredKnown t ks.2
      (deferredKnown_evolve_of_eq eks dks hDK) (treeKnown_mono eks t hTK)
  have hPZ1 : PendZero st1 := pushParentMesh_pendZero t ks.2 pks
  have hT1 : ∀ i, TreeKnown st1 (ks.1 i) ∧ IntMeshFree (ks.1 i) :=
    fun i => ⟨treeKnown_mono ep _ (tks i).1, (tks i).2⟩
  obtain ⟨ihEv, ihT, ihDK, ihPZ, _⟩ :=
    foldNodes_evolve f hstep order (ks.1, budget - 4, st1) hT1 hDK1 hPZ1
  set fin := order.foldl (stepNodes f) (ks.1, budget - 4, st1) with hfin
  have hphi1 : 0 < st1.batchCount
      ∨ numSubmits st.events < numSubmits st1.events :=
    ep.2.2.2 _ eks.numSubmits_le fks
  have hphi2 := ihEv.2.2.2 _ (le_trans eks.numSubmits_le ep.numSubmits_le) hphi1
  refine ⟨eks.trans (ep.trans ihEv), ?_, ihDK, ihPZ, ?_, hphi2⟩
  · refine treeKnown_mk fin.2.2 _ _ _ _ _ ?_ (treeKnownP_node _ _ (ihT 0).1)
      (treeKnownP_node _ _ (ihT 1).1) (treeKnownP_node _ _ (ihT 2).1)
      (treeKnownP_node _ _ (ihT 3).1)
    intro m hm
    exact absurd hm (by exact Option.noConfusion)
  · exact intMeshFree_mk _ _ _ _ _ rfl
      ((IntMeshFreeP_node _).mpr (ihT 0).2) ((IntMeshFreeP_node _).mpr (ihT 1).2)
      ((IntMeshFreeP_node _).mpr (ihT 2).2) ((IntMeshFreeP_node _).mpr (ihT 3).2)

theorem mergeNode_C3 (radius : ℝ) (hf : ℝ → ℝ → ℝ) (t : QNode) (budget : ℕ)
    (st : UState) (hTK : TreeKnown st t) (hDK : DeferredKnown st)
    (hPZ : PendZero st) (hIM : IntMeshFree t) (hleaf : t.isLeaf = false) :
    Evolves st (mergeNode radius hf t budget st).2.2 ∧
    TreeKnown (mergeNode radius hf t budget st).2.2
      (mergeNode radius hf t budget st).1 ∧
    DeferredKnown (mergeNode radius hf t budget st).2.2 ∧
    PendZero (mergeNode radius hf t budget st).2.2 ∧
    IntMeshFree (mergeNode radius hf t budget st).1 ∧
    (0 < (mergeNode radius hf t budget st).2.2.batchCount
      ∨ numSubmits st.events
        < numSubmits (mergeNode radius hf t budget st).2.2.events) := by
  have hmesh : t.data.mesh = none := intMeshFree_mesh_none t hIM hleaf
  have hnm : ¬ (t.hasMesh = true) := by
    intro hc
    unfold QNode.hasMesh at hc
    rw [hmesh] at hc
    cases hc
  unfold mergeNode
  dsimp only
  rw [if_neg hnm]
  have eg : Evolves st (generateMeshBatched radius hf t st).2 :=
    generateMeshBatched_evolves radius hf t st
  have tkg : TreeKnown (generateMeshBatched radius hf t st).2
      (generateMeshBatched radius hf t st).1 :=
    generateMeshBatched_treeKnown radius hf t st hTK
  have e2 : Evolves (generateMeshBatched radius hf t st).2
      { (generateMeshBatched radius hf t st).2 with
        deferred := (generateMeshBatched radius hf t st).2.deferred
          ++ mergeChildMeshes (generateMeshBatched radius hf t st).1,
        activeNodes := (generateMeshBatched radius hf t st).2.activeNodes + 1 } :=
    ⟨fun m hm => hm, ⟨[], by simp⟩,
      ⟨mergeChildMeshes (generateMeshBatched radius hf t st).1, rfl⟩,
      fun n _ hp => hp⟩
  have hm1 : ∀ m, (generateMeshBatched radius hf t st).1.data.mesh = some m →
      Known (generateMeshBatched radius hf t st).2 m := by
    intro m hm
    obtain ⟨d, hfst, hdm⟩ := generateMeshBatched_fst radius hf t st
    rw [hfst, data_withData, hdm] at hm
    injection hm with hm
    rw [← hm]
    exact generateMeshBatched_known_next radius hf t st
  refine ⟨eg.trans e2, ?_, ?_, ?_, ?_, ?_⟩
  · refine treeKnown_withChildren _ (generateMeshBatched radius hf t st).1 _
      (fun m hm => e2.1 m (hm1 m hm)) (fun i => treeKnownP_null _)
  · intro m hm
    rcases List.mem_append.mp hm with hm | hm
    · exact e2.1 m
        (deferredKnown_evolve_of_eq eg
          (generateMeshBatched_cases radius hf t st).1 hDK m hm)
    · exact e2.1 m (tkg m (mergeChildMeshes_sub _ m hm))
  · exact generateMeshBatched_pendZero radius hf t st
  · exact intMeshFree_of_children_null _ (fun i => by rw [child_withChildren])
  · exact generateMeshBatched_phi radius hf t st

theorem recurseNode_C3 (cam : Vec3)
    (f : QNode → ℕ → UState → QNode × ℕ × UState) (hstep : C3Step f)
    (t : QNode) (budget : ℕ) (st : UState)
    (hTK : TreeKnown st t) (hDK : DeferredKnown st) (hPZ : PendZero st)
    (hIM : IntMeshFree t) (hleaf : t.isLeaf = false) :
    Evolves st (recurseNode cam f t budget st).2.2 ∧
    TreeKnown (recurseNode cam f t budget st).2.2
      (recurseNode cam f t budget st).1 ∧
    DeferredKnown (recurseNode cam f t budget st).2.2 ∧
    PendZero (recurseNode cam f t budget st).2.2 ∧
    IntMeshFree (recurseNode cam f t budget st).1 ∧
    (st.deferred.length < (recurseNode cam f t budget st).2.2.deferred.length →
      0 < (recurseNode cam f t budget st).2.2.batchCount
        ∨ numSubmits st.events
          < numSubmits (recurseNode cam f t budget st).2.2.events) := by
  unfold recurseNode
  dsimp only
  set order := sortLT (childCmp cam t.child) [0, 1, 2, 3] with horder
  have hT0 : ∀ i, TreeKnownP st (t.child i) ∧ IntMeshFreeP (t.child i) :=
    fun i => ⟨fun m hm => hTK m (mem_treeMeshes_child t i m hm),
      intMeshFreeP_child t hIM i⟩
  obtain ⟨ihEv, ihT, ihDK, ihPZ, ihPhi⟩ :=
    foldPtrs_evolve f hstep order (t.child, budget, st) hT0 hDK hPZ
  set fin := order.foldl (stepPtrs f) (t.child, budget, st) with hfin
  have hmesh : t.data.mesh = none := intMeshFree_mesh_none t hIM hleaf
  refine ⟨ihEv, ?_, ihDK, ihPZ, ?_, ihPhi⟩
  · refine treeKnown_withChildren fin.2.2 t fin.1 ?_ (fun i => (ihT i).1)
    intro m hm
    rw [hmesh] at hm
    cases hm
  · exact intMeshFree_withChildren t fin.1 hmesh (fun i => (ihT i).2)

/-- Master C3 induction over `updateNode`: every branch of the traversal
preserves the device-safety state. -/
theorem updateNode_C3 (radius : ℝ) (hf : ℝ → ℝ → ℝ) (cam : Vec3)
    (fovY screenHeight : ℝ) (planes : Fin 6 → Plane) :
    ∀ fuel : ℕ,
      C3Step (fun a b s =>
        updateNode radius hf cam fovY screenHeight planes fuel a b s)
  | 0 => by
    intro t b s hTK hDK hPZ hIM
    dsimp only
    rw [updateNode]
    exact ⟨Evolves.refl s, hTK, hDK, hPZ, hIM,
      fun h => absurd h (lt_irrefl _)⟩
  | fuel + 1 => by
    intro t b s hTK hDK hPZ hIM
    have hstep := updateNode_C3 radius hf cam fovY screenHeight planes fuel
    dsimp only
    rw [updateNode]
    by_cases hL : t.isLeaf = true
    · rw [if_pos hL]
      dsimp only
      split
      next hG =>
        obtain ⟨e, tk, dk, pz, im, phi⟩ :=
          splitNode_C3 radius hf cam _ hstep t b s hTK hDK hPZ
        exact ⟨e, tk, dk, pz, im, fun _ => phi⟩
      next hG =>
        dsimp only
        exact ⟨⟨fun m hm => hm, ⟨[], by simp⟩, ⟨[], by simp⟩,
          fun n _ hp => hp⟩, hTK, hDK, hPZ, hIM,
          fun h => absurd h (lt_irrefl _)⟩
    · rw [if_neg hL]
      dsimp only
      split
      next hM =>
        obtain ⟨e, tk, dk, pz, im, phi⟩ := mergeNode_C3 radius hf t b s hTK hDK
          hPZ hIM (Bool.not_eq_true _ ▸ hL : t.isLeaf = false)
        exact ⟨e, tk, dk, pz, im, fun _ => phi⟩
      next hM =>
        exact recurseNode_C3 cam _ hstep t b s hTK hDK hPZ hIM
          (Bool.not_eq_true _ ▸ hL : t.isLeaf = false)

end CubesphereBody


namespace CubesphereBody

/-- The frame tail: `endOneShot` (submit + `vkQueueWaitIdle`) runs before
`deferredDestroy_.clear()` whenever a batch is open, and everything known
(confirmed or pending) is confirmed before the destruction event. -/
theorem finishFrame_C3 (stp : UState) (n0 : ℕ) (hPZ : PendZero stp)
    (hphi : stp.deferred ≠ [] →
      0 < stp.batchCount ∨ n0 < numSubmits stp.events) :
    ∃ pre, (finishFrame stp).events = pre ++ [.destroy stp.deferred] ∧
      (∀ m, Known stp m → m ∈ confirmedUploads pre) ∧
      (∀ m, Known stp m → m ∈ confirmedUploads (finishFrame stp).events) ∧
      (stp.deferred ≠ [] → n0 ≤ numSubmits stp.events → n0 < numSubmits pre) ∧
      (finishFrame stp).deferred = [] := by
  unfold finishFrame
  dsimp only
  by_cases hb : stp.batchCount > 0
  · rw [if_pos hb]
    have hpre : ∀ m, Known stp m →
        m ∈ confirmedUploads (stp.events ++ [.submitComplete stp.pending]) := by
      intro m hm
      rw [confirmedUploads_append]
      rcases hm with hm | hm
      · exact List.mem_append_left _ hm
      · refine List.mem_append_right _ ?_
        simp only [confirmedUploads, List.append_nil]
        exact hm
    refine ⟨stp.events ++ [.submitComplete stp.pending], rfl, hpre, ?_, ?_, rfl⟩
    · intro m hm
      rw [confirmedUploads_append]
      refine List.mem_append_left _ ?_
      exact hpre m hm
    · intro _ hle
      rw [numSubmits_append]
      simp only [numSubmits]
      omega
  · rw [if_neg hb]
    have hp0 : stp.pending = [] := hPZ (Nat.eq_zero_of_not_pos hb)
    have hpre : ∀ m, Known stp m → m ∈ confirmedUploads stp.events := by
      intro m hm
      rcases hm with hm | hm
      · exact hm
      · rw [hp0] at hm
        exact absurd hm (List.not_mem_nil m)
    refine ⟨stp.events, rfl, hpre, ?_, ?_, rfl⟩
    · intro m hm
      rw [confirmedUploads_append]
      exact List.mem_append_left _ (hpre m hm)
    · intro hne _
      rcases hphi hne with h | h
      · exact absurd h hb
      · exact h

/-- One `update` call from a frame-boundary-safe state: the call ends with
the destruction event, every destroyed mesh was confirmed complete before
it, a destruction in this frame is preceded by a completed submit in this
frame, and the safe frame-boundary state is re-established. -/
theorem update_C3 (radius : ℝ) (hf : ℝ → ℝ → ℝ) (roots : Fin 6 → QNode)
    (st0 : UState) (cam : Vec3) (fovY screenHeight : ℝ) (vp : Mat4)
    (hT : ∀ i : Fin 6, ∀ m ∈ treeMeshes (roots i),
      m ∈ confirmedUploads st0.events)
    (hIM : ∀ i : Fin 6, IntMeshFree (roots i))
    (hd : st0.deferred = []) :
    (∃ pre D,
      (update radius hf roots st0 cam fovY screenHeight vp).2.events
        = pre ++ [.destroy D] ∧
      (∀ m ∈ D, m ∈ confirmedUploads pre) ∧
      (D ≠ [] → numSubmits st0.events < numSubmits pre)) ∧
    (∀ i : Fin 6, ∀ m ∈ treeMeshes
        ((update radius hf roots st0 cam fovY screenHeight vp).1 i),
      m ∈ confirmedUploads
        (update radius hf roots st0 cam fovY screenHeight vp).2.events) ∧
    (∀ i : Fin 6, IntMeshFree
      ((update radius hf roots st0 cam fovY screenHeight vp).1 i)) ∧
    (update radius hf roots st0 cam fovY screenHeight vp).2.deferred = [] := by
  unfold update
  dsimp only
  set planes := extractFrustumPlanes vp with hplanes
  set order := sortLT
    (fun a b : Fin 6 => (Vec3.sub (roots a).data.worldCenter cam).length
      < (Vec3.sub (roots b).data.worldCenter cam).length)
    [0, 1, 2, 3, 4, 5] with horder
  have hstep := updateNode_C3 radius hf cam fovY screenHeight planes
    (MAX_DEPTH + 1)
  have hT1 : ∀ i, TreeKnown ({ st0 with
      activeNodes := 0, batchCount := 0, pending := [],
      staging := StagingBatch.begin (MESHES_PER_BATCH * BYTES_PER_MESH) }
        : UState) (roots i) ∧ IntMeshFree (roots i) := by
    intro i
    refine ⟨?_, hIM i⟩
    intro m hm
    exact Or.inl (hT i m hm)
  obtain ⟨ihEv, ihT, ihDK, ihPZ, ihPhi⟩ :=
    foldNodes_evolve
      (fun a b s =>
        updateNode radius hf cam fovY screenHeight planes (MAX_DEPTH + 1) a b s)
      hstep order
      (roots, MAX_SPLITS_PER_FRAME,
        { st0 with
          activeNodes := 0, batchCount := 0, pending := [],
          staging := StagingBatch.begin (MESHES_PER_BATCH * BYTES_PER_MESH) })
      hT1
      (by
        intro m hm
        have hm0 : m ∈ st0.deferred := hm
        rw [hd] at hm0
        exact absurd hm0 (List.not_mem_nil m))
      (fun _ => rfl)
  set fin := order.foldl
    (stepNodes fun a b s =>
      updateNode radius hf cam fovY screenHeight planes (MAX_DEPTH + 1) a b s)
    (roots, MAX_SPLITS_PER_FRAME,
      { st0 with
        activeNodes := 0, batchCount := 0, pending := [],
        staging := StagingBatch.begin (MESHES_PER_BATCH * BYTES_PER_MESH) })
    with hfin
  have hphi : fin.2.2.deferred ≠ [] →
      0 < fin.2.2.batchCount
        ∨ numSubmits st0.events < numSubmits fin.2.2.events := by
    intro hne
    have hlen : st0.deferred.length < fin.2.2.deferred.length := by
      rw [hd]
      simpa using List.length_pos.mpr hne
    exact ihPhi hlen
  obtain ⟨pre, hev, hpre, hall, hns, hdf⟩ :=
    finishFrame_C3 fin.2.2 (numSubmits st0.events) ihPZ hphi
  refine ⟨⟨pre, fin.2.2.deferred, hev, ?_, ?_⟩, ?_, ?_, hdf⟩
  · intro m hm
    exact hpre m (ihDK m hm)
  · intro hne
    exact hns hne ihEv.numSubmits_le
  · intro i m hm
    exact hall m ((ihT i).1 m hm)
  · intro i
    exact (ihT i).2

end CubesphereBody


namespace CubesphereBody

theorem treeMeshes_gen_fresh (radius : ℝ) (hf : ℝ → ℝ → ℝ) (k : QNode)
    (st : UState) (htm : treeMeshes k = []) :
    ∀ m ∈ treeMeshes (generateMeshBatched radius hf k st).1,
      m = st.nextMesh := by
  intro m hm
  obtain ⟨d, hfst, hdm⟩ := generateMeshBatched_fst radius hf k st
  rw [hfst] at hm
  rcases treeMeshes_withData k d m hm with h | h
  · rw [hdm] at h
    injection h with h
    exact h.symm
  · rw [htm] at h
    exact absurd h (List.not_mem_nil m)

/-- The constructor establishes the frame-boundary safety state: all six
root meshes are flushed through `endOneShot` (batch count 6 > 0), nothing
is deferred, and all roots are mesh-carrying leaves. -/
theorem initialBody_C3 (radius : ℝ) (hf : ℝ → ℝ → ℝ) :
    (∀ i : Fin 6, ∀ m ∈ treeMeshes ((initialBody radius hf).1 i),
      m ∈ confirmedUploads (initialBody radius hf).2.events) ∧
    (∀ i : Fin 6, IntMeshFree ((initialBody radius hf).1 i)) ∧
    (initialBody radius hf).2.deferred = [] := by
  have hsmall : ∀ (t : QNode) (st : UState),
      st.batchCount + 1 < MESHES_PER_BATCH →
      (generateMeshBatched radius hf t st).2.events = st.events ∧
      (generateMeshBatched radius hf t st).2.pending
        = st.pending ++ [st.nextMesh] ∧
      (generateMeshBatched radius hf t st).2.batchCount = st.batchCount + 1 ∧
      (generateMeshBatched radius hf t st).2.deferred = st.deferred := by
    intro t st hlt
    obtain ⟨hdq, _, hc⟩ := generateMeshBatched_cases radius hf t st
    rcases hc with ⟨_, _, _, hge⟩ | ⟨he, hp, hb, _⟩
    · exact absurd hge (Nat.not_le_of_lt hlt)
    · exact ⟨he, hp, hb, hdq⟩
  unfold initialBody
  dsimp only
  set st0 : UState :=
    { activeNodes := 0, batchCount := 0, nextMesh := 0, deferred := [],
      pending := [], staging := StagingBatch.begin (6 * BYTES_PER_MESH),
      events := [] } with hst0
  set q0 := initNode radius 0 (-1) 1 (-1) 1 0 with hq0
  set q1 := initNode radius 1 (-1) 1 (-1) 1 0 with hq1
  set q2 := initNode radius 2 (-1) 1 (-1) 1 0 with hq2
  set q3 := initNode radius 3 (-1) 1 (-1) 1 0 with hq3
  set q4 := initNode radius 4 (-1) 1 (-1) 1 0 with hq4
  set q5 := initNode radius 5 (-1) 1 (-1) 1 0 with hq5
  set g0 := generateMeshBatched radius hf q0 st0 with hg0
  set g1 := generateMeshBatched radius hf q1 g0.2 with hg1
  set g2 := generateMeshBatched radius hf q2 g1.2 with hg2
  set g3 := generateMeshBatched radius hf q3 g2.2 with hg3
  set g4 := generateMeshBatched radius hf q4 g3.2 with hg4
  set g5 := generateMeshBatched radius hf q5 g4.2 with hg5
  have s0 := hsmall q0 st0 (by rw [hst0]; norm_num [MESHES_PER_BATCH])
  have s1 := hsmall q1 g0.2
    (by rw [s0.2.2.1, hst0]; norm_num [MESHES_PER_BATCH])
  have s2 := hsmall q2 g1.2
    (by rw [s1.2.2.1, s0.2.2.1, hst0]; norm_num [MESHES_PER_BATCH])
  have s3 := hsmall q3 g2.2
    (by rw [s2.2.2.1, s1.2.2.1, s0.2.2.1, hst0]; norm_num [MESHES_PER_BATCH])
  have s4 := hsmall q4 g3.2
    (by rw [s3.2.2.1, s2.2.2.1, s1.2.2.1, s0.2.2.1, hst0]
        norm_num [MESHES_PER_BATCH])
  have s5 := hsmall q5 g4.2
    (by rw [s4.2.2.1, s3.2.2.1, s2.2.2.1, s1.2.2.1, s0.2.2.1, hst0]
        norm_num [MESHES_PER_BATCH])
  have hbc : 0 < g5.2.batchCount := by
    rw [s5.2.2.1]
    exact Nat.succ_pos _
  rw [if_pos hbc]
  have hev : g5.2.events = [] := by
    rw [s5.1, s4.1, s3.1, s2.1, s1.1, s0.1, hst0]
  have hmem0 : st0.nextMesh ∈ g0.2.pending := by
    rw [s0.2.1]
    exact List.mem_append_right _ (List.mem_singleton.mpr rfl)
  have hmem1 : g0.2.nextMesh ∈ g1.2.pending := by
    rw [s1.2.1]
    exact List.mem_append_right _ (List.mem_singleton.mpr rfl)
  have hmem2 : g1.2.nextMesh ∈ g2.2.pending := by
    rw [s2.2.1]
    exact List.mem_append_right _ (List.mem_singleton.mpr rfl)
  have hmem3 : g2.2.nextMesh ∈ g3.2.pending := by
    rw [s3.2.1]
    exact List.mem_append_right _ (List.mem_singleton.mpr rfl)
  have hmem4 : g3.2.nextMesh ∈ g4.2.pending := by
    rw [s4.2.1]
    exact List.mem_append_right _ (List.mem_singleton.mpr rfl)
  have hmem5 : g4.2.nextMesh ∈ g5.2.pending := by
    rw [s5.2.1]
    exact List.mem_append_right _ (List.mem_singleton.mpr rfl)
  have hup0 : st0.nextMesh ∈ g5.2.pending := by
    rw [s5.2.1, s4.2.1, s3.2.1, s2.2.1, s1.2.1]
    exact List.mem_append_left _ (List.mem_append_left _
      (List.mem_append_left _ (List.mem_append_left _
        (List.mem_append_left _ hmem0))))
  have hup1 : g0.2.nextMesh ∈ g5.2.pending := by
    rw [s5.2.1, s4.2.1, s3.2.1, s2.2.1]
    exact List.mem_append_left _ (List.mem_append_left _
      (List.mem_append_left _ (List.mem_append_left _ hmem1)))
  have hup2 : g1.2.nextMesh ∈ g5.2.pending := by
    rw [s5.2.1, s4.2.1, s3.2.1]
    exact List.mem_append_left _ (List.mem_append_left _
      (List.mem_append_left _ hmem2))
  have hup3 : g2.2.nextMesh ∈ g5.2.pending := by
    rw [s5.2.1, s4.2.1]
    exact List.mem_append_left _ (List.mem_append_left _ hmem3)
  have hup4 : g3.2.nextMesh ∈ g5.2.pending := by
    rw [s5.2.1]
    exact List.mem_append_left _ hmem4
  have hup5 : g4.2.nextMesh ∈ g5.2.pending := hmem5
  have hcu : ∀ m, m ∈ g5.2.pending →
      m ∈ confirmedUploads (g5.2.events
        ++ [DevEvent.submitComplete g5.2.pending]) := by
    intro m hm
    rw [confirmedUploads_append, hev]
    simp only [confirmedUploads, List.append_nil, List.nil_append]
    exact hm
  refine ⟨?_, ?_, ?_⟩
  · intro i
    match i with
    | 0 =>
      intro m hm
      have hmm := treeMeshes_gen_fresh radius hf q0 st0
        (by rw [hq0]; exact initNode_treeMeshes _ _ _ _ _ _ _) m hm
      rw [hmm]
      exact hcu _ hup0
    | 1 =>
      intro m hm
      have hmm := treeMeshes_gen_fresh radius hf q1 g0.2
        (by rw [hq1]; exact initNode_treeMeshes _ _ _ _ _ _ _) m hm
      rw [hmm]
      exact hcu _ hup1
    | 2 =>
      intro m hm
      have hmm := treeMeshes_gen_fresh radius hf q2 g1.2
        (by rw [hq2]; exact initNode_treeMeshes _ _ _ _ _ _ _) m hm
      rw [hmm]
      exact hcu _ hup2
    | 3 =>
      intro m hm
      have hmm := treeMeshes_gen_fresh radius hf q3 g2.2
        (by rw [hq3]; exact initNode_treeMeshes _ _ _ _ _ _ _) m hm
      rw [hmm]
      exact hcu _ hup3
    | 4 =>
      intro m hm
      have hmm := treeMeshes_gen_fresh radius hf q4 g3.2
        (by rw [hq4]; exact initNode_treeMeshes _ _ _ _ _ _ _) m hm
      rw [hmm]
      exact hcu _ hup4
    | 5 =>
      intro m hm
      have hmm := treeMeshes_gen_fresh radius hf q5 g4.2
        (by rw [hq5]; exact initNode_treeMeshes _ _ _ _ _ _ _) m hm
      rw [hmm]
      exact hcu _ hup5
  · intro i
    match i with
    | 0 =>
      exact generateMeshBatched_intMeshFree radius hf q0 st0
        (by rw [hq0]; exact initNode_child_null _ _ _ _ _ _ _)
    | 1 =>
      exact generateMeshBatched_intMeshFree radius hf q1 g0.2
        (by rw [hq1]; exact initNode_child_null _ _ _ _ _ _ _)
    | 2 =>
      exact generateMeshBatched_intMeshFree radius hf q2 g1.2
        (by rw [hq2]; exact initNode_child_null _ _ _ _ _ _ _)
    | 3 =>
      exact generateMeshBatched_intMeshFree radius hf q3 g2.2
        (by rw [hq3]; exact initNode_child_null _ _ _ _ _ _ _)
    | 4 =>
      exact generateMeshBatched_intMeshFree radius hf q4 g3.2
        (by rw [hq4]; exact initNode_child_null _ _ _ _ _ _ _)
    | 5 =>
      exact generateMeshBatched_intMeshFree radius hf q5 g4.2
        (by rw [hq5]; exact initNode_child_null _ _ _ _ _ _ _)
  · show g5.2.deferred = []
    rw [s5.2.2.2, s4.2.2.2, s3.2.2.2, s2.2.2.2, s1.2.2.2, s0.2.2.2, hst0]

/-- Frame-boundary safety, the invariant of all reachable states: every
mesh owned by the forest has its upload confirmed complete on the device,
interior nodes own no mesh, and the deferred-destroy list is empty. -/
def SafeState (b : (Fin 6 → QNode) × UState) : Prop :=
  (∀ i : Fin 6, ∀ m ∈ treeMeshes (b.1 i),
    m ∈ confirmedUploads b.2.events) ∧
  (∀ i : Fin 6, IntMeshFree (b.1 i)) ∧ b.2.deferred = []

theorem reachable_safe (radius : ℝ) (hf : ℝ → ℝ → ℝ)
    (b : (Fin 6 → QNode) × UState) (hb : Reachable radius hf b) :
    SafeState b := by
  induction hb with
  | init => exact initialBody_C3 radius hf
  | step b cam fovY screenHeight vp _ ih =>
    obtain ⟨h1, h2, h3⟩ := ih
    obtain ⟨_, k1, k2, k3⟩ :=
      update_C3 radius hf b.1 b.2 cam fovY screenHeight vp h1 h2 h3
    exact ⟨k1, k2, k3⟩

end CubesphereBody

/-- C3: in every `update()` call on a reachable `CubesphereBody` state, the
deferred-destroy collection is freed only at the final `destroy` event, and
every mesh in it had its transfer confirmed complete on the device first:
each destroyed mesh id appears in a `submitComplete` event (the model of
`CommandPool::endOneShot`, which returns only after `vkQueueSubmit` plus
`vkQueueWaitIdle`) strictly before the `destroy` event, and whenever
anything is destroyed, a completed-on-device submission (a queue drain
covering every in-flight command buffer) happened during this very call
before the destruction — the collection is never freed merely because a
CPU-side submit call returned. -/
theorem C3_deferred_destroy_confirmed (radius : ℝ) (hf : ℝ → ℝ → ℝ)
    (b : (Fin 6 → CubesphereBody.QNode) × CubesphereBody.UState)
    (cam : Vec3) (fovY screenHeight : ℝ) (vp : CubesphereBody.Mat4)
    (hb : CubesphereBody.Reachable radius hf b) :
    ∃ pre D,
      (CubesphereBody.update radius hf b.1 b.2 cam fovY screenHeight
        vp).2.events = pre ++ [CubesphereBody.DevEvent.destroy D] ∧
      (∀ m ∈ D, m ∈ CubesphereBody.confirmedUploads pre) ∧
      (D ≠ [] → CubesphereBody.numSubmits b.2.events
        < CubesphereBody.numSubmits pre) := by
  obtain ⟨h1, h2, h3⟩ := CubesphereBody.reachable_safe radius hf b hb
  exact (CubesphereBody.update_C3 radius hf b.1 b.2 cam fovY screenHeight vp
    h1 h2 h3).1

/-- Witness for `C3_deferred_destroy_confirmed`: one update of the
constructor state with unit radius, a flat heightfield and the camera at
the origin. -/
theorem C3_witness :
    CubesphereBody.Reachable 1 (fun _ _ => 0)
        (CubesphereBody.initialBody 1 fun _ _ => 0) ∧
      ∃ pre D,
        (CubesphereBody.update 1 (fun _ _ => 0)
          (CubesphereBody.initialBody 1 fun _ _ => 0).1
          (CubesphereBody.initialBody 1 fun _ _ => 0).2
          Vec3.zero (Real.pi / 2) 720 (fun _ _ => 0)).2.events
            = pre ++ [CubesphereBody.DevEvent.destroy D] ∧
        (∀ m ∈ D, m ∈ CubesphereBody.confirmedUploads pre) ∧
        (D ≠ [] → CubesphereBody.numSubmits
            (CubesphereBody.initialBody 1 fun _ _ => 0).2.events
          < CubesphereBody.numSubmits pre) :=
  ⟨CubesphereBody.Reachable.init,
    C3_deferred_destroy_confirmed 1 (fun _ _ => 0) _ Vec3.zero (Real.pi / 2)
      720 (fun _ _ => 0) CubesphereBody.Reachable.init⟩


theorem Vec3.length_congr_sq (a b : Vec3) (h : a.lengthSq = b.lengthSq) :
    a.length = b.length := by
  unfold Vec3.length
  rw [h]

theorem Vec3.smul_one (a : Vec3) : Vec3.smul 1 a = a := by
  unfold Vec3.smul
  cases a
  simp

theorem Vec3.normalize_of_unit (a : Vec3) (h : a.lengthSq = 1) :
    a.normalize = a := by
  unfold Vec3.normalize
  rw [Vec3.length_eq_of_sq a 1 (by norm_num) (by rw [h]; norm_num)]
  norm_num
  exact Vec3.smul_one a

namespace CubesphereBody

theorem init_le_foldl_max (g : ℝ × ℝ → ℝ) :
    ∀ (l : List (ℝ × ℝ)) (a : ℝ),
      a ≤ l.foldl (fun acc uv => max acc (g uv)) a
  | [], a => le_refl a
  | q :: rest, a =>
    le_trans (le_max_left a (g q)) (init_le_foldl_max g rest (max a (g q)))

theorem le_foldl_max (g : ℝ × ℝ → ℝ) :
    ∀ (l : List (ℝ × ℝ)) (a : ℝ) (p : ℝ × ℝ), p ∈ l →
      g p ≤ l.foldl (fun acc uv => max acc (g uv)) a
  | [], _, _, hp => absurd hp (List.not_mem_nil _)
  | q :: rest, a, p, hp => by
    rcases List.mem_cons.mp hp with h | h
    · subst h
      exact le_trans (le_max_right a (g p))
        (init_le_foldl_max g rest (max a (g p)))
    · exact le_foldl_max g rest (max a (g q)) p h

theorem foldl_max_le (g : ℝ × ℝ → ℝ) :
    ∀ (l : List (ℝ × ℝ)) (a c : ℝ), a ≤ c → (∀ p ∈ l, g p ≤ c) →
      l.foldl (fun acc uv => max acc (g uv)) a ≤ c
  | [], _, _, ha, _ => ha
  | q :: rest, a, c, ha, h =>
    foldl_max_le g rest (max a (g q)) c
      (max_le ha (h q (List.mem_cons_self _ _)))
      (fun p hp => h p (List.mem_cons_of_mem _ hp))

theorem foldNodes_keep {ι : Type} [DecidableEq ι]
    (f : QNode → ℕ → UState → QNode × ℕ × UState) :
    ∀ (l : List ι) (acc : (ι → QNode) × ℕ × UState) (i : ι), i ∉ l →
      (l.foldl (stepNodes f) acc).1 i = acc.1 i
  | [], _, _, _ => rfl
  | j :: l, acc, i, hn => by
    have h1 : ((j :: l).foldl (stepNodes f) acc)
        = l.foldl (stepNodes f) (stepNodes f acc j) := rfl
    have hij : i ≠ j := fun h => hn (h ▸ List.mem_cons_self _ _)
    rw [h1, foldNodes_keep f l (stepNodes f acc j) i
      (fun h => hn (List.mem_cons_of_mem _ h))]
    have h2 : (stepNodes f acc j).1
        = fun k => if k = j then (f (acc.1 j) acc.2.1 acc.2.2).1
            else acc.1 k := rfl
    rw [h2]
    simp [hij]

/-- With a flat heightfield the generator adopts exactly the analytic sphere
point of the UV-rectangle midpoint as the chunk world center. -/
theorem generate_worldCenter_flat (face : ℤ) (u0 u1 v0 v1 radius : ℝ)
    (g : ℕ) :
    (ChunkGenerator.generate (fun _ _ => 0) face u0 u1 v0 v1 radius
        g).worldCenter
      = Vec3.smul radius (ChunkGenerator.facePointToSphere face
          ((u0 + u1) * 0.5) ((v0 + v1) * 0.5)) := by
  unfold ChunkGenerator.generate
  dsimp only
  rw [ChunkGenerator.sampleWorldPos_const]
  norm_num

theorem generateMeshBatched_data (radius : ℝ) (hf : ℝ → ℝ → ℝ) (t : QNode)
    (st : UState) :
    (generateMeshBatched radius hf t st).1.data
      = { t.data with
          worldCenter := (ChunkGenerator.generate hf t.data.faceIndex
            t.data.u0 t.data.u1 t.data.v0 t.data.v1 radius
            PATCH_GRID).worldCenter,
          mesh := some st.nextMesh } := by
  unfold generateMeshBatched
  dsimp only
  split <;> rw [data_withData]

theorem initNode_worldCenter (radius : ℝ) (face : ℤ) (u0 u1 v0 v1 : ℝ)
    (depth : ℕ) :
    (initNode radius face u0 u1 v0 v1 depth).data.worldCenter
      = Vec3.smul radius (ChunkGenerator.facePointToSphere face
          ((u0 + u1) * 0.5) ((v0 + v1) * 0.5)) := rfl

theorem initNode_data_rect (radius : ℝ) (face : ℤ) (u0 u1 v0 v1 : ℝ)
    (depth : ℕ) :
    (initNode radius face u0 u1 v0 v1 depth).data.faceIndex = face ∧
    (initNode radius face u0 u1 v0 v1 depth).data.u0 = u0 ∧
    (initNode radius face u0 u1 v0 v1 depth).data.u1 = u1 ∧
    (initNode radius face u0 u1 v0 v1 depth).data.v0 = v0 ∧
    (initNode radius face u0 u1 v0 v1 depth).data.v1 = v1 ∧
    (initNode radius face u0 u1 v0 v1 depth).data.mesh = none :=
  ⟨rfl, rfl, rfl, rfl, rfl, rfl⟩

theorem initNode_br_ge (radius : ℝ) (face : ℤ) (u0 u1 v0 v1 : ℝ)
    (depth : ℕ) (p : ℝ × ℝ)
    (hp : p ∈ [(u0, v0), (u1, v0), (u0, v1), (u1, v1),
      ((u0 + u1) * 0.5, v0), ((u0 + u1) * 0.5, v1),
      (u0, (v0 + v1) * 0.5), (u1, (v0 + v1) * 0.5)]) :
    (Vec3.sub
        (Vec3.smul radius (ChunkGenerator.facePointToSphere face p.1 p.2))
        (Vec3.smul radius (ChunkGenerator.facePointToSphere face
          ((u0 + u1) * 0.5) ((v0 + v1) * 0.5)))).length
        + MAX_TERRAIN_DISPLACEMENT
      ≤ (initNode radius face u0 u1 v0 v1 depth).data.boundingRadius := by
  unfold initNode
  dsimp only
  simp only [data_mk]
  have h := le_foldl_max
    (fun uv => (Vec3.sub
      (Vec3.smul radius (ChunkGenerator.facePointToSphere face uv.1 uv.2))
      (Vec3.smul radius (ChunkGenerator.facePointToSphere face
        ((u0 + u1) * 0.5) ((v0 + v1) * 0.5)))).length)
    [(u0, v0), (u1, v0), (u0, v1), (u1, v1),
      ((u0 + u1) * 0.5, v0), ((u0 + u1) * 0.5, v1),
      (u0, (v0 + v1) * 0.5), (u1, (v0 + v1) * 0.5)] 0 p hp
  dsimp only at h
  linarith

theorem initNode_br_le (radius : ℝ) (face : ℤ) (u0 u1 v0 v1 : ℝ)
    (depth : ℕ) (hr : 0 ≤ radius) :
    (initNode radius face u0 u1 v0 v1 depth).data.boundingRadius
      ≤ 2 * radius + MAX_TERRAIN_DISPLACEMENT := by
  unfold initNode
  dsimp only
  simp only [data_mk]
  have h := foldl_max_le
    (fun uv => (Vec3.sub
      (Vec3.smul radius (ChunkGenerator.facePointToSphere face uv.1 uv.2))
      (Vec3.smul radius (ChunkGenerator.facePointToSphere face
        ((u0 + u1) * 0.5) ((v0 + v1) * 0.5)))).length)
    [(u0, v0), (u1, v0), (u0, v1), (u1, v1),
      ((u0 + u1) * 0.5, v0), ((u0 + u1) * 0.5, v1),
      (u0, (v0 + v1) * 0.5), (u1, (v0 + v1) * 0.5)] 0 (2 * radius)
    (by linarith)
    (by
      intro p _
      dsimp only
      have h1 := Vec3.length_sub_le
        (Vec3.smul radius (ChunkGenerator.facePointToSphere face p.1 p.2))
        (Vec3.smul radius (ChunkGenerator.facePointToSphere face
          ((u0 + u1) * 0.5) ((v0 + v1) * 0.5)))
      rw [Vec3.length_smul_of_nonneg _ _ hr, Vec3.length_smul_of_nonneg _ _ hr,
        ChunkGenerator.facePointToSphere_length,
        ChunkGenerator.facePointToSphere_length] at h1
      linarith)
  dsimp only at h
  linarith

theorem initNode_br_nonneg (radius : ℝ) (face : ℤ) (u0 u1 v0 v1 : ℝ)
    (depth : ℕ) :
    0 ≤ (initNode radius face u0 u1 v0 v1 depth).data.boundingRadius := by
  unfold initNode
  dsimp only
  simp only [data_mk]
  have h := init_le_foldl_max
    (fun uv => (Vec3.sub
      (Vec3.smul radius (ChunkGenerator.facePointToSphere face uv.1 uv.2))
      (Vec3.smul radius (ChunkGenerator.facePointToSphere face
        ((u0 + u1) * 0.5) ((v0 + v1) * 0.5)))).length)
    [(u0, v0), (u1, v0), (u0, v1), (u1, v1),
      ((u0 + u1) * 0.5, v0), ((u0 + u1) * 0.5, v1),
      (u0, (v0 + v1) * 0.5), (u1, (v0 + v1) * 0.5)] 0
  unfold MAX_TERRAIN_DISPLACEMENT
  linarith

end CubesphereBody


namespace CubesphereBody

/-- The C4 scenario camera position: `radius + 100000` metres on the +x
axis, directly above the center of face 0 (lunar radius 1737400). -/
def lunarCam : Vec3 := ⟨1837400, 0, 0⟩

/-- The C4 scenario vertical field of view: 70 degrees. -/
noncomputable def lunarFov : ℝ := 7 * Real.pi / 18

theorem extractFrustumPlanes_zero (p : Fin 6) :
    extractFrustumPlanes (fun _ _ => 0) p = ⟨0, 0, 0, 0⟩ := by
  unfold extractFrustumPlanes
  dsimp only
  fin_cases p <;>
  · rw [if_neg]
    · norm_num
    · norm_num [Vec3.length, Vec3.lengthSq]

theorem visible_zero_vp (center : Vec3) (radius : ℝ) (hr : 0 ≤ radius) :
    sphereInFrustumP (extractFrustumPlanes fun _ _ => 0) center radius := by
  intro i
  rw [extractFrustumPlanes_zero i]
  unfold Vec3.dot
  dsimp only
  norm_num
  linarith

theorem lunarFov_half : lunarFov * 0.5 = 7 * Real.pi / 36 := by
  unfold lunarFov
  ring

theorem tan_lunarFov_pos : 0 < Real.tan (lunarFov * 0.5) := by
  rw [lunarFov_half]
  have hpi := Real.pi_pos
  exact Real.tan_pos_of_pos_of_lt_pi_div_two (by linarith) (by linarith)

theorem tan_lunarFov_le_one : Real.tan (lunarFov * 0.5) ≤ 1 := by
  rw [lunarFov_half]
  have hpi := Real.pi_pos
  have h := Real.tan_lt_tan_of_nonneg_of_lt_pi_div_two
    (x := 7 * Real.pi / 36) (y := Real.pi / 4) (by linarith) (by linarith)
    (by linarith)
  rw [Real.tan_pi_div_four] at h
  linarith

/-- Uniform split-guard bound for the C4 scenario: any patch with bounding
radius in `[585000, 3500000]` whose camera distance is at most `1100000`
metres has screen error above `SPLIT_THRESHOLD` at 70 degree FOV and 720 px
height. -/
theorem screenError_gt4 (br dist : ℝ) (hbl : 585000 ≤ br)
    (hbu : br ≤ 3500000) (hdu : dist ≤ 1100000) :
    4 < screenErrorOf br dist lunarFov 720 := by
  rw [screenErrorOf_eq]
  have ht0 := tan_lunarFov_pos
  have ht1 := tan_lunarFov_le_one
  set T := Real.tan (lunarFov * 0.5) with hT
  have hM0 : 0 < max dist (br * 0.1) := by
    have h1 : (0 : ℝ) < br * 0.1 := by linarith
    exact lt_max_of_lt_right h1
  have hM1 : max dist (br * 0.1) ≤ 1100000 := max_le hdu (by linarith)
  have hK : (360 : ℝ) ≤ 720 / (2 * T) := by
    rw [le_div_iff (by linarith)]
    nlinarith
  have hquot : (73125 : ℝ) / 1100000 ≤ br * 2 / 16 / max dist (br * 0.1) :=
    div_le_div (by linarith) (by linarith) hM0 hM1
  have hmul : (73125 : ℝ) / 1100000 * 360
      ≤ br * 2 / 16 / max dist (br * 0.1) * (720 / (2 * T)) :=
    mul_le_mul hquot hK (by norm_num)
      (le_trans (by norm_num) hquot)
  have h4 : (4 : ℝ) < 73125 / 1100000 * 360 := by norm_num
  linarith

end CubesphereBody


namespace ChunkGenerator

theorem fp_face0_center : facePointToSphere 0 0 0 = ⟨1, 0, 0⟩ := by
  rw [facePointToSphere_face0_eval 0 0 1 (by norm_num) (by norm_num)]
  rw [inv_one, Vec3.smul_one]

theorem fp_face1_center : facePointToSphere 1 0 0 = ⟨-1, 0, 0⟩ := by
  have hraw : facePointRaw 1 0 0 = ⟨-1, 0, 0⟩ := by
    unfold facePointRaw
    norm_num
  unfold facePointToSphere
  rw [hraw]
  exact Vec3.normalize_of_unit _ (by unfold Vec3.lengthSq; norm_num)

theorem fp_face2_center : facePointToSphere 2 0 0 = ⟨0, 1, 0⟩ := by
  have hraw : facePointRaw 2 0 0 = ⟨0, 1, 0⟩ := by
    unfold facePointRaw
    norm_num
  unfold facePointToSphere
  rw [hraw]
  exact Vec3.normalize_of_unit _ (by unfold Vec3.lengthSq; norm_num)

theorem fp_face3_center : facePointToSphere 3 0 0 = ⟨0, -1, 0⟩ := by
  have hraw : facePointRaw 3 0 0 = ⟨0, -1, 0⟩ := by
    unfold facePointRaw
    norm_num
  unfold facePointToSphere
  rw [hraw]
  exact Vec3.normalize_of_unit _ (by unfold Vec3.lengthSq; norm_num)

theorem fp_face4_center : facePointToSphere 4 0 0 = ⟨0, 0, 1⟩ := by
  have hraw : facePointRaw 4 0 0 = ⟨0, 0, 1⟩ := by
    unfold facePointRaw
    norm_num
  unfold facePointToSphere
  rw [hraw]
  exact Vec3.normalize_of_unit _ (by unfold Vec3.lengthSq; norm_num)

theorem fp_face5_center : facePointToSphere 5 0 0 = ⟨0, 0, -1⟩ := by
  have hraw : facePointRaw 5 0 0 = ⟨0, 0, -1⟩ := by
    unfold facePointRaw
    norm_num
  unfold facePointToSphere
  rw [hraw]
  exact Vec3.normalize_of_unit _ (by unfold Vec3.lengthSq; norm_num)

/-- Face-0 projection at quadrant midpoints `(±1/2, ±1/2)`. -/
theorem fp_face0_quad (u v : ℝ) (h : u * u = 1 / 4 ∧ v * v = 1 / 4) :
    facePointToSphere 0 u v = Vec3.smul (Real.sqrt 1.5)⁻¹ ⟨1, u, v⟩ := by
  refine facePointToSphere_face0_eval u v (Real.sqrt 1.5)
    (Real.sqrt_nonneg _) ?_
  rw [Real.sq_sqrt (by norm_num)]
  rw [h.1, h.2]
  norm_num

theorem fp_face0_corner : facePointToSphere 0 (-1) (-1)
    = Vec3.smul (Real.sqrt 3)⁻¹ ⟨1, -1, -1⟩ := by
  refine facePointToSphere_face0_eval (-1) (-1) (Real.sqrt 3)
    (Real.sqrt_nonneg _) ?_
  rw [Real.sq_sqrt (by norm_num)]
  norm_num

end ChunkGenerator

namespace CubesphereBody

theorem generateMeshBatched_fields (radius : ℝ) (hf : ℝ → ℝ → ℝ) (t : QNode)
    (st : UState) :
    (generateMeshBatched radius hf t st).1.data.faceIndex = t.data.faceIndex ∧
    (generateMeshBatched radius hf t st).1.data.u0 = t.data.u0 ∧
    (generateMeshBatched radius hf t st).1.data.u1 = t.data.u1 ∧
    (generateMeshBatched radius hf t st).1.data.v0 = t.data.v0 ∧
    (generateMeshBatched radius hf t st).1.data.v1 = t.data.v1 ∧
    (generateMeshBatched radius hf t st).1.data.boundingRadius
      = t.data.boundingRadius := by
  rw [generateMeshBatched_data]
  exact ⟨rfl, rfl, rfl, rfl, rfl, rfl⟩

theorem generateMeshBatched_worldCenter (radius : ℝ) (hf : ℝ → ℝ → ℝ)
    (t : QNode) (st : UState) :
    (generateMeshBatched radius hf t st).1.data.worldCenter
      = (ChunkGenerator.generate hf t.data.faceIndex t.data.u0 t.data.u1
          t.data.v0 t.data.v1 radius PATCH_GRID).worldCenter := by
  rw [generateMeshBatched_data]

/-- World center of a batched-generated fresh node over a UV rectangle, for
a flat heightfield: the sphere point of the rectangle midpoint. -/
theorem gen_init_worldCenter (radius : ℝ) (face : ℤ) (u0 u1 v0 v1 : ℝ)
    (d : ℕ) (st : UState) :
    (generateMeshBatched radius (fun _ _ => 0)
        (initNode radius face u0 u1 v0 v1 d) st).1.data.worldCenter
      = Vec3.smul radius (ChunkGenerator.facePointToSphere face
          ((u0 + u1) * 0.5) ((v0 + v1) * 0.5)) := by
  rw [generateMeshBatched_worldCenter]
  obtain ⟨hfc, h0, h1, h2, h3, _⟩ := initNode_data_rect radius face u0 u1 v0 v1 d
  rw [hfc, h0, h1, h2, h3, generate_worldCenter_flat]

end CubesphereBody


namespace CubesphereBody

theorem c4_sqrt3_ub : Real.sqrt 3 ≤ 1.73206 := by
  have h := Real.sqrt_le_sqrt (show (3 : ℝ) ≤ 1.73206 ^ 2 by norm_num)
  rwa [Real.sqrt_sq (by norm_num)] at h

theorem c4_sqrt15_ub : Real.sqrt 1.5 ≤ 1.22475 := by
  have h := Real.sqrt_le_sqrt (show (1.5 : ℝ) ≤ 1.22475 ^ 2 by norm_num)
  rwa [Real.sqrt_sq (by norm_num)] at h

theorem c4_sqrt15_lb : (1.224 : ℝ) ≤ Real.sqrt 1.5 := by
  have h := Real.sqrt_le_sqrt (show (1.224 : ℝ) ^ 2 ≤ 1.5 by norm_num)
  rwa [Real.sqrt_sq (by norm_num)] at h

theorem c4_sqrt15_inv : (Real.sqrt 1.5)⁻¹ = Real.sqrt 1.5 / 1.5 := by
  have hs : Real.sqrt 1.5 * Real.sqrt 1.5 = 1.5 :=
    Real.mul_self_sqrt (by norm_num)
  have hne : Real.sqrt 1.5 ≠ 0 := by
    intro h
    rw [h] at hs
    norm_num at hs
  field_simp

theorem c4_sqrt3_inv : (Real.sqrt 3)⁻¹ = Real.sqrt 3 / 3 := by
  have hs : Real.sqrt 3 * Real.sqrt 3 = 3 := Real.mul_self_sqrt (by norm_num)
  have hne : Real.sqrt 3 ≠ 0 := by
    intro h
    rw [h] at hs
    norm_num at hs
  field_simp

/-- Distance from the C4 camera to the face-0 root center (100000 m), well
under the uniform bound. -/
theorem c4_root_dist_le :
    (Vec3.sub (Vec3.smul 1737400 (ChunkGenerator.facePointToSphere 0 0 0))
        lunarCam).length ≤ 1100000 := by
  rw [ChunkGenerator.fp_face0_center]
  apply Vec3.length_le_of_sq_le _ _ (by norm_num)
  unfold Vec3.sub Vec3.smul Vec3.lengthSq lunarCam
  norm_num

/-- The face-0 root is strictly nearer to the C4 camera than the face-2
root. -/
theorem c4_dist_02 :
    (Vec3.sub (Vec3.smul 1737400 (ChunkGenerator.facePointToSphere 0 0 0))
        lunarCam).length
      < (Vec3.sub (Vec3.smul 1737400 (ChunkGenerator.facePointToSphere 2 0 0))
        lunarCam).length := by
  rw [ChunkGenerator.fp_face0_center, ChunkGenerator.fp_face2_center,
    Vec3.length_lt_length_iff]
  unfold Vec3.sub Vec3.smul Vec3.lengthSq lunarCam
  norm_num

/-- The face-2 root is strictly nearer to the C4 camera than the face-1
root. -/
theorem c4_dist_21 :
    (Vec3.sub (Vec3.smul 1737400 (ChunkGenerator.facePointToSphere 2 0 0))
        lunarCam).length
      < (Vec3.sub (Vec3.smul 1737400 (ChunkGenerator.facePointToSphere 1 0 0))
        lunarCam).length := by
  rw [ChunkGenerator.fp_face2_center, ChunkGenerator.fp_face1_center,
    Vec3.length_lt_length_iff]
  unfold Vec3.sub Vec3.smul Vec3.lengthSq lunarCam
  norm_num

theorem c4_dist_eq_32 :
    (Vec3.sub (Vec3.smul 1737400 (ChunkGenerator.facePointToSphere 3 0 0))
        lunarCam).length
      = (Vec3.sub (Vec3.smul 1737400 (ChunkGenerator.facePointToSphere 2 0 0))
        lunarCam).length := by
  rw [ChunkGenerator.fp_face3_center, ChunkGenerator.fp_face2_center]
  apply Vec3.length_congr_sq
  unfold Vec3.sub Vec3.smul Vec3.lengthSq lunarCam
  ring

theorem c4_dist_eq_43 :
    (Vec3.sub (Vec3.smul 1737400 (ChunkGenerator.facePointToSphere 4 0 0))
        lunarCam).length
      = (Vec3.sub (Vec3.smul 1737400 (ChunkGenerator.facePointToSphere 3 0 0))
        lunarCam).length := by
  rw [ChunkGenerator.fp_face4_center, ChunkGenerator.fp_face3_center]
  apply Vec3.length_congr_sq
  unfold Vec3.sub Vec3.smul Vec3.lengthSq lunarCam
  ring

theorem c4_dist_eq_54 :
    (Vec3.sub (Vec3.smul 1737400 (ChunkGenerator.facePointToSphere 5 0 0))
        lunarCam).length
      = (Vec3.sub (Vec3.smul 1737400 (ChunkGenerator.facePointToSphere 4 0 0))
        lunarCam).length := by
  rw [ChunkGenerator.fp_face5_center, ChunkGenerator.fp_face4_center]
  apply Vec3.length_congr_sq
  unfold Vec3.sub Vec3.smul Vec3.lengthSq lunarCam
  ring

/-- Distance from the C4 camera to the near quadrant child of the face-0
root. -/
theorem c4_kid_dist_le :
    (Vec3.sub (Vec3.smul 1737400 (ChunkGenerator.facePointToSphere 0
        (-(1/2)) (-(1/2)))) lunarCam).length ≤ 1100000 := by
  rw [ChunkGenerator.fp_face0_quad (-(1/2)) (-(1/2)) (by norm_num)]
  have hs : Real.sqrt 1.5 * Real.sqrt 1.5 = 1.5 :=
    Real.mul_self_sqrt (by norm_num)
  have hlb := c4_sqrt15_lb
  apply Vec3.length_le_of_sq_le _ _ (by norm_num)
  unfold Vec3.sub Vec3.smul Vec3.lengthSq lunarCam
  dsimp only
  rw [c4_sqrt15_inv]
  set s := Real.sqrt 1.5 with hsdef
  have hkey : (1737400 * (s / 1.5 * 1) - 1837400)
          * (1737400 * (s / 1.5 * 1) - 1837400) +
        (1737400 * (s / 1.5 * -(1 / 2)) - 0)
          * (1737400 * (s / 1.5 * -(1 / 2)) - 0) +
      (1737400 * (s / 1.5 * -(1 / 2)) - 0)
          * (1737400 * (s / 1.5 * -(1 / 2)) - 0)
      = 1737400 ^ 2 * (s * s) * (1 / 1.5)
        - 2 * 1737400 * 1837400 * (1 / 1.5) * s + 1837400 ^ 2 := by ring
  rw [hkey, hs]
  linarith

/-- All four quadrant children of the face-0 root are equidistant from the
C4 camera (pairwise tie used by the child sort). -/
theorem c4_kid_dist_eq (u1 v1 u2 v2 : ℝ) (h1 : u1 * u1 = 1 / 4 ∧ v1 * v1 = 1 / 4)
    (h2 : u2 * u2 = 1 / 4 ∧ v2 * v2 = 1 / 4) :
    (Vec3.sub (Vec3.smul 1737400 (ChunkGenerator.facePointToSphere 0 u1 v1))
        lunarCam).length
      = (Vec3.sub (Vec3.smul 1737400 (ChunkGenerator.facePointToSphere 0 u2 v2))
        lunarCam).length := by
  rw [ChunkGenerator.fp_face0_quad u1 v1 h1, ChunkGenerator.fp_face0_quad u2 v2 h2]
  apply Vec3.length_congr_sq
  unfold Vec3.sub Vec3.smul Vec3.lengthSq lunarCam
  dsimp only
  nlinarith [h1.1, h1.2, h2.1, h2.2]

/-- The corner test point of the near quadrant child is far from the child
center: lower bound for the child bounding radius. -/
theorem c4_kid_corner_ge :
    (573000 : ℝ) ≤ (Vec3.sub
      (Vec3.smul 1737400 (ChunkGenerator.facePointToSphere 0 (-1) (-1)))
      (Vec3.smul 1737400 (ChunkGenerator.facePointToSphere 0
        (-(1/2)) (-(1/2))))).length := by
  rw [ChunkGenerator.fp_face0_corner,
    ChunkGenerator.fp_face0_quad (-(1/2)) (-(1/2)) (by norm_num)]
  have hs3 : Real.sqrt 3 * Real.sqrt 3 = 3 := Real.mul_self_sqrt (by norm_num)
  have hs15 : Real.sqrt 1.5 * Real.sqrt 1.5 = 1.5 :=
    Real.mul_self_sqrt (by norm_num)
  have hub := mul_le_mul c4_sqrt3_ub c4_sqrt15_ub (Real.sqrt_nonneg 1.5)
    (by norm_num)
  apply Vec3.le_length_of_sq_le _ _ (by norm_num)
  unfold Vec3.sub Vec3.smul Vec3.lengthSq
  dsimp only
  rw [c4_sqrt3_inv, c4_sqrt15_inv]
  set s3 := Real.sqrt 3 with hs3def
  set s15 := Real.sqrt 1.5 with hs15def
  have hkey : (1737400 * (s3 / 3 * 1) - 1737400 * (s15 / 1.5 * 1))
          * (1737400 * (s3 / 3 * 1) - 1737400 * (s15 / 1.5 * 1)) +
        (1737400 * (s3 / 3 * -1) - 1737400 * (s15 / 1.5 * -(1 / 2)))
          * (1737400 * (s3 / 3 * -1) - 1737400 * (s15 / 1.5 * -(1 / 2))) +
      (1737400 * (s3 / 3 * -1) - 1737400 * (s15 / 1.5 * -(1 / 2)))
          * (1737400 * (s3 / 3 * -1) - 1737400 * (s15 / 1.5 * -(1 / 2)))
      = 1737400 ^ 2 * (3 * (s3 * s3) + 6 * (s15 * s15) - 8 * (s3 * s15)) / 9 := by
    ring
  rw [hkey, hs3, hs15]
  linarith

/-- The corner test point of the face-0 root is far from the root center:
lower bound for the root bounding radius. -/
theorem c4_root_corner_ge :
    (573000 : ℝ) ≤ (Vec3.sub
      (Vec3.smul 1737400 (ChunkGenerator.facePointToSphere 0 (-1) (-1)))
      (Vec3.smul 1737400 (ChunkGenerator.facePointToSphere 0 0 0))).length := by
  rw [ChunkGenerator.fp_face0_corner, ChunkGenerator.fp_face0_center]
  have hs3 : Real.sqrt 3 * Real.sqrt 3 = 3 := Real.mul_self_sqrt (by norm_num)
  have hub := c4_sqrt3_ub
  apply Vec3.le_length_of_sq_le _ _ (by norm_num)
  unfold Vec3.sub Vec3.smul Vec3.lengthSq
  dsimp only
  rw [c4_sqrt3_inv]
  set s3 := Real.sqrt 3 with hs3def
  have hkey : (1737400 * (s3 / 3 * 1) - 1737400 * 1)
          * (1737400 * (s3 / 3 * 1) - 1737400 * 1) +
        (1737400 * (s3 / 3 * -1) - 1737400 * 0)
          * (1737400 * (s3 / 3 * -1) - 1737400 * 0) +
      (1737400 * (s3 / 3 * -1) - 1737400 * 0)
          * (1737400 * (s3 / 3 * -1) - 1737400 * 0)
      = 1737400 ^ 2 * (3 * (s3 * s3) - 6 * s3 + 9) / 9 := by ring
  rw [hkey, hs3]
  linarith

end CubesphereBody


namespace CubesphereBody

/-- When the split guard holds at a leaf, `updateNode` takes exactly the
split branch. -/
theorem updateNode_splits (radius : ℝ) (hf : ℝ → ℝ → ℝ) (cam : Vec3)
    (fovY screenHeight : ℝ) (planes : Fin 6 → Plane) (fuel : ℕ) (t : QNode)
    (budget : ℕ) (st : UState) (hleaf : t.isLeaf = true)
    (hguard : sphereInFrustumP planes (Vec3.sub t.data.worldCenter cam)
        t.data.boundingRadius
      ∧ screenErrorOf t.data.boundingRadius
          (Vec3.sub t.data.worldCenter cam).length fovY screenHeight
        > SPLIT_THRESHOLD
      ∧ t.data.depth < MAX_DEPTH ∧ budget ≥ 4) :
    updateNode radius hf cam fovY screenHeight planes (fuel + 1) t budget st
      = splitNode radius hf cam
          (fun a b s =>
            updateNode radius hf cam fovY screenHeight planes fuel a b s)
          t budget st := by
  rw [updateNode]
  rw [if_pos hleaf]
  dsimp only
  rw [if_pos hguard]

theorem splitNode_isLeaf (radius : ℝ) (hf : ℝ → ℝ → ℝ) (cam : Vec3)
    (f : QNode → ℕ → UState → QNode × ℕ × UState) (t : QNode) (budget : ℕ)
    (st : UState) :
    (splitNode radius hf cam f t budget st).1.isLeaf = false := by
  unfold splitNode
  dsimp only
  rfl

theorem splitNode_child (radius : ℝ) (hf : ℝ → ℝ → ℝ) (cam : Vec3)
    (f : QNode → ℕ → UState → QNode × ℕ × UState) (t : QNode) (budget : ℕ)
    (st : UState) (i : Fin 4) :
    (splitNode radius hf cam f t budget st).1.child i
      = .node (((splitOrder cam (splitKids radius hf t st).1).foldl
          (stepNodes f) ((splitKids radius hf t st).1, budget - 4,
            pushParentMesh t (splitKids radius hf t st).2)).1 i) := by
  unfold splitNode
  dsimp only
  fin_cases i <;> rfl

theorem splitNode_state (radius : ℝ) (hf : ℝ → ℝ → ℝ) (cam : Vec3)
    (f : QNode → ℕ → UState → QNode × ℕ × UState) (t : QNode) (budget : ℕ)
    (st : UState) :
    (splitNode radius hf cam f t budget st).2.2
      = ((splitOrder cam (splitKids radius hf t st).1).foldl
          (stepNodes f) ((splitKids radius hf t st).1, budget - 4,
            pushParentMesh t (splitKids radius hf t st).2)).2.2 := by
  unfold splitNode
  dsimp only

theorem finishFrame_destroy (st : UState) :
    ∃ pre, (finishFrame st).events = pre ++ [.destroy st.deferred] := by
  unfold finishFrame
  dsimp only
  by_cases hb : st.batchCount > 0
  · rw [if_pos hb]
    exact ⟨_, rfl⟩
  · rw [if_neg hb]
    exact ⟨_, rfl⟩

theorem splitKids_slot0 (radius : ℝ) (hf : ℝ → ℝ → ℝ) (t : QNode)
    (st : UState) :
    (splitKids radius hf t st).1 0
      = (generateMeshBatched radius hf (initNode radius t.data.faceIndex t.data.u0 ((t.data.u0 + t.data.u1) * 0.5) t.data.v0 ((t.data.v0 + t.data.v1) * 0.5) (t.data.depth + 1)) st).1 := by
  unfold splitKids
  dsimp only

theorem splitKids_slot1 (radius : ℝ) (hf : ℝ → ℝ → ℝ) (t : QNode)
    (st : UState) :
    (splitKids radius hf t st).1 1
      = (generateMeshBatched radius hf (initNode radius t.data.faceIndex ((t.data.u0 + t.data.u1) * 0.5) t.data.u1 t.data.v0 ((t.data.v0 + t.data.v1) * 0.5) (t.data.depth + 1)) (generateMeshBatched radius hf (initNode radius t.data.faceIndex t.data.u0 ((t.data.u0 + t.data.u1) * 0.5) t.data.v0 ((t.data.v0 + t.data.v1) * 0.5) (t.data.depth + 1)) st).2).1 := by
  unfold splitKids
  dsimp only

theorem splitKids_slot2 (radius : ℝ) (hf : ℝ → ℝ → ℝ) (t : QNode)
    (st : UState) :
    (splitKids radius hf t st).1 2
      = (generateMeshBatched radius hf (initNode radius t.data.faceIndex t.data.u0 ((t.data.u0 + t.data.u1) * 0.5) ((t.data.v0 + t.data.v1) * 0.5) t.data.v1 (t.data.depth + 1)) (generateMeshBatched radius hf (initNode radius t.data.faceIndex ((t.data.u0 + t.data.u1) * 0.5) t.data.u1 t.data.v0 ((t.data.v0 + t.data.v1) * 0.5) (t.data.depth + 1)) (generateMeshBatched radius hf (initNode radius t.data.faceIndex t.data.u0 ((t.data.u0 + t.data.u1) * 0.5) t.data.v0 ((t.data.v0 + t.data.v1) * 0.5) (t.data.depth + 1)) st).2).2).1 := by
  unfold splitKids
  dsimp only

theorem splitKids_slot3 (radius : ℝ) (hf : ℝ → ℝ → ℝ) (t : QNode)
    (st : UState) :
    (splitKids radius hf t st).1 3
      = (generateMeshBatched radius hf (initNode radius t.data.faceIndex ((t.data.u0 + t.data.u1) * 0.5) t.data.u1 ((t.data.v0 + t.data.v1) * 0.5) t.data.v1 (t.data.depth + 1)) (generateMeshBatched radius hf (initNode radius t.data.faceIndex t.data.u0 ((t.data.u0 + t.data.u1) * 0.5) ((t.data.v0 + t.data.v1) * 0.5) t.data.v1 (t.data.depth + 1)) (generateMeshBatched radius hf (initNode radius t.data.faceIndex ((t.data.u0 + t.data.u1) * 0.5) t.data.u1 t.data.v0 ((t.data.v0 + t.data.v1) * 0.5) (t.data.depth + 1)) (generateMeshBatched radius hf (initNode radius t.data.faceIndex t.data.u0 ((t.data.u0 + t.data.u1) * 0.5) t.data.v0 ((t.data.v0 + t.data.v1) * 0.5) (t.data.depth + 1)) st).2).2).2).1 := by
  unfold splitKids
  dsimp only

theorem splitKids_center0 (radius : ℝ) (t : QNode) (st : UState) :
    ((splitKids radius (fun _ _ => 0) t st).1 0).data.worldCenter
      = Vec3.smul radius (ChunkGenerator.facePointToSphere t.data.faceIndex
          ((t.data.u0 + ((t.data.u0 + t.data.u1) * 0.5)) * 0.5) ((t.data.v0 + ((t.data.v0 + t.data.v1) * 0.5)) * 0.5)) := by
  rw [splitKids_slot0, gen_init_worldCenter]

theorem splitKids_center1 (radius : ℝ) (t : QNode) (st : UState) :
    ((splitKids radius (fun _ _ => 0) t st).1 1).data.worldCenter
      = Vec3.smul radius (ChunkGenerator.facePointToSphere t.data.faceIndex
          ((((t.data.u0 + t.data.u1) * 0.5) + t.data.u1) * 0.5) ((t.data.v0 + ((t.data.v0 + t.data.v1) * 0.5)) * 0.5)) := by
  rw [splitKids_slot1, gen_init_worldCenter]

theorem splitKids_center2 (radius : ℝ) (t : QNode) (st : UState) :
    ((splitKids radius (fun _ _ => 0) t st).1 2).data.worldCenter
      = Vec3.smul radius (ChunkGenerator.facePointToSphere t.data.faceIndex
          ((t.data.u0 + ((t.data.u0 + t.data.u1) * 0.5)) * 0.5) ((((t.data.v0 + t.data.v1) * 0.5) + t.data.v1) * 0.5)) := by
  rw [splitKids_slot2, gen_init_worldCenter]

theorem splitKids_center3 (radius : ℝ) (t : QNode) (st : UState) :
    ((splitKids radius (fun _ _ => 0) t st).1 3).data.worldCenter
      = Vec3.smul radius (ChunkGenerator.facePointToSphere t.data.faceIndex
          ((((t.data.u0 + t.data.u1) * 0.5) + t.data.u1) * 0.5) ((((t.data.v0 + t.data.v1) * 0.5) + t.data.v1) * 0.5)) := by
  rw [splitKids_slot3, gen_init_worldCenter]

end CubesphereBody


namespace CubesphereBody

/-- Conditions of the C3 step contract survive one `stepNodes` iteration. -/
theorem stepNodes_post {ι : Type} [DecidableEq ι]
    (f : QNode → ℕ → UState → QNode × ℕ × UState) (hstep : C3Step f)
    (acc : (ι → QNode) × ℕ × UState) (i : ι)
    (hT : ∀ j, TreeKnown acc.2.2 (acc.1 j) ∧ IntMeshFree (acc.1 j))
    (hD : DeferredKnown acc.2.2) (hP : PendZero acc.2.2) :
    (∀ j, TreeKnown (stepNodes f acc i).2.2 ((stepNodes f acc i).1 j)
      ∧ IntMeshFree ((stepNodes f acc i).1 j)) ∧
    DeferredKnown (stepNodes f acc i).2.2 ∧
    PendZero (stepNodes f acc i).2.2 ∧
    Evolves acc.2.2 (stepNodes f acc i).2.2 := by
  obtain ⟨hEv, hTK, hDK, hPZ, hIM, _⟩ :=
    hstep (acc.1 i) acc.2.1 acc.2.2 (hT i).1 hD hP (hT i).2
  have hstep1 : (stepNodes f acc i).1
      = fun j => if j = i then (f (acc.1 i) acc.2.1 acc.2.2).1
          else acc.1 j := rfl
  have hstep2 : (stepNodes f acc i).2.2
      = (f (acc.1 i) acc.2.1 acc.2.2).2.2 := rfl
  refine ⟨?_, by rw [hstep2]; exact hDK, by rw [hstep2]; exact hPZ,
    by rw [hstep2]; exact hEv⟩
  intro j
  rw [hstep1, hstep2]
  by_cases hji : j = i
  · simp only [if_pos hji]
    exact ⟨hTK, hIM⟩
  · simp only [if_neg hji]
    exact ⟨treeKnown_mono hEv _ (hT j).1, (hT j).2⟩

/-- A split strictly extends the deferred-destroy list: the parent mesh is
pushed and the recursion only appends. -/
theorem splitNode_deferred_len (radius : ℝ) (hf : ℝ → ℝ → ℝ) (cam : Vec3)
    (f : QNode → ℕ → UState → QNode × ℕ × UState) (hstep : C3Step f)
    (t : QNode) (budget : ℕ) (st : UState)
    (hTK : TreeKnown st t) (hDK : DeferredKnown st) (hPZ : PendZero st)
    (m : ℕ) (hm : t.data.mesh = some m) :
    st.deferred.length + 1
      ≤ (splitNode radius hf cam f t budget st).2.2.deferred.length := by
  rw [splitNode_state]
  obtain ⟨eks, dks, pks, fks, tks⟩ := splitKids_C3 radius hf t st
  have hpd : (pushParentMesh t (splitKids radius hf t st).2).deferred
      = (splitKids radius hf t st).2.deferred ++ [m] := by
    unfold pushParentMesh
    rw [hm]
  have ep : Evolves (splitKids radius hf t st).2
      (pushParentMesh t (splitKids radius hf t st).2) :=
    pushParentMesh_evolves t _
  have hDK1 : DeferredKnown (pushParentMesh t (splitKids radius hf t st).2) :=
    pushParentMesh_deferredKnown t _ (deferredKnown_evolve_of_eq eks dks hDK)
      (treeKnown_mono eks t hTK)
  have hPZ1 : PendZero (pushParentMesh t (splitKids radius hf t st).2) :=
    pushParentMesh_pendZero t _ pks
  have hT1 : ∀ i, TreeKnown (pushParentMesh t (splitKids radius hf t st).2)
      ((splitKids radius hf t st).1 i)
      ∧ IntMeshFree ((splitKids radius hf t st).1 i) :=
    fun i => ⟨treeKnown_mono ep _ (tks i).1, (tks i).2⟩
  obtain ⟨ihEv, _, _, _, _⟩ := foldNodes_evolve f hstep
    (splitOrder cam (splitKids radius hf t st).1)
    ((splitKids radius hf t st).1, budget - 4,
      pushParentMesh t (splitKids radius hf t st).2) hT1 hDK1 hPZ1
  have h1 := ihEv.deferred_prefix_len
  rw [hpd, dks, List.length_append] at h1
  simp only [List.length_singleton] at h1
  exact h1

/-- The conditions of the C3 step contract hold at the start of a frame on
the constructor state. -/
theorem c4_start_conditions :
    ∀ i, TreeKnown { (initialBody 1737400 fun _ _ => 0).2 with
        activeNodes := 0, batchCount := 0, pending := [],
        staging := StagingBatch.begin (MESHES_PER_BATCH * BYTES_PER_MESH) }
      ((initialBody 1737400 fun _ _ => 0).1 i) ∧
    IntMeshFree ((initialBody 1737400 fun _ _ => 0).1 i) := by
  obtain ⟨hT, hIM, _⟩ := initialBody_C3 1737400 (fun _ _ => 0)
  intro i
  refine ⟨?_, hIM i⟩
  intro m hm
  exact Or.inl (hT i m hm)

theorem c4_root_rep0 :
    ∃ st, (initialBody 1737400 fun _ _ => 0).1 0
      = (generateMeshBatched 1737400 (fun _ _ => 0)
          (initNode 1737400 0 (-1) 1 (-1) 1 0) st).1 := by
  unfold initialBody
  dsimp only
  exact ⟨_, rfl⟩

theorem c4_center0 :
    ((initialBody 1737400 fun _ _ => 0).1 0).data.worldCenter
      = Vec3.smul 1737400 (ChunkGenerator.facePointToSphere 0 0 0) := by
  obtain ⟨st, hrep⟩ := c4_root_rep0
  rw [hrep, gen_init_worldCenter]
  norm_num

theorem c4_root_rep1 :
    ∃ st, (initialBody 1737400 fun _ _ => 0).1 1
      = (generateMeshBatched 1737400 (fun _ _ => 0)
          (initNode 1737400 1 (-1) 1 (-1) 1 0) st).1 := by
  unfold initialBody
  dsimp only
  exact ⟨_, rfl⟩

theorem c4_center1 :
    ((initialBody 1737400 fun _ _ => 0).1 1).data.worldCenter
      = Vec3.smul 1737400 (ChunkGenerator.facePointToSphere 1 0 0) := by
  obtain ⟨st, hrep⟩ := c4_root_rep1
  rw [hrep, gen_init_worldCenter]
  norm_num

theorem c4_root_rep2 :
    ∃ st, (initialBody 1737400 fun _ _ => 0).1 2
      = (generateMeshBatched 1737400 (fun _ _ => 0)
          (initNode 1737400 2 (-1) 1 (-1) 1 0) st).1 := by
  unfold initialBody
  dsimp only
  exact ⟨_, rfl⟩

theorem c4_center2 :
    ((initialBody 1737400 fun _ _ => 0).1 2).data.worldCenter
      = Vec3.smul 1737400 (ChunkGenerator.facePointToSphere 2 0 0) := by
  obtain ⟨st, hrep⟩ := c4_root_rep2
  rw [hrep, gen_init_worldCenter]
  norm_num

theorem c4_root_rep3 :
    ∃ st, (initialBody 1737400 fun _ _ => 0).1 3
      = (generateMeshBatched 1737400 (fun _ _ => 0)
          (initNode 1737400 3 (-1) 1 (-1) 1 0) st).1 := by
  unfold initialBody
  dsimp only
  exact ⟨_, rfl⟩

theorem c4_center3 :
    ((initialBody 1737400 fun _ _ => 0).1 3).data.worldCenter
      = Vec3.smul 1737400 (ChunkGenerator.facePointToSphere 3 0 0) := by
  obtain ⟨st, hrep⟩ := c4_root_rep3
  rw [hrep, gen_init_worldCenter]
  norm_num

theorem c4_root_rep4 :
    ∃ st, (initialBody 1737400 fun _ _ => 0).1 4
      = (generateMeshBatched 1737400 (fun _ _ => 0)
          (initNode 1737400 4 (-1) 1 (-1) 1 0) st).1 := by
  unfold initialBody
  dsimp only
  exact ⟨_, rfl⟩

theorem c4_center4 :
    ((initialBody 1737400 fun _ _ => 0).1 4).data.worldCenter
      = Vec3.smul 1737400 (ChunkGenerator.facePointToSphere 4 0 0) := by
  obtain ⟨st, hrep⟩ := c4_root_rep4
  rw [hrep, gen_init_worldCenter]
  norm_num

theorem c4_root_rep5 :
    ∃ st, (initialBody 1737400 fun _ _ => 0).1 5
      = (generateMeshBatched 1737400 (fun _ _ => 0)
          (initNode 1737400 5 (-1) 1 (-1) 1 0) st).1 := by
  unfold initialBody
  dsimp only
  exact ⟨_, rfl⟩

theorem c4_center5 :
    ((initialBody 1737400 fun _ _ => 0).1 5).data.worldCenter
      = Vec3.smul 1737400 (ChunkGenerator.facePointToSphere 5 0 0) := by
  obtain ⟨st, hrep⟩ := c4_root_rep5
  rw [hrep, gen_init_worldCenter]
  norm_num

end CubesphereBody


namespace CubesphereBody

theorem c4_root0_guard :
    ((initialBody 1737400 fun _ _ => 0).1 0).isLeaf = true ∧
    585000 ≤ ((initialBody 1737400 fun _ _ => 0).1 0).data.boundingRadius ∧
    ((initialBody 1737400 fun _ _ => 0).1 0).data.boundingRadius ≤ 3500000 ∧
    ((initialBody 1737400 fun _ _ => 0).1 0).data.depth = 0 ∧
    ∃ m, ((initialBody 1737400 fun _ _ => 0).1 0).data.mesh = some m := by
  obtain ⟨st, hrep⟩ := c4_root_rep0
  rw [hrep]
  refine ⟨?_, ?_, ?_, ?_, ?_⟩
  · rw [generateMeshBatched_isLeaf]
    exact initNode_isLeaf _ _ _ _ _ _ _
  · rw [(generateMeshBatched_fields _ _ _ _).2.2.2.2.2]
    have h := initNode_br_ge 1737400 0 (-1) 1 (-1) 1 0
      ((-1 : ℝ), (-1 : ℝ)) (by simp)
    rw [show ((-1 : ℝ) + 1) * 0.5 = 0 from by norm_num] at h
    dsimp only at h
    have h2 := c4_root_corner_ge
    unfold MAX_TERRAIN_DISPLACEMENT at h
    linarith
  · rw [(generateMeshBatched_fields _ _ _ _).2.2.2.2.2]
    have h := initNode_br_le 1737400 0 (-1) 1 (-1) 1 0 (by norm_num)
    unfold MAX_TERRAIN_DISPLACEMENT at h
    linarith
  · rw [generateMeshBatched_depth]
    exact initNode_depth _ _ _ _ _ _ _
  · exact ⟨_, by rw [generateMeshBatched_data]⟩

theorem c4_root0_fields :
    ((initialBody 1737400 fun _ _ => 0).1 0).data.faceIndex = 0 ∧
    ((initialBody 1737400 fun _ _ => 0).1 0).data.u0 = -1 ∧
    ((initialBody 1737400 fun _ _ => 0).1 0).data.u1 = 1 ∧
    ((initialBody 1737400 fun _ _ => 0).1 0).data.v0 = -1 ∧
    ((initialBody 1737400 fun _ _ => 0).1 0).data.v1 = 1 := by
  obtain ⟨st, hrep⟩ := c4_root_rep0
  rw [hrep]
  obtain ⟨h1, h2, h3, h4, h5, _⟩ := generateMeshBatched_fields 1737400
    (fun _ _ => 0) (initNode 1737400 0 (-1) 1 (-1) 1 0) st
  obtain ⟨g1, g2, g3, g4, g5, _⟩ := initNode_data_rect 1737400 0 (-1) 1 (-1) 1 0
  exact ⟨by rw [h1, g1], by rw [h2, g2], by rw [h3, g3], by rw [h4, g4],
    by rw [h5, g5]⟩

theorem c4_kid0_facts (t : QNode) (st : UState)
    (hfc : t.data.faceIndex = 0) (hu0 : t.data.u0 = -1) (hu1 : t.data.u1 = 1)
    (hv0 : t.data.v0 = -1) (hv1 : t.data.v1 = 1) (hd : t.data.depth = 0) :
    ((splitKids 1737400 (fun _ _ => 0) t st).1 0).isLeaf = true ∧
    ((splitKids 1737400 (fun _ _ => 0) t st).1 0).data.worldCenter
      = Vec3.smul 1737400
        (ChunkGenerator.facePointToSphere 0 (-(1/2)) (-(1/2))) ∧
    585000 ≤ ((splitKids 1737400 (fun _ _ => 0) t st).1 0).data.boundingRadius ∧
    ((splitKids 1737400 (fun _ _ => 0) t st).1 0).data.boundingRadius
      ≤ 3500000 ∧
    ((splitKids 1737400 (fun _ _ => 0) t st).1 0).data.depth = 1 ∧
    ∃ m, ((splitKids 1737400 (fun _ _ => 0) t st).1 0).data.mesh = some m := by
  rw [splitKids_slot0, hfc, hu0, hu1, hv0, hv1, hd]
  rw [show ((-1 : ℝ) + 1) * 0.5 = 0 from by norm_num]
  rw [show (0 : ℕ) + 1 = 1 from rfl]
  refine ⟨?_, ?_, ?_, ?_, ?_, ?_⟩
  · rw [generateMeshBatched_isLeaf]
    exact initNode_isLeaf _ _ _ _ _ _ _
  · rw [gen_init_worldCenter]
    norm_num
  · rw [(generateMeshBatched_fields _ _ _ _).2.2.2.2.2]
    have h := initNode_br_ge 1737400 0 (-1) 0 (-1) 0 1
      ((-1 : ℝ), (-1 : ℝ)) (by simp)
    rw [show ((-1 : ℝ) + 0) * 0.5 = -(1/2) from by norm_num] at h
    dsimp only at h
    have h2 := c4_kid_corner_ge
    unfold MAX_TERRAIN_DISPLACEMENT at h
    linarith
  · rw [(generateMeshBatched_fields _ _ _ _).2.2.2.2.2]
    have h := initNode_br_le 1737400 0 (-1) 0 (-1) 0 1 (by norm_num)
    unfold MAX_TERRAIN_DISPLACEMENT at h
    linarith
  · rw [generateMeshBatched_depth]
    exact initNode_depth _ _ _ _ _ _ _
  · exact ⟨_, by rw [generateMeshBatched_data]⟩

theorem c4_kid_centers (t : QNode) (st : UState)
    (hfc : t.data.faceIndex = 0) (hu0 : t.data.u0 = -1) (hu1 : t.data.u1 = 1)
    (hv0 : t.data.v0 = -1) (hv1 : t.data.v1 = 1) :
    ((splitKids 1737400 (fun _ _ => 0) t st).1 0).data.worldCenter
      = Vec3.smul 1737400
        (ChunkGenerator.facePointToSphere 0 (-(1/2)) (-(1/2))) ∧
    ((splitKids 1737400 (fun _ _ => 0) t st).1 1).data.worldCenter
      = Vec3.smul 1737400
        (ChunkGenerator.facePointToSphere 0 (1/2) (-(1/2))) ∧
    ((splitKids 1737400 (fun _ _ => 0) t st).1 2).data.worldCenter
      = Vec3.smul 1737400
        (ChunkGenerator.facePointToSphere 0 (-(1/2)) (1/2)) ∧
    ((splitKids 1737400 (fun _ _ => 0) t st).1 3).data.worldCenter
      = Vec3.smul 1737400
        (ChunkGenerator.facePointToSphere 0 (1/2) (1/2)) := by
  refine ⟨?_, ?_, ?_, ?_⟩
  · rw [splitKids_center0, hfc, hu0, hu1, hv0, hv1]
    norm_num
  · rw [splitKids_center1, hfc, hu0, hu1, hv0, hv1]
    norm_num
  · rw [splitKids_center2, hfc, hu0, hu1, hv0, hv1]
    norm_num
  · rw [splitKids_center3, hfc, hu0, hu1, hv0, hv1]
    norm_num

theorem sortLT_eval4 (lt : Fin 4 → Fin 4 → Prop)
    (h32 : ¬ lt 3 2) (h21 : ¬ lt 2 1) (h10 : ¬ lt 1 0) :
    sortLT lt [0, 1, 2, 3] = [0, 1, 2, 3] := by
  have e3 : insLT lt 3 [] = [3] := by rw [insLT]
  have e2 : insLT lt 2 [3] = [2, 3] := by rw [insLT, if_neg h32]
  have e1 : insLT lt 1 [2, 3] = [1, 2, 3] := by rw [insLT, if_neg h21]
  have e0 : insLT lt 0 [1, 2, 3] = [0, 1, 2, 3] := by rw [insLT, if_neg h10]
  rw [sortLT, sortLT, sortLT, sortLT, sortLT, e3, e2, e1, e0]

theorem sortLT_eval6 (lt : Fin 6 → Fin 6 → Prop)
    (h54 : ¬ lt 5 4) (h43 : ¬ lt 4 3) (h32 : ¬ lt 3 2)
    (h21 : lt 2 1) (h31 : lt 3 1) (h41 : lt 4 1) (h51 : lt 5 1)
    (h20 : ¬ lt 2 0) :
    sortLT lt [0, 1, 2, 3, 4, 5] = [0, 2, 3, 4, 5, 1] := by
  have e5 : insLT lt 5 [] = [5] := by rw [insLT]
  have e4 : insLT lt 4 [5] = [4, 5] := by rw [insLT, if_neg h54]
  have e3 : insLT lt 3 [4, 5] = [3, 4, 5] := by rw [insLT, if_neg h43]
  have e2 : insLT lt 2 [3, 4, 5] = [2, 3, 4, 5] := by rw [insLT, if_neg h32]
  have e1 : insLT lt 1 [2, 3, 4, 5] = [2, 3, 4, 5, 1] := by
    rw [insLT, if_pos h21, insLT, if_pos h31, insLT, if_pos h41, insLT,
      if_pos h51, insLT]
  have e0 : insLT lt 0 [2, 3, 4, 5, 1] = [0, 2, 3, 4, 5, 1] := by
    rw [insLT, if_neg h20]
  rw [sortLT, sortLT, sortLT, sortLT, sortLT, sortLT, sortLT, e5, e4, e3, e2,
    e1, e0]

theorem c4_kid_order (t : QNode) (st : UState)
    (hfc : t.data.faceIndex = 0) (hu0 : t.data.u0 = -1) (hu1 : t.data.u1 = 1)
    (hv0 : t.data.v0 = -1) (hv1 : t.data.v1 = 1) :
    splitOrder lunarCam (splitKids 1737400 (fun _ _ => 0) t st).1
      = [0, 1, 2, 3] := by
  obtain ⟨hc0, hc1, hc2, hc3⟩ := c4_kid_centers t st hfc hu0 hu1 hv0 hv1
  have h32 : ¬ ((Vec3.sub
      ((splitKids 1737400 (fun _ _ => 0) t st).1 3).data.worldCenter
        lunarCam).length
    < (Vec3.sub
      ((splitKids 1737400 (fun _ _ => 0) t st).1 2).data.worldCenter
        lunarCam).length) := by
    rw [hc3, hc2,
      c4_kid_dist_eq (1/2) (1/2) (-(1/2)) (1/2) (by norm_num) (by norm_num)]
    exact lt_irrefl _
  have h21 : ¬ ((Vec3.sub
      ((splitKids 1737400 (fun _ _ => 0) t st).1 2).data.worldCenter
        lunarCam).length
    < (Vec3.sub
      ((splitKids 1737400 (fun _ _ => 0) t st).1 1).data.worldCenter
        lunarCam).length) := by
    rw [hc2, hc1,
      c4_kid_dist_eq (-(1/2)) (1/2) (1/2) (-(1/2)) (by norm_num) (by norm_num)]
    exact lt_irrefl _
  have h10 : ¬ ((Vec3.sub
      ((splitKids 1737400 (fun _ _ => 0) t st).1 1).data.worldCenter
        lunarCam).length
    < (Vec3.sub
      ((splitKids 1737400 (fun _ _ => 0) t st).1 0).data.worldCenter
        lunarCam).length) := by
    rw [hc1, hc0,
      c4_kid_dist_eq (1/2) (-(1/2)) (-(1/2)) (-(1/2)) (by norm_num)
        (by norm_num)]
    exact lt_irrefl _
  unfold splitOrder
  exact sortLT_eval4 _ h32 h21 h10

theorem c4_face_order :
    sortLT (fun a b : Fin 6 =>
        (Vec3.sub ((initialBody 1737400 fun _ _ => 0).1 a).data.worldCenter
          lunarCam).length
        < (Vec3.sub ((initialBody 1737400 fun _ _ => 0).1 b).data.worldCenter
          lunarCam).length)
      [0, 1, 2, 3, 4, 5] = [0, 2, 3, 4, 5, 1] := by
  have hc0 := c4_center0
  have hc1 := c4_center1
  have hc2 := c4_center2
  have hc3 := c4_center3
  have hc4 := c4_center4
  have hc5 := c4_center5
  have h54 : ¬ ((Vec3.sub
      ((initialBody 1737400 fun _ _ => 0).1 5).data.worldCenter
        lunarCam).length
    < (Vec3.sub ((initialBody 1737400 fun _ _ => 0).1 4).data.worldCenter
        lunarCam).length) := by
    rw [hc5, hc4, c4_dist_eq_54]
    exact lt_irrefl _
  have h43 : ¬ ((Vec3.sub
      ((initialBody 1737400 fun _ _ => 0).1 4).data.worldCenter
        lunarCam).length
    < (Vec3.sub ((initialBody 1737400 fun _ _ => 0).1 3).data.worldCenter
        lunarCam).length) := by
    rw [hc4, hc3, c4_dist_eq_43]
    exact lt_irrefl _
  have h32 : ¬ ((Vec3.sub
      ((initialBody 1737400 fun _ _ => 0).1 3).data.worldCenter
        lunarCam).length
    < (Vec3.sub ((initialBody 1737400 fun _ _ => 0).1 2).data.worldCenter
        lunarCam).length) := by
    rw [hc3, hc2, c4_dist_eq_32]
    exact lt_irrefl _
  have h21 : (Vec3.sub
      ((initialBody 1737400 fun _ _ => 0).1 2).data.worldCenter
        lunarCam).length
    < (Vec3.sub ((initialBody 1737400 fun _ _ => 0).1 1).data.worldCenter
        lunarCam).length := by
    rw [hc2, hc1]
    exact c4_dist_21
  have h31 : (Vec3.sub
      ((initialBody 1737400 fun _ _ => 0).1 3).data.worldCenter
        lunarCam).length
    < (Vec3.sub ((initialBody 1737400 fun _ _ => 0).1 1).data.worldCenter
        lunarCam).length := by
    rw [hc3, hc1, c4_dist_eq_32]
    exact c4_dist_21
  have h41 : (Vec3.sub
      ((initialBody 1737400 fun _ _ => 0).1 4).data.worldCenter
        lunarCam).length
    < (Vec3.sub ((initialBody 1737400 fun _ _ => 0).1 1).data.worldCenter
        lunarCam).length := by
    rw [hc4, hc1, c4_dist_eq_43, c4_dist_eq_32]
    exact c4_dist_21
  have h51 : (Vec3.sub
      ((initialBody 1737400 fun _ _ => 0).1 5).data.worldCenter
        lunarCam).length
    < (Vec3.sub ((initialBody 1737400 fun _ _ => 0).1 1).data.worldCenter
        lunarCam).length := by
    rw [hc5, hc1, c4_dist_eq_54, c4_dist_eq_43, c4_dist_eq_32]
    exact c4_dist_21
  have h20 : ¬ ((Vec3.sub
      ((initialBody 1737400 fun _ _ => 0).1 2).data.worldCenter
        lunarCam).length
    < (Vec3.sub ((initialBody 1737400 fun _ _ => 0).1 0).data.worldCenter
        lunarCam).length) := by
    rw [hc2, hc0]
    exact not_lt.mpr (le_of_lt c4_dist_02)
  exact sortLT_eval6 _ h54 h43 h32 h21 h31 h41 h51 h20

end CubesphereBody


namespace CubesphereBody

theorem c4_main :
    (((update 1737400 (fun _ _ => 0) (initialBody 1737400 fun _ _ => 0).1
        (initialBody 1737400 fun _ _ => 0).2 lunarCam lunarFov 720
        fun _ _ => 0).1 0).isLeaf = false) ∧
    (∃ c, ((update 1737400 (fun _ _ => 0) (initialBody 1737400 fun _ _ => 0).1
        (initialBody 1737400 fun _ _ => 0).2 lunarCam lunarFov 720
        fun _ _ => 0).1 0).child 0 = .node c ∧ c.isLeaf = false) ∧
    ∃ pre D,
      (update 1737400 (fun _ _ => 0) (initialBody 1737400 fun _ _ => 0).1
        (initialBody 1737400 fun _ _ => 0).2 lunarCam lunarFov 720
        fun _ _ => 0).2.events = pre ++ [.destroy D] ∧ 2 ≤ D.length := by
  obtain ⟨hTc, hIMc, hdefc⟩ := initialBody_C3 1737400 (fun _ _ => 0)
  obtain ⟨hrl0, hbr0l, hbr0u, hd0, m0, hm0⟩ := c4_root0_guard
  obtain ⟨hfc0, hu00, hu10, hv00, hv10⟩ := c4_root0_fields
  have hc0 := c4_center0
  unfold update
  dsimp only
  rw [c4_face_order]
  set st1 : UState :=
    { (initialBody 1737400 fun _ _ => 0).2 with
        activeNodes := 0, batchCount := 0, pending := [],
        staging := StagingBatch.begin (MESHES_PER_BATCH * BYTES_PER_MESH) }
    with hst1
  set f16 := fun a b s =>
    updateNode 1737400 (fun _ _ => 0) lunarCam lunarFov 720
      (extractFrustumPlanes fun _ _ => 0) (MAX_DEPTH + 1) a b s with hf16
  set f15 := fun a b s =>
    updateNode 1737400 (fun _ _ => 0) lunarCam lunarFov 720
      (extractFrustumPlanes fun _ _ => 0) MAX_DEPTH a b s with hf15
  set f14 := fun a b s =>
    updateNode 1737400 (fun _ _ => 0) lunarCam lunarFov 720
      (extractFrustumPlanes fun _ _ => 0) 14 a b s with hf14
  have hstep16 : C3Step f16 := by
    rw [hf16]
    exact updateNode_C3 1737400 (fun _ _ => 0) lunarCam lunarFov 720
      (extractFrustumPlanes fun _ _ => 0) (MAX_DEPTH + 1)
  have hstep15 : C3Step f15 := by
    rw [hf15]
    exact updateNode_C3 1737400 (fun _ _ => 0) lunarCam lunarFov 720
      (extractFrustumPlanes fun _ _ => 0) MAX_DEPTH
  have hstep14 : C3Step f14 := by
    rw [hf14]
    exact updateNode_C3 1737400 (fun _ _ => 0) lunarCam lunarFov 720
      (extractFrustumPlanes fun _ _ => 0) 14
  have hguard0 : sphereInFrustumP (extractFrustumPlanes fun _ _ => 0)
      (Vec3.sub ((initialBody 1737400 fun _ _ => 0).1 0).data.worldCenter lunarCam) ((initialBody 1737400 fun _ _ => 0).1 0).data.boundingRadius
    ∧ screenErrorOf ((initialBody 1737400 fun _ _ => 0).1 0).data.boundingRadius
        (Vec3.sub ((initialBody 1737400 fun _ _ => 0).1 0).data.worldCenter lunarCam).length lunarFov 720
      > SPLIT_THRESHOLD
    ∧ ((initialBody 1737400 fun _ _ => 0).1 0).data.depth < MAX_DEPTH
    ∧ MAX_SPLITS_PER_FRAME ≥ 4 := by
    refine ⟨visible_zero_vp _ _ (by linarith), ?_, ?_,
      by norm_num [MAX_SPLITS_PER_FRAME]⟩
    · have h4 := screenError_gt4 ((initialBody 1737400 fun _ _ => 0).1 0).data.boundingRadius
        (Vec3.sub ((initialBody 1737400 fun _ _ => 0).1 0).data.worldCenter lunarCam).length hbr0l hbr0u
        (by rw [hc0]; exact c4_root_dist_le)
      unfold SPLIT_THRESHOLD
      linarith
    · rw [hd0]
      norm_num [MAX_DEPTH]
  have heq0 : updateNode 1737400 (fun _ _ => 0) lunarCam lunarFov 720
      (extractFrustumPlanes fun _ _ => 0) (MAX_DEPTH + 1) ((initialBody 1737400 fun _ _ => 0).1 0)
      MAX_SPLITS_PER_FRAME st1
      = splitNode 1737400 (fun _ _ => 0) lunarCam f15 ((initialBody 1737400 fun _ _ => 0).1 0)
        MAX_SPLITS_PER_FRAME st1 := by
    rw [hf15]
    exact updateNode_splits 1737400 (fun _ _ => 0) lunarCam lunarFov 720
      (extractFrustumPlanes fun _ _ => 0) MAX_DEPTH ((initialBody 1737400 fun _ _ => 0).1 0)
      MAX_SPLITS_PER_FRAME st1 hrl0 hguard0
  obtain ⟨hkl, hkc, hkbrl, hkbru, hkd, mk0, hmk0⟩ := c4_kid0_facts
    ((initialBody 1737400 fun _ _ => 0).1 0) st1 hfc0 hu00 hu10 hv00 hv10 hd0
  have horderK := c4_kid_order ((initialBody 1737400 fun _ _ => 0).1 0) st1 hfc0 hu00 hu10 hv00 hv10
  have hguardK : sphereInFrustumP (extractFrustumPlanes fun _ _ => 0)
      (Vec3.sub ((splitKids 1737400 (fun _ _ => 0) ((initialBody 1737400 fun _ _ => 0).1 0) st1).1 0).data.worldCenter lunarCam) ((splitKids 1737400 (fun _ _ => 0) ((initialBody 1737400 fun _ _ => 0).1 0) st1).1 0).data.boundingRadius
    ∧ screenErrorOf ((splitKids 1737400 (fun _ _ => 0) ((initialBody 1737400 fun _ _ => 0).1 0) st1).1 0).data.boundingRadius
        (Vec3.sub ((splitKids 1737400 (fun _ _ => 0) ((initialBody 1737400 fun _ _ => 0).1 0) st1).1 0).data.worldCenter lunarCam).length lunarFov 720
      > SPLIT_THRESHOLD
    ∧ ((splitKids 1737400 (fun _ _ => 0) ((initialBody 1737400 fun _ _ => 0).1 0) st1).1 0).data.depth < MAX_DEPTH
    ∧ MAX_SPLITS_PER_FRAME - 4 ≥ 4 := by
    refine ⟨visible_zero_vp _ _ (by linarith), ?_, ?_,
      by norm_num [MAX_SPLITS_PER_FRAME]⟩
    · have h4 := screenError_gt4 ((splitKids 1737400 (fun _ _ => 0) ((initialBody 1737400 fun _ _ => 0).1 0) st1).1 0).data.boundingRadius
        (Vec3.sub ((splitKids 1737400 (fun _ _ => 0) ((initialBody 1737400 fun _ _ => 0).1 0) st1).1 0).data.worldCenter lunarCam).length hkbrl hkbru
        (by rw [hkc]; exact c4_kid_dist_le)
      unfold SPLIT_THRESHOLD
      linarith
    · rw [hkd]
      norm_num [MAX_DEPTH]
  have heqK : updateNode 1737400 (fun _ _ => 0) lunarCam lunarFov 720
      (extractFrustumPlanes fun _ _ => 0) MAX_DEPTH ((splitKids 1737400 (fun _ _ => 0) ((initialBody 1737400 fun _ _ => 0).1 0) st1).1 0)
      (MAX_SPLITS_PER_FRAME - 4) (pushParentMesh ((initialBody 1737400 fun _ _ => 0).1 0) (splitKids 1737400 (fun _ _ => 0) ((initialBody 1737400 fun _ _ => 0).1 0) st1).2)
      = splitNode 1737400 (fun _ _ => 0) lunarCam f14 ((splitKids 1737400 (fun _ _ => 0) ((initialBody 1737400 fun _ _ => 0).1 0) st1).1 0)
        (MAX_SPLITS_PER_FRAME - 4) (pushParentMesh ((initialBody 1737400 fun _ _ => 0).1 0) (splitKids 1737400 (fun _ _ => 0) ((initialBody 1737400 fun _ _ => 0).1 0) st1).2) := by
    rw [hf14]
    rw [show (MAX_DEPTH : ℕ) = 14 + 1 from rfl]
    exact updateNode_splits 1737400 (fun _ _ => 0) lunarCam lunarFov 720
      (extractFrustumPlanes fun _ _ => 0) 14 ((splitKids 1737400 (fun _ _ => 0) ((initialBody 1737400 fun _ _ => 0).1 0) st1).1 0)
      (MAX_SPLITS_PER_FRAME - 4) (pushParentMesh ((initialBody 1737400 fun _ _ => 0).1 0) (splitKids 1737400 (fun _ _ => 0) ((initialBody 1737400 fun _ _ => 0).1 0) st1).2) hkl hguardK
  have hslot0 : (([0, 2, 3, 4, 5, 1] : List (Fin 6)).foldl (stepNodes f16)
      ((initialBody 1737400 fun _ _ => 0).1, MAX_SPLITS_PER_FRAME, st1)).1 0
      = (f16 ((initialBody 1737400 fun _ _ => 0).1 0) MAX_SPLITS_PER_FRAME st1).1 := by
    have h1 : ([0, 2, 3, 4, 5, 1] : List (Fin 6)).foldl (stepNodes f16) ((initialBody 1737400 fun _ _ => 0).1, MAX_SPLITS_PER_FRAME, st1)
        = [2, 3, 4, 5, 1].foldl (stepNodes f16)
          (stepNodes f16 ((initialBody 1737400 fun _ _ => 0).1, MAX_SPLITS_PER_FRAME, st1) 0) := rfl
    rw [h1, foldNodes_keep f16 [2, 3, 4, 5, 1] _ 0 (by decide)]
    rfl
  have hres0 : (f16 ((initialBody 1737400 fun _ _ => 0).1 0) MAX_SPLITS_PER_FRAME st1).1
      = (splitNode 1737400 (fun _ _ => 0) lunarCam f15 ((initialBody 1737400 fun _ _ => 0).1 0)
          MAX_SPLITS_PER_FRAME st1).1 := congrArg Prod.fst heq0
  have hkfold : (([0, 1, 2, 3] : List (Fin 4)).foldl (stepNodes f15)
      ((splitKids 1737400 (fun _ _ => 0) ((initialBody 1737400 fun _ _ => 0).1 0) st1).1, MAX_SPLITS_PER_FRAME - 4, (pushParentMesh ((initialBody 1737400 fun _ _ => 0).1 0) (splitKids 1737400 (fun _ _ => 0) ((initialBody 1737400 fun _ _ => 0).1 0) st1).2))).1 0
      = (f15 ((splitKids 1737400 (fun _ _ => 0) ((initialBody 1737400 fun _ _ => 0).1 0) st1).1 0) (MAX_SPLITS_PER_FRAME - 4) (pushParentMesh ((initialBody 1737400 fun _ _ => 0).1 0) (splitKids 1737400 (fun _ _ => 0) ((initialBody 1737400 fun _ _ => 0).1 0) st1).2)).1 := by
    have h1 : ([0, 1, 2, 3] : List (Fin 4)).foldl (stepNodes f15) ((splitKids 1737400 (fun _ _ => 0) ((initialBody 1737400 fun _ _ => 0).1 0) st1).1, MAX_SPLITS_PER_FRAME - 4, (pushParentMesh ((initialBody 1737400 fun _ _ => 0).1 0) (splitKids 1737400 (fun _ _ => 0) ((initialBody 1737400 fun _ _ => 0).1 0) st1).2))
        = [1, 2, 3].foldl (stepNodes f15) (stepNodes f15 ((splitKids 1737400 (fun _ _ => 0) ((initialBody 1737400 fun _ _ => 0).1 0) st1).1, MAX_SPLITS_PER_FRAME - 4, (pushParentMesh ((initialBody 1737400 fun _ _ => 0).1 0) (splitKids 1737400 (fun _ _ => 0) ((initialBody 1737400 fun _ _ => 0).1 0) st1).2)) 0) := rfl
    rw [h1, foldNodes_keep f15 [1, 2, 3] _ 0 (by decide)]
    rfl
  have hresK : (f15 ((splitKids 1737400 (fun _ _ => 0) ((initialBody 1737400 fun _ _ => 0).1 0) st1).1 0) (MAX_SPLITS_PER_FRAME - 4) (pushParentMesh ((initialBody 1737400 fun _ _ => 0).1 0) (splitKids 1737400 (fun _ _ => 0) ((initialBody 1737400 fun _ _ => 0).1 0) st1).2)).1
      = (splitNode 1737400 (fun _ _ => 0) lunarCam f14 ((splitKids 1737400 (fun _ _ => 0) ((initialBody 1737400 fun _ _ => 0).1 0) st1).1 0)
          (MAX_SPLITS_PER_FRAME - 4) (pushParentMesh ((initialBody 1737400 fun _ _ => 0).1 0) (splitKids 1737400 (fun _ _ => 0) ((initialBody 1737400 fun _ _ => 0).1 0) st1).2)).1 := congrArg Prod.fst heqK
  obtain ⟨eks, dks, pks, fks, tks⟩ :=
    splitKids_C3 1737400 (fun _ _ => 0) ((initialBody 1737400 fun _ _ => 0).1 0) st1
  have hDK1 : DeferredKnown st1 := by
    intro m hm
    have hm2 : m ∈ (initialBody 1737400 fun _ _ => 0).2.deferred := hm
    rw [hdefc] at hm2
    exact absurd hm2 (List.not_mem_nil m)
  have hPZ1 : PendZero st1 := fun _ => rfl
  have hT1 : ∀ j, TreeKnown st1 ((initialBody 1737400 fun _ _ => 0).1 j)
      ∧ IntMeshFree ((initialBody 1737400 fun _ _ => 0).1 j) :=
    c4_start_conditions
  have epp : Evolves (splitKids 1737400 (fun _ _ => 0) ((initialBody 1737400 fun _ _ => 0).1 0) st1).2 (pushParentMesh ((initialBody 1737400 fun _ _ => 0).1 0) (splitKids 1737400 (fun _ _ => 0) ((initialBody 1737400 fun _ _ => 0).1 0) st1).2) := pushParentMesh_evolves _ _
  have hDKP : DeferredKnown (pushParentMesh ((initialBody 1737400 fun _ _ => 0).1 0) (splitKids 1737400 (fun _ _ => 0) ((initialBody 1737400 fun _ _ => 0).1 0) st1).2) :=
    pushParentMesh_deferredKnown _ _
      (deferredKnown_evolve_of_eq eks dks hDK1)
      (treeKnown_mono eks _ (hT1 0).1)
  have hPZP : PendZero (pushParentMesh ((initialBody 1737400 fun _ _ => 0).1 0) (splitKids 1737400 (fun _ _ => 0) ((initialBody 1737400 fun _ _ => 0).1 0) st1).2) := pushParentMesh_pendZero _ _ pks
  have hTP : ∀ j, TreeKnown (pushParentMesh ((initialBody 1737400 fun _ _ => 0).1 0) (splitKids 1737400 (fun _ _ => 0) ((initialBody 1737400 fun _ _ => 0).1 0) st1).2) ((splitKids 1737400 (fun _ _ => 0) ((initialBody 1737400 fun _ _ => 0).1 0) st1).1 j) ∧ IntMeshFree ((splitKids 1737400 (fun _ _ => 0) ((initialBody 1737400 fun _ _ => 0).1 0) st1).1 j) :=
    fun j => ⟨treeKnown_mono epp _ (tks j).1, (tks j).2⟩
  have hkdlen := splitNode_deferred_len 1737400 (fun _ _ => 0) lunarCam f14
    hstep14 ((splitKids 1737400 (fun _ _ => 0) ((initialBody 1737400 fun _ _ => 0).1 0) st1).1 0) (MAX_SPLITS_PER_FRAME - 4) (pushParentMesh ((initialBody 1737400 fun _ _ => 0).1 0) (splitKids 1737400 (fun _ _ => 0) ((initialBody 1737400 fun _ _ => 0).1 0) st1).2) (hTP 0).1 hDKP hPZP
    mk0 hmk0
  obtain ⟨hTA, hDKA, hPZA, hEvA⟩ :=
    stepNodes_post f15 hstep15 ((splitKids 1737400 (fun _ _ => 0) ((initialBody 1737400 fun _ _ => 0).1 0) st1).1, MAX_SPLITS_PER_FRAME - 4, (pushParentMesh ((initialBody 1737400 fun _ _ => 0).1 0) (splitKids 1737400 (fun _ _ => 0) ((initialBody 1737400 fun _ _ => 0).1 0) st1).2)) 0 hTP hDKP hPZP
  obtain ⟨hEvB, hTB, hDKB, hPZB, hPhiB⟩ :=
    foldNodes_evolve f15 hstep15 [1, 2, 3] (stepNodes f15 ((splitKids 1737400 (fun _ _ => 0) ((initialBody 1737400 fun _ _ => 0).1 0) st1).1, MAX_SPLITS_PER_FRAME - 4, (pushParentMesh ((initialBody 1737400 fun _ _ => 0).1 0) (splitKids 1737400 (fun _ _ => 0) ((initialBody 1737400 fun _ _ => 0).1 0) st1).2)) 0)
      hTA hDKA hPZA
  have hstA : (stepNodes f15 ((splitKids 1737400 (fun _ _ => 0) ((initialBody 1737400 fun _ _ => 0).1 0) st1).1, MAX_SPLITS_PER_FRAME - 4, (pushParentMesh ((initialBody 1737400 fun _ _ => 0).1 0) (splitKids 1737400 (fun _ _ => 0) ((initialBody 1737400 fun _ _ => 0).1 0) st1).2)) 0).2.2
      = (splitNode 1737400 (fun _ _ => 0) lunarCam f14 ((splitKids 1737400 (fun _ _ => 0) ((initialBody 1737400 fun _ _ => 0).1 0) st1).1 0)
          (MAX_SPLITS_PER_FRAME - 4) (pushParentMesh ((initialBody 1737400 fun _ _ => 0).1 0) (splitKids 1737400 (fun _ _ => 0) ((initialBody 1737400 fun _ _ => 0).1 0) st1).2)).2.2 := by
    show (f15 ((splitKids 1737400 (fun _ _ => 0) ((initialBody 1737400 fun _ _ => 0).1 0) st1).1 0) (MAX_SPLITS_PER_FRAME - 4) (pushParentMesh ((initialBody 1737400 fun _ _ => 0).1 0) (splitKids 1737400 (fun _ _ => 0) ((initialBody 1737400 fun _ _ => 0).1 0) st1).2)).2.2 = _
    exact congrArg (fun p => p.2.2) heqK
  have hlenP : 1 ≤ ((pushParentMesh ((initialBody 1737400 fun _ _ => 0).1 0) (splitKids 1737400 (fun _ _ => 0) ((initialBody 1737400 fun _ _ => 0).1 0) st1).2)).deferred.length := by
    have hpd : ((pushParentMesh ((initialBody 1737400 fun _ _ => 0).1 0) (splitKids 1737400 (fun _ _ => 0) ((initialBody 1737400 fun _ _ => 0).1 0) st1).2)).deferred = (splitKids 1737400 (fun _ _ => 0) ((initialBody 1737400 fun _ _ => 0).1 0) st1).2.deferred ++ [m0] := by
      unfold pushParentMesh
      rw [hm0]
    rw [hpd, List.length_append]
    simp
  have hlen2 : 2 ≤ (([0, 1, 2, 3] : List (Fin 4)).foldl (stepNodes f15)
      ((splitKids 1737400 (fun _ _ => 0) ((initialBody 1737400 fun _ _ => 0).1 0) st1).1, MAX_SPLITS_PER_FRAME - 4, (pushParentMesh ((initialBody 1737400 fun _ _ => 0).1 0) (splitKids 1737400 (fun _ _ => 0) ((initialBody 1737400 fun _ _ => 0).1 0) st1).2))).2.2.deferred.length := by
    have h1 : ([0, 1, 2, 3] : List (Fin 4)).foldl (stepNodes f15) ((splitKids 1737400 (fun _ _ => 0) ((initialBody 1737400 fun _ _ => 0).1 0) st1).1, MAX_SPLITS_PER_FRAME - 4, (pushParentMesh ((initialBody 1737400 fun _ _ => 0).1 0) (splitKids 1737400 (fun _ _ => 0) ((initialBody 1737400 fun _ _ => 0).1 0) st1).2))
        = [1, 2, 3].foldl (stepNodes f15) (stepNodes f15 ((splitKids 1737400 (fun _ _ => 0) ((initialBody 1737400 fun _ _ => 0).1 0) st1).1, MAX_SPLITS_PER_FRAME - 4, (pushParentMesh ((initialBody 1737400 fun _ _ => 0).1 0) (splitKids 1737400 (fun _ _ => 0) ((initialBody 1737400 fun _ _ => 0).1 0) st1).2)) 0) := rfl
    rw [h1]
    have h2 := hEvB.deferred_prefix_len
    rw [hstA] at h2
    omega
  have hst0eq : (stepNodes f16 ((initialBody 1737400 fun _ _ => 0).1, MAX_SPLITS_PER_FRAME, st1) 0).2.2
      = (([0, 1, 2, 3] : List (Fin 4)).foldl (stepNodes f15) ((splitKids 1737400 (fun _ _ => 0) ((initialBody 1737400 fun _ _ => 0).1 0) st1).1, MAX_SPLITS_PER_FRAME - 4, (pushParentMesh ((initialBody 1737400 fun _ _ => 0).1 0) (splitKids 1737400 (fun _ _ => 0) ((initialBody 1737400 fun _ _ => 0).1 0) st1).2))).2.2 := by
    show (f16 ((initialBody 1737400 fun _ _ => 0).1 0) MAX_SPLITS_PER_FRAME st1).2.2 = _
    rw [show (f16 ((initialBody 1737400 fun _ _ => 0).1 0) MAX_SPLITS_PER_FRAME st1).2.2
      = (splitNode 1737400 (fun _ _ => 0) lunarCam f15 ((initialBody 1737400 fun _ _ => 0).1 0)
          MAX_SPLITS_PER_FRAME st1).2.2 from congrArg (fun p => p.2.2) heq0]
    rw [splitNode_state, horderK]
  obtain ⟨hTA6, hDKA6, hPZA6, hEvA6⟩ :=
    stepNodes_post f16 hstep16 ((initialBody 1737400 fun _ _ => 0).1, MAX_SPLITS_PER_FRAME, st1) 0 hT1 hDK1 hPZ1
  obtain ⟨hEvC, _, _, _, _⟩ :=
    foldNodes_evolve f16 hstep16 [2, 3, 4, 5, 1] (stepNodes f16 ((initialBody 1737400 fun _ _ => 0).1, MAX_SPLITS_PER_FRAME, st1) 0)
      hTA6 hDKA6 hPZA6
  have hlenF : 2 ≤ (([0, 2, 3, 4, 5, 1] : List (Fin 6)).foldl (stepNodes f16)
      ((initialBody 1737400 fun _ _ => 0).1, MAX_SPLITS_PER_FRAME, st1)).2.2.deferred.length := by
    have h1 : ([0, 2, 3, 4, 5, 1] : List (Fin 6)).foldl (stepNodes f16) ((initialBody 1737400 fun _ _ => 0).1, MAX_SPLITS_PER_FRAME, st1)
        = [2, 3, 4, 5, 1].foldl (stepNodes f16) (stepNodes f16 ((initialBody 1737400 fun _ _ => 0).1, MAX_SPLITS_PER_FRAME, st1) 0) := rfl
    rw [h1]
    have h2 := hEvC.deferred_prefix_len
    rw [hst0eq] at h2
    omega
  obtain ⟨pre0, hpre0⟩ := finishFrame_destroy
    ((([0, 2, 3, 4, 5, 1] : List (Fin 6)).foldl (stepNodes f16) ((initialBody 1737400 fun _ _ => 0).1, MAX_SPLITS_PER_FRAME, st1)).2.2)
  refine ⟨?_, ?_, ?_⟩
  · rw [hslot0, hres0, splitNode_isLeaf]
  · rw [hslot0, hres0, splitNode_child, horderK, hkfold, hresK]
    exact ⟨_, rfl, splitNode_isLeaf _ _ _ _ _ _ _⟩
  · exact ⟨pre0, _, hpre0, hlenF⟩

end CubesphereBody


namespace CubesphereBody

theorem c4_root_err :
    SPLIT_THRESHOLD < screenErrorOf
      ((initialBody 1737400 fun _ _ => 0).1 0).data.boundingRadius
      (Vec3.sub ((initialBody 1737400 fun _ _ => 0).1 0).data.worldCenter
        lunarCam).length lunarFov 720 := by
  obtain ⟨_, hbr0l, hbr0u, _, _⟩ := c4_root0_guard
  have h4 := screenError_gt4
    ((initialBody 1737400 fun _ _ => 0).1 0).data.boundingRadius
    (Vec3.sub ((initialBody 1737400 fun _ _ => 0).1 0).data.worldCenter
      lunarCam).length hbr0l hbr0u
    (by rw [c4_center0]; exact c4_root_dist_le)
  unfold SPLIT_THRESHOLD
  linarith

end CubesphereBody

/-- C4 (claim as stated, refuted): in the stated scenario (flat
heightfield, radius 1737400 m, camera at radius + 100000 m directly above
the face-0 center, 70 degree vertical FOV, 720 px screen height, every
patch in view), the first `update()` does NOT produce exactly 4 new
children and exactly one deferred-destroy entry: the traversal recurses
into the freshly created children within the same call, so the frame ends
with at least two meshes in the deferred-destroy collection (the root mesh
and the mesh of a child that split again). -/
theorem C4_counterexample :
    ∃ pre D,
      (CubesphereBody.update 1737400 (fun _ _ => 0)
      (CubesphereBody.initialBody 1737400 fun _ _ => 0).1
      (CubesphereBody.initialBody 1737400 fun _ _ => 0).2
      CubesphereBody.lunarCam CubesphereBody.lunarFov 720
      fun _ _ => 0).2.events
        = pre ++ [CubesphereBody.DevEvent.destroy D] ∧ 2 ≤ D.length :=
  CubesphereBody.c4_main.2.2

/-- C4 (amended): in the stated scenario the face-0 root patch's screen
error does exceed `SPLIT_THRESHOLD` and the root splits on the first
`update()` call — but `updateNode` then recurses into the fresh children
inside the same call, so the root ends the frame as an interior node whose
nearest child is itself interior (at least 8 new nodes in the face-0 tree
alone), and the deferred-destroy collection receives at least two meshes,
not exactly one. -/
theorem C4_root_splits_and_recurses :
    CubesphereBody.SPLIT_THRESHOLD < CubesphereBody.screenErrorOf
      ((CubesphereBody.initialBody 1737400 fun _ _ => 0).1 0).data.boundingRadius
      (Vec3.sub
        ((CubesphereBody.initialBody 1737400 fun _ _ => 0).1 0).data.worldCenter
        CubesphereBody.lunarCam).length CubesphereBody.lunarFov 720 ∧
    (((CubesphereBody.update 1737400 (fun _ _ => 0)
      (CubesphereBody.initialBody 1737400 fun _ _ => 0).1
      (CubesphereBody.initialBody 1737400 fun _ _ => 0).2
      CubesphereBody.lunarCam CubesphereBody.lunarFov 720
      fun _ _ => 0).1 0).isLeaf = false) ∧
    (∃ c, ((CubesphereBody.update 1737400 (fun _ _ => 0)
      (CubesphereBody.initialBody 1737400 fun _ _ => 0).1
      (CubesphereBody.initialBody 1737400 fun _ _ => 0).2
      CubesphereBody.lunarCam CubesphereBody.lunarFov 720
      fun _ _ => 0).1 0).child 0 = CubesphereBody.NodePtr.node c
      ∧ c.isLeaf = false) ∧
    ∃ pre D,
      (CubesphereBody.update 1737400 (fun _ _ => 0)
      (CubesphereBody.initialBody 1737400 fun _ _ => 0).1
      (CubesphereBody.initialBody 1737400 fun _ _ => 0).2
      CubesphereBody.lunarCam CubesphereBody.lunarFov 720
      fun _ _ => 0).2.events
        = pre ++ [CubesphereBody.DevEvent.destroy D] ∧ 2 ≤ D.length :=
  ⟨CubesphereBody.c4_root_err, CubesphereBody.c4_main⟩

end Luna
